import Mathlib

/-!
# Verification of the woke-chess-x4 engine specification

A shallow embedding, in Lean 4, of the parts of the ChessMaster2023 engine
(repository `woke-chess-x4`) that the audited claims are about:

* 64-bit bitboards and the attack computations (`BitBoard.h` / `BitBoard.cpp`);
* the `Board` class: FEN parsing, make/unmake, move generation, legality,
  static exchange evaluation and the draw predicates (`Board.h` / `Board.cpp`);
* the transposition-table record policy (`TranspositionTable.h`);
* the null-move-pruning fragment of `search` (`Search.cpp`);
* the time-budget computation (`Limits.cpp`).

Machine integers are modelled as `Nat` (with explicit `% 2^w` or masking where
the width matters) or as `Int` for the signed score/value types; `u64`
bitboards are `Nat` values kept below `2^64` by masking in the operations that
can overflow.  The two `double` multiplications in `Limits.cpp`
(`msPerMove * 0.9` and `msForMove * 0.95`, truncated back to `time_t`) are
modelled as the exact rational multiplications `* 9 / 10` and `* 19 / 20`;
for every realistic millisecond magnitude (far below `2^52`) the rounded
double product never crosses an integer boundary, so the truncations agree.

The Zobrist key tables and the piece-square tables are data that no audited
claim depends on; the board operations take them as an explicit parameter
(`ZTables`), and all theorems are universally quantified over it.
-/

namespace WokeChess

/-! ## Bit utilities (BitUtils.h / BitBoard.h)

A `BB` is a 64-bit bitboard, represented as a `Nat < 2^64`.
-/

abbrev BB := Nat

def mask64 : Nat := 0xffffffffffffffff

/-- `BitBoard::fromSquare`: `1ull << square`, masked to 64 bits. -/
def bbFromSquare (sq : Nat) : BB := (1 <<< sq) &&& mask64

/-- `BitBoard::test`. -/
def bbTest (b : BB) (sq : Nat) : Bool := b &&& bbFromSquare sq != 0

/-- `BitBoard::set`. -/
def bbSet (b : BB) (sq : Nat) : BB := b ||| bbFromSquare sq

/-- `BitBoard::clear`: `m_value &= ~(1ull << pos)`. -/
def bbClear (b : BB) (sq : Nat) : BB := b &&& (mask64 ^^^ bbFromSquare sq)

/-- `BitBoard::b_not`: 64-bit complement. -/
def bbNot (b : BB) : BB := b ^^^ mask64

/-- `BitBoard::hasMoreThanOne`: `m_value & (m_value - 1)`. -/
def bbHasMoreThanOne (b : BB) : Bool := b &&& (b - 1) != 0

/-- `BitBoard::lsb`: index of the least significant set bit (0 if empty;
the source asserts non-emptiness). Implemented with 64 steps of fuel. -/
def bbLsbAux : Nat → Nat → Nat → Nat
  | 0, _, acc => acc
  | fuel + 1, n, acc => if n % 2 = 1 then acc else bbLsbAux fuel (n / 2) (acc + 1)

def bbLsb (b : BB) : Nat := bbLsbAux 64 b 0

/-- The list of set-bit indices of a bitboard in increasing order: the order in
which `BB_FOR_EACH` / `BitBoard::pop` visits the squares. -/
def bbSquaresAux : Nat → Nat → Nat → List Nat
  | 0, _, _ => []
  | fuel + 1, n, idx =>
    if n = 0 then []
    else if n % 2 = 1 then idx :: bbSquaresAux fuel (n / 2) (idx + 1)
    else bbSquaresAux fuel (n / 2) (idx + 1)

def bbSquares (b : BB) : List Nat := bbSquaresAux 64 b 0

/-! ## Files, ranks, directions (Defs.h) -/

/-- `BitBoard::FILE_A << file`. -/
def fileBB (f : Nat) : BB := (0x0101010101010101 <<< f) &&& mask64

/-- `BitBoard::RANK_1 << (rank << 3)`. -/
def rankBB (r : Nat) : BB := (0xff <<< (r <<< 3)) &&& mask64

/-- `BitBoard::fromColor`: `0xAA55AA55AA55AA55 << color`. -/
def colorBB (c : Nat) : BB := (0xAA55AA55AA55AA55 <<< c) &&& mask64

/-- Direction values from `Defs.h`:
`UP = 0, LEFT = 1, UPLEFT = 2, UPRIGHT = 3, DOWNLEFT = 4, DOWNRIGHT = 5,
RIGHT = 6, DOWN = 7`. -/
def dirUP : Nat := 0
def dirLEFT : Nat := 1
def dirUPLEFT : Nat := 2
def dirUPRIGHT : Nat := 3
def dirDOWNLEFT : Nat := 4
def dirDOWNRIGHT : Nat := 5
def dirRIGHT : Nat := 6
def dirDOWN : Nat := 7

/-- `Direction::getOpposite`: `0x7 & ~m_value`, i.e. `7 - d` for `d ≤ 7`. -/
def dirOpposite (d : Nat) : Nat := 7 - d

/-- `Direction::makeRelativeDirection`: unchanged for white, opposite for black. -/
def relDir (side d : Nat) : Nat := if side = 1 then d else dirOpposite d

/-- `BitBoard::shift` (with the file-boundary clipping of the source). -/
def bbShift (d : Nat) (b : BB) : BB :=
  if d = dirUP then (b <<< 8) &&& mask64
  else if d = dirDOWN then b >>> 8
  else if d = dirLEFT then (b >>> 1) &&& bbNot (fileBB 7)
  else if d = dirRIGHT then ((b <<< 1) &&& mask64) &&& bbNot (fileBB 0)
  else if d = dirUPRIGHT then ((b <<< 9) &&& mask64) &&& bbNot (fileBB 0)
  else if d = dirUPLEFT then ((b <<< 7) &&& mask64) &&& bbNot (fileBB 7)
  else if d = dirDOWNRIGHT then (b >>> 7) &&& bbNot (fileBB 0)
  else if d = dirDOWNLEFT then (b >>> 9) &&& bbNot (fileBB 7)
  else 0

/-- Square helpers (`Square` is a `u8`; `Square(file, rank) = file | (rank << 3)`,
with wrap-around modulo 256 as in the source's `u8` arithmetic). -/
def mkSquare (f r : Nat) : Nat := (f ||| (r <<< 3)) % 256

def sqFile (sq : Nat) : Nat := sq &&& 7

def sqRank (sq : Nat) : Nat := sq >>> 3

/-- `Square::forward(value)`: `u8(m_value + value)`. -/
def sqForward (sq v : Nat) : Nat := (sq + v) % 256

/-- `Square::backward(value)`: `u8(m_value - value)`. -/
def sqBackward (sq v : Nat) : Nat := (sq + 256 - v % 256) % 256

/-- `Square::shift` (square version, u8 wrap-around). -/
def sqShift (d : Nat) (sq : Nat) : Nat :=
  if d = dirUP then (sq + 8) % 256
  else if d = dirDOWN then (sq + 256 - 8) % 256
  else if d = dirLEFT then (sq + 256 - 1) % 256
  else if d = dirRIGHT then (sq + 1) % 256
  else if d = dirUPRIGHT then (sq + 9) % 256
  else if d = dirUPLEFT then (sq + 7) % 256
  else if d = dirDOWNRIGHT then (sq + 256 - 7) % 256
  else if d = dirDOWNLEFT then (sq + 256 - 9) % 256
  else 64

/-- `Square::makeRelativeSquare`: `sq ^ (0x38 * color.getOpposite())`. -/
def relSquare (side sq : Nat) : Nat := sq ^^^ (0x38 * ((side ^^^ 1) &&& 1))

/-- `File::distance` / `Rank::distance`: absolute difference. -/
def natDist (a b : Nat) : Nat := if a < b then b - a else a - b

/-- `Square::distance`: Chebyshev distance (from `Square::init`). -/
def sqDistance (a b : Nat) : Nat :=
  max (natDist (sqRank a) (sqRank b)) (natDist (sqFile a) (sqFile b))

/-! ## Piece encodings (Defs.h)

`Color`: `BLACK = 0`, `WHITE = 1`.  `PieceType`: `NONE = 0, PAWN = 1, KNIGHT = 2,
BISHOP = 3, ROOK = 4, QUEEN = 5, KING = 6`.  `Piece(color, pt) = color | (pt << 1)`.
-/

def ptNONE : Nat := 0
def ptPAWN : Nat := 1
def ptKNIGHT : Nat := 2
def ptBISHOP : Nat := 3
def ptROOK : Nat := 4
def ptQUEEN : Nat := 5
def ptKING : Nat := 6

def mkPiece (c pt : Nat) : Nat := c ||| (pt <<< 1)

def pieceColor (p : Nat) : Nat := p &&& 1

def pieceType (p : Nat) : Nat := p >>> 1

/-- `Piece::fromFENChar`; the unreachable default returns `NONE`. -/
def pieceFromFENChar (ch : Char) : Nat :=
  if ch = 'P' then mkPiece 1 ptPAWN
  else if ch = 'N' then mkPiece 1 ptKNIGHT
  else if ch = 'B' then mkPiece 1 ptBISHOP
  else if ch = 'R' then mkPiece 1 ptROOK
  else if ch = 'Q' then mkPiece 1 ptQUEEN
  else if ch = 'K' then mkPiece 1 ptKING
  else if ch = 'p' then mkPiece 0 ptPAWN
  else if ch = 'n' then mkPiece 0 ptKNIGHT
  else if ch = 'b' then mkPiece 0 ptBISHOP
  else if ch = 'r' then mkPiece 0 ptROOK
  else if ch = 'q' then mkPiece 0 ptQUEEN
  else if ch = 'k' then mkPiece 0 ptKING
  else 0

/-! ## Attack computations (BitBoard.cpp)

The magic tables are initialised from `BitBoard::slidingAttack`, which is the
observable contract of `BitBoard::attacksOf` for sliders; we embed
`slidingAttack` directly (walking a single-bit bitboard in a direction until
blocked, exactly as the source loop does).
-/

/-- One ray walk of `BitBoard::slidingAttack`:
`while (bb = bb.shift(dir)) { result |= bb; if (occupied & bb) break; }`. -/
def walkRay (occ : BB) (d : Nat) : Nat → BB → BB
  | 0, _ => 0
  | fuel + 1, bb =>
    let bb' := bbShift d bb
    if bb' = 0 then 0
    else if occ &&& bb' != 0 then bb'
    else bb' ||| walkRay occ d fuel bb'

/-- `BitBoard::slidingAttack`. -/
def slidingAttack (pt sq : Nat) (occ : BB) : BB :=
  if pt = ptROOK then
    walkRay occ dirUP 8 (bbFromSquare sq) |||
    walkRay occ dirDOWN 8 (bbFromSquare sq) |||
    walkRay occ dirRIGHT 8 (bbFromSquare sq) |||
    walkRay occ dirLEFT 8 (bbFromSquare sq)
  else if pt = ptBISHOP then
    walkRay occ dirUPLEFT 8 (bbFromSquare sq) |||
    walkRay occ dirDOWNLEFT 8 (bbFromSquare sq) |||
    walkRay occ dirUPRIGHT 8 (bbFromSquare sq) |||
    walkRay occ dirDOWNRIGHT 8 (bbFromSquare sq)
  else 0

/-- `s_directionBits[sq][dir]`: the full ray from `sq` in direction `dir`
(the init loops of `BitBoard::init` walk until the board edge, which is
exactly a ray walk with empty occupancy). -/
def directionBits (sq d : Nat) : BB := walkRay 0 d 8 (bbFromSquare sq)

/-- `BitBoard::pawnAttackedSquares<Side>`. -/
def pawnAttackedSquares (side : Nat) (b : BB) : BB :=
  if side = 1 then bbShift dirUPLEFT b ||| bbShift dirUPRIGHT b
  else bbShift dirDOWNLEFT b ||| bbShift dirDOWNRIGHT b

/-- `s_pawnAttacks[color][sq]`. -/
def pawnAttacks (c sq : Nat) : BB := pawnAttackedSquares c (bbFromSquare sq)

/-- `s_pieceAttacks[KING][sq]`: union of the 8 single-square shifts. -/
def kingAttacks (sq : Nat) : BB :=
  let b := bbFromSquare sq
  bbShift dirUP b ||| bbShift dirLEFT b ||| bbShift dirUPLEFT b |||
  bbShift dirUPRIGHT b ||| bbShift dirDOWNLEFT b ||| bbShift dirDOWNRIGHT b |||
  bbShift dirRIGHT b ||| bbShift dirDOWN b

/-- `s_pieceAttacks[KNIGHT][sq]`. -/
def knightAttacks (sq : Nat) : BB :=
  let b := bbFromSquare sq
  bbShift dirUPLEFT (bbShift dirUP b) |||
  bbShift dirUPRIGHT (bbShift dirUP b) |||
  bbShift dirUPLEFT (bbShift dirLEFT b) |||
  bbShift dirDOWNLEFT (bbShift dirLEFT b) |||
  bbShift dirUPRIGHT (bbShift dirRIGHT b) |||
  bbShift dirDOWNRIGHT (bbShift dirRIGHT b) |||
  bbShift dirDOWNLEFT (bbShift dirDOWN b) |||
  bbShift dirDOWNRIGHT (bbShift dirDOWN b)

/-- `s_pieceAttacks[pt][sq]` (`BitBoard::pseudoAttacks`). -/
def pseudoAttacks (pt sq : Nat) : BB :=
  if pt = ptKING then kingAttacks sq
  else if pt = ptKNIGHT then knightAttacks sq
  else if pt = ptBISHOP then slidingAttack ptBISHOP sq 0
  else if pt = ptROOK then slidingAttack ptROOK sq 0
  else if pt = ptQUEEN then slidingAttack ptBISHOP sq 0 ||| slidingAttack ptROOK sq 0
  else 0

/-- `BitBoard::attacksOf`. -/
def attacksOf (pt sq : Nat) (occ : BB) : BB :=
  if pt = ptBISHOP then slidingAttack ptBISHOP sq occ
  else if pt = ptROOK then slidingAttack ptROOK sq occ
  else if pt = ptQUEEN then slidingAttack ptROOK sq occ ||| slidingAttack ptBISHOP sq occ
  else pseudoAttacks pt sq

/-- The direction (if any) for which `b` lies on the ray from `a`:
in `BitBoard::init` each collinear pair is visited for exactly one direction. -/
def rayDirAux (a b : Nat) : List Nat → Option Nat
  | [] => none
  | d :: rest => if bbTest (directionBits a d) b then some d else rayDirAux a b rest

def rayDir (a b : Nat) : Option Nat := rayDirAux a b [0, 1, 2, 3, 4, 5, 6, 7]

/-- `s_betweenBits[a][b]`: `dirBits[a][d] & ~dirBits[b][d]` for collinear pairs,
and (for every pair) the singleton `{b}` is OR-ed in afterwards. -/
def betweenBits (a b : Nat) : BB :=
  match rayDir a b with
  | some d => (directionBits a d &&& bbNot (directionBits b d)) ||| bbFromSquare b
  | none => bbFromSquare b

/-- `s_alignedBits[a][b]`: the full line through `a` and `b` when collinear. -/
def alignedBits (a b : Nat) : BB :=
  match rayDir a b with
  | some d => directionBits a d ||| directionBits a (dirOpposite d) ||| bbFromSquare a
  | none => 0

/-- `BitBoard::areAligned`. -/
def areAligned (a b c : Nat) : Bool := bbTest (alignedBits a b) c

/-- `s_castlingInternalSquares[color][castle]` (`QUEEN_CASTLE = 0, KING_CASTLE = 1`). -/
def castlingInternalSquares (c castle : Nat) : BB :=
  if c = 1 then
    if castle = 1 then bbFromSquare 5 ||| bbFromSquare 6
    else bbFromSquare 1 ||| bbFromSquare 2 ||| bbFromSquare 3
  else
    if castle = 1 then bbFromSquare 61 ||| bbFromSquare 62
    else bbFromSquare 57 ||| bbFromSquare 58 ||| bbFromSquare 59

/-- `Castle::getBitMaskFor` (`MASKS[color][castle]`). -/
def castleBitMaskFor (castle c : Nat) : Nat :=
  if c = 1 then
    if castle = 0 then 0x4 else if castle = 1 then 0x8
    else if castle = 2 then 0xc else 0x20
  else
    if castle = 0 then 0x1 else if castle = 1 then 0x2
    else if castle = 2 then 0x3 else 0x10

/-- `Castle::hasCastleRight`. -/
def hasCastleRight (rights castle c : Nat) : Bool :=
  rights &&& castleBitMaskFor castle c = castleBitMaskFor castle c

/-- `Castle::bitMaskFromFENChar` (the unreachable default yields 0). -/
def castleMaskFromFENChar (ch : Char) : Nat :=
  if ch = 'K' then castleBitMaskFor 1 1
  else if ch = 'Q' then castleBitMaskFor 0 1
  else if ch = 'k' then castleBitMaskFor 1 0
  else if ch = 'q' then castleBitMaskFor 0 0
  else 0

/-- `Castle::init`'s `castleChange` table, and
`Castle::getCastleChangeMask(sq) = u8(~castleChange[sq])`. -/
def castleChange (sq : Nat) : Nat :=
  if sq = 0 then 4 else if sq = 4 then 12 else if sq = 7 then 8
  else if sq = 56 then 1 else if sq = 60 then 3 else if sq = 63 then 2
  else 0

def getCastleChangeMask (sq : Nat) : Nat := 255 - castleChange sq

/-! ## Scores (Score.h, Scores.h, Scores.cpp)

`Value` is an `i16` in the source; all the score arithmetic the claims touch
stays far inside the `i16` range, so values are modelled as `Int`.
`Score` packs a middlegame and an endgame value.
-/

structure Score where
  mg : Int
  eg : Int
deriving DecidableEq

def Score.add (a b : Score) : Score := ⟨a.mg + b.mg, a.eg + b.eg⟩

def Score.sub (a b : Score) : Score := ⟨a.mg - b.mg, a.eg - b.eg⟩

/-- `Material::materialOf`. -/
def materialOf (pt : Nat) : Int :=
  if pt = ptPAWN then 1
  else if pt = ptKNIGHT then 3
  else if pt = ptBISHOP then 3
  else if pt = ptROOK then 5
  else if pt = ptQUEEN then 10
  else 0

/-- `scores::PIECE_VALUE` (Scores.cpp). -/
def PIECE_VALUE (pt : Nat) : Score :=
  if pt = ptPAWN then ⟨100, 130⟩
  else if pt = ptKNIGHT then ⟨320, 360⟩
  else if pt = ptBISHOP then ⟨350, 390⟩
  else if pt = ptROOK then ⟨550, 650⟩
  else if pt = ptQUEEN then ⟨1050, 1150⟩
  else ⟨0, 0⟩

/-- `scores::SIMPLIFIED_PIECE_VALUES[piece]`, as computed by `initScores`:
`(PIECE_VALUE[piece.getType()].middlegame() + ....endgame()) / 2`. -/
def SIMPLIFIED_PIECE_VALUES (p : Nat) : Int :=
  ((PIECE_VALUE (pieceType p)).mg + (PIECE_VALUE (pieceType p)).eg).tdiv 2

/-- `zobrist::MOVE_KEY`. -/
def zMOVE_KEY : Nat := 0x54ca3eb5b5f3cb5b

/-- `zobrist::NULL_MOVE_KEY`. -/
def zNULL_MOVE_KEY : Nat := 0x08d9bc25bebf91b1

/-- The random Zobrist key tables (`zobrist::PIECE/SIDE/EP/CASTLING`) and the
piece-square tables `scores::PST` (after `initScores`) are opaque data none of
the audited claims depend on; the board operations take them as a parameter
and every theorem quantifies over them. -/
structure ZTables where
  zPiece : Nat → Nat → Nat
  zSide : Nat → Nat
  zEp : Nat → Nat
  zCastling : Nat → Nat
  pst : Nat → Nat → Score

/-- A concrete all-zero instance, used to evaluate witnesses. -/
def zZero : ZTables := ⟨fun _ _ => 0, fun _ => 0, fun _ => 0, fun _ => 0, fun _ _ => ⟨0, 0⟩⟩

/-! ## Moves (Move.h)

A move is its 16-bit `m_data` (the companion ordering score is not part of
move identity): `from(0-5) | to(6-11) | promotedPiece-KNIGHT(12-13) | type(14-15)`.
-/

def mtSIMPLE : Nat := 0
def mtPROMOTION : Nat := 1
def mtENPASSANT : Nat := 2
def mtCASTLE : Nat := 3

/-- `Move(from, to, mt, promotedPiece)`; `u32(promotedPiece - PieceType::KNIGHT)`
wraps in `u32`, of which only the low four bits can survive into `m_data`. -/
def mvMk (sqF sqT mt pp : Nat) : Nat :=
  (sqF ||| (sqT <<< 6) ||| (((pp + 14) % 16) <<< 12) ||| (mt <<< 14)) % 65536

/-- `Move(from, to)`. -/
def mvMkSimple (sqF sqT : Nat) : Nat := mvMk sqF sqT mtSIMPLE ptKNIGHT

def mvFrom (m : Nat) : Nat := m &&& 0x3f

def mvTo (m : Nat) : Nat := (m >>> 6) &&& 0x3f

def mvPromo (m : Nat) : Nat := ((m >>> 12) &&& 0x3) + ptKNIGHT

def mvType (m : Nat) : Nat := (m >>> 14) &&& 0x3

def mvNull : Nat := 0

/-! ## The Board (Board.h / Board.cpp)

`m_board` is modelled as a total function `Nat → Nat` (piece codes); the
source's fixed `Piece[64]` array is only ever indexed below 64 on the inputs
the claims quantify over.  The `StateInfo` stack is a list with the *current*
state at the head (the source's `m_states.back()`), so `m_states[k]`
(0-based from the bottom of a stack of size `n`) is entry `n - 1 - k` of the
list. -/

structure StateInfo where
  checkBlockers : Nat → BB
  pinners : Nat → BB
  checkGivers : BB
  hash : Nat
  lastRepetition : Nat
  movesFromNull : Nat
  ep : Nat
  captured : Nat
  fiftyRule : Nat
  castleRight : Nat

/-- The default-constructed `StateInfo` (`ep = Square::NO_POS = 64`). -/
def StateInfo.dflt : StateInfo :=
  ⟨fun _ => 0, fun _ => 0, 0, 0, 0, 0, 64, 0, 0, 0⟩

@[ext]
structure Board where
  board : Nat → Nat
  pieces : Nat → BB
  piecesByColor : Nat → BB
  states : List StateInfo
  material : Nat → Int
  score : Nat → Score
  moveCount : Nat
  side : Nat

/-- Pointwise function update, for the source's array writes. -/
def fnUpdate {α : Type} (f : Nat → α) (k : Nat) (v : α) : Nat → α :=
  fun x => if x = k then v else f x

/-- `Board::Board()`: the empty board with one default state. -/
def Board.empty : Board :=
  ⟨fun _ => 0, fun _ => 0, fun _ => 0, [StateInfo.dflt], fun _ => 0,
   fun _ => ⟨0, 0⟩, 1, 1⟩

def Board.state (b : Board) : StateInfo := b.states.headD StateInfo.dflt

def Board.modifyState (b : Board) (f : StateInfo → StateInfo) : Board :=
  { b with states := f b.state :: b.states.tail }

def Board.byPiece (b : Board) (p : Nat) : BB := b.pieces p

def Board.byColor (b : Board) (c : Nat) : BB := b.piecesByColor c

def Board.allPieces (b : Board) : BB := b.piecesByColor 1 ||| b.piecesByColor 0

def Board.byPieceType (b : Board) (pt : Nat) : BB :=
  b.pieces (mkPiece 1 pt) ||| b.pieces (mkPiece 0 pt)

def Board.pawns (b : Board) (c : Nat) : BB := b.pieces (mkPiece c ptPAWN)

def Board.bishops (b : Board) (c : Nat) : BB := b.pieces (mkPiece c ptBISHOP)

def Board.rooks (b : Board) (c : Nat) : BB := b.pieces (mkPiece c ptROOK)

def Board.queens (b : Board) (c : Nat) : BB := b.pieces (mkPiece c ptQUEEN)

def Board.rooksAndQueens (b : Board) (c : Nat) : BB := b.rooks c ||| b.queens c

def Board.bishopsAndQueens (b : Board) (c : Nat) : BB := b.bishops c ||| b.queens c

/-- `Board::king`: the lsb of the king bitboard. -/
def Board.king (b : Board) (c : Nat) : Nat := bbLsb (b.pieces (mkPiece c ptKING))

def Board.checkBlockers (b : Board) (c : Nat) : BB := b.state.checkBlockers c

def Board.checkGivers (b : Board) : BB := b.state.checkGivers

def Board.isInCheck (b : Board) : Bool := b.state.checkGivers != 0

/-- `Board::computeAttackersOf<Side>(sq, occ)`: attackers of colour `side`. -/
def Board.computeAttackersOf (b : Board) (side sq : Nat) (occ : BB) : BB :=
  (pawnAttacks (side ^^^ 1) sq &&& b.byPiece (mkPiece side ptPAWN)) |||
  (attacksOf ptKNIGHT sq occ &&& b.byPiece (mkPiece side ptKNIGHT)) |||
  (attacksOf ptBISHOP sq occ &&& b.byPiece (mkPiece side ptBISHOP)) |||
  (attacksOf ptROOK sq occ &&& b.byPiece (mkPiece side ptROOK)) |||
  (attacksOf ptQUEEN sq occ &&& b.byPiece (mkPiece side ptQUEEN)) |||
  (attacksOf ptKING sq occ &&& b.byPiece (mkPiece side ptKING))

/-- `Board::computeAllAttackersOf`. -/
def Board.computeAllAttackersOf (b : Board) (sq : Nat) (occ : BB) : BB :=
  b.computeAttackersOf 0 sq occ ||| b.computeAttackersOf 1 sq occ

/-- `Board::updateInternalState(side)`: recompute check blockers (for `side`)
and pinners (of `side.getOpposite()`). -/
def updateInternalStateFor (b : Board) (side : Nat) (st : StateInfo) : StateInfo :=
  let kingSq := b.king side
  let st := { st with checkBlockers := fnUpdate st.checkBlockers side 0 }
  let snipers :=
    (pseudoAttacks ptBISHOP kingSq &&& b.bishopsAndQueens (side ^^^ 1)) |||
    (pseudoAttacks ptROOK kingSq &&& b.rooksAndQueens (side ^^^ 1))
  let occupancy := b.allPieces ^^^ snipers
  (bbSquares snipers).foldl (fun st sq =>
    let bb := betweenBits kingSq sq &&& occupancy
    if bb != 0 && !bbHasMoreThanOne bb then
      let st := { st with
        checkBlockers := fnUpdate st.checkBlockers side (st.checkBlockers side ||| bb) }
      if bb &&& b.byColor side != 0 then
        { st with pinners := fnUpdate st.pinners (side ^^^ 1)
                               (bbSet (st.pinners (side ^^^ 1)) sq) }
      else st
    else st) st

/-- `Board::updateInternalState()`. -/
def Board.updateInternalState (b : Board) : Board :=
  b.modifyState fun st =>
    let st := { st with
      checkGivers := b.computeAttackersOf (b.side ^^^ 1) (b.king b.side) b.allPieces }
    updateInternalStateFor b 0 (updateInternalStateFor b 1 st)

/-- `Board::initInternalState()`: sets `checkGivers`, then calls
`updateInternalState` (which recomputes `checkGivers` again). -/
def Board.initInternalState (b : Board) : Board :=
  (b.modifyState fun st =>
    { st with
      checkGivers := b.computeAttackersOf (b.side ^^^ 1) (b.king b.side) b.allPieces }
    ).updateInternalState

/-! ## FEN parsing (Board.cpp, `Board::fromFEN`)

The `bool& success` out-parameter is modelled as an `Option Bool`:
`some v` when the function assigns `success = v`, and `none` on the
graceful-truncation return paths that leave the caller's variable untouched.
-/

/-- `str_utils::isDigit`. -/
def chIsDigit (ch : Char) : Bool := '0' ≤ ch && ch ≤ '9'

/-- C `tolower` on the ASCII range. -/
def chToLower (ch : Char) : Nat :=
  if 65 ≤ ch.toNat && ch.toNat ≤ 90 then ch.toNat + 32 else ch.toNat

/-- `Square::fromChars(f, r)` =
`Square(File(tolower(f) - 'a'), Rank(r - '1'))` with `u8` wrap-around. -/
def sqFromChars (f r : Char) : Nat :=
  mkSquare ((chToLower f + 256 - 97) % 256) ((r.toNat + 256 - 49) % 256)

/-- `str_utils::fromString<u8>(str, i)`: returns the parsed value and the
final index.  `PREVIOUS_VALUE_MAX = 255 / 10 = 25`. -/
def fromStringAux (lim modv : Nat) (s : List Char) : Nat → Nat → Nat → Nat × Nat
  | 0, res, i => (res, i)
  | fuel + 1, res, i =>
    if i < s.length then
      let ch := s.getD i ' '
      if !chIsDigit ch then (res, i)
      else
        let res := (res * 10 + (ch.toNat - 48)) % modv
        if res ≥ lim then (res, i)
        else fromStringAux lim modv s fuel res (i + 1)
    else (res, i)

def fromStringU8 (s : List Char) (i : Nat) : Nat × Nat :=
  if s.length = 0 then (0, i) else fromStringAux 25 256 s (s.length + 1) 0 i

def fromStringU32 (s : List Char) (i : Nat) : Nat × Nat :=
  if s.length = 0 then (0, i) else fromStringAux 429496729 4294967296 s (s.length + 1) 0 i

/-- The piece-placement loop of `Board::fromFEN`; returns the updated board,
the index of the terminating space (or the end), and whether parsing
succeeded. -/
def fenPlacement (T : ZTables) : Nat → Board → Nat → List Char → Nat →
    Board × Nat × Bool
  | 0, b, _, _, i => (b, i, true)
  | fuel + 1, b, sq, s, i =>
    if i < s.length && s.getD i ' ' != ' ' then
      let ch := s.getD i ' '
      if chIsDigit ch then
        fenPlacement T fuel b ((sq + (ch.toNat - 48)) % 256) s (i + 1)
      else if ch = '/' then
        fenPlacement T fuel b
          (mkSquare 0 (((((sq + 255) % 256) >>> 3) + 255) % 256)) s (i + 1)
      else
        let piece := pieceFromFENChar ch
        if piece = 0 then (b, i, false)
        else
          let b := { b with
            board := fnUpdate b.board sq piece
            pieces := fnUpdate b.pieces piece (bbSet (b.pieces piece) sq)
            piecesByColor := fnUpdate b.piecesByColor (pieceColor piece)
              (bbSet (b.piecesByColor (pieceColor piece)) sq)
            material := fnUpdate b.material (pieceColor piece)
              (b.material (pieceColor piece) + materialOf (pieceType piece))
            score := fnUpdate b.score (pieceColor piece)
              ((b.score (pieceColor piece)).add (T.pst piece sq)) }
          let b := b.modifyState fun st => { st with hash := st.hash ^^^ T.zPiece piece sq }
          fenPlacement T fuel b ((sq + 1) % 256) s (i + 1)
    else (b, i, true)

/-- The castling-rights loop of `Board::fromFEN`. -/
def fenCastling : Nat → Board → List Char → Nat → Board × Nat
  | 0, b, _, i => (b, i)
  | fuel + 1, b, s, i =>
    if i < s.length && s.getD i ' ' != ' ' then
      let mask := castleMaskFromFENChar (s.getD i ' ')
      let b := b.modifyState fun st => { st with castleRight := st.castleRight ||| mask }
      fenCastling fuel b s (i + 1)
    else (b, i)

/-- `Board::fromFEN`.  `A8 = Square 56`. -/
def fromFEN (T : ZTables) (s : List Char) : Board × Option Bool :=
  let (b, i, ok) := fenPlacement T (s.length + 1) Board.empty 56 s 0
  if !ok then (b, some false)
  else
    let i := i + 1
    if i ≥ s.length then (b, some false)
    else
      let side := if s.getD i ' ' = 'w' then 1 else 0
      let b := { b with side := side }
      let b := b.modifyState fun st => { st with hash := st.hash ^^^ T.zSide side }
      let i := i + 1
      if i + 1 ≥ s.length then (b, none)
      else
        let i := i + 1
        let (b, i) :=
          if s.getD i ' ' != '-' then fenCastling (s.length + 1) b s i
          else (b, i + 1)
        if i + 1 ≥ s.length then (b, none)
        else
          let i := i + 1
          let (b, i, fail) :=
            if s.getD i ' ' != '-' then
              if i + 1 ≥ s.length then (b, i, true)
              else
                let b := b.modifyState fun st =>
                  { st with ep := sqFromChars (s.getD i ' ') (s.getD (i + 1) ' ') }
                (b, i + 1, false)
            else (b, i, false)
          if fail then (b, some false)
          else
            let i := i + 1
            if i + 1 ≥ s.length then (b, none)
            else
              let i := i + 1
              let (v, i) := fromStringU8 s i
              let b := b.modifyState fun st => { st with fiftyRule := v }
              let i := i + 1
              if i ≥ s.length then (b, none)
              else
                let (fenMoveCount, _) := fromStringU32 s i
                let b := { b with
                  moveCount := (if fenMoveCount != 0 then 2 * (fenMoveCount - 1) else 0)
                    + (b.side ^^^ 1) }
                (b.initInternalState, some true)

/-! ## Board mutation helpers (Board.h, private section) -/

/-- `Board::movePieceWithCapture<Side>`; returns the captured piece. -/
def movePieceWithCapture (T : ZTables) (S : Nat) (b : Board) (piece sqF sqT : Nat) :
    Board × Nat :=
  let change := bbFromSquare sqF ||| bbFromSquare sqT
  let captured := b.board sqT
  let b := { b with
    board := fnUpdate (fnUpdate b.board sqF 0) sqT piece
    pieces := fnUpdate b.pieces piece (b.pieces piece ^^^ change)
    piecesByColor := fnUpdate b.piecesByColor S (b.piecesByColor S ^^^ change)
    score := fnUpdate b.score S
      ((b.score S).add ((T.pst piece sqT).sub (T.pst piece sqF))) }
  if captured != 0 then
    ({ b with
      pieces := fnUpdate b.pieces captured (bbClear (b.pieces captured) sqT)
      piecesByColor := fnUpdate b.piecesByColor (S ^^^ 1)
        (bbClear (b.piecesByColor (S ^^^ 1)) sqT)
      score := fnUpdate b.score (S ^^^ 1) ((b.score (S ^^^ 1)).sub (T.pst captured sqT))
      material := fnUpdate b.material (S ^^^ 1)
        (b.material (S ^^^ 1) - materialOf (pieceType captured)) }, captured)
  else (b, captured)

/-- `Board::unmovePieceWithCapture<Side>`. -/
def unmovePieceWithCapture (T : ZTables) (S : Nat) (b : Board)
    (piece captured sqF sqT : Nat) : Board :=
  let change := bbFromSquare sqF ||| bbFromSquare sqT
  let b := { b with
    board := fnUpdate (fnUpdate b.board sqT captured) sqF piece
    pieces := fnUpdate b.pieces piece (b.pieces piece ^^^ change)
    piecesByColor := fnUpdate b.piecesByColor S (b.piecesByColor S ^^^ change)
    score := fnUpdate b.score S
      ((b.score S).sub ((T.pst piece sqT).sub (T.pst piece sqF))) }
  if captured != 0 then
    { b with
      pieces := fnUpdate b.pieces captured (bbSet (b.pieces captured) sqT)
      piecesByColor := fnUpdate b.piecesByColor (S ^^^ 1)
        (bbSet (b.piecesByColor (S ^^^ 1)) sqT)
      score := fnUpdate b.score (S ^^^ 1) ((b.score (S ^^^ 1)).add (T.pst captured sqT))
      material := fnUpdate b.material (S ^^^ 1)
        (b.material (S ^^^ 1) + materialOf (pieceType captured)) }
  else b

/-- `Board::doEnpassant<Side, IsDoing>`. -/
def doEnpassant (T : ZTables) (S : Nat) (isDoing : Bool) (b : Board) (sqF sqT : Nat) :
    Board :=
  let ourPawn := mkPiece S ptPAWN
  let oppPawn := mkPiece (S ^^^ 1) ptPAWN
  let change := bbFromSquare sqF ||| bbFromSquare sqT
  let capturedSq := if S = 1 then sqBackward sqT 8 else sqForward sqT 8
  if isDoing then
    { b with
      board := fnUpdate (fnUpdate (fnUpdate b.board sqT ourPawn) sqF 0) capturedSq 0
      pieces := fnUpdate (fnUpdate b.pieces ourPawn (b.pieces ourPawn ^^^ change))
        oppPawn (bbClear (b.pieces oppPawn) capturedSq)
      piecesByColor := fnUpdate
        (fnUpdate b.piecesByColor S (b.piecesByColor S ^^^ change))
        (S ^^^ 1) (bbClear (b.piecesByColor (S ^^^ 1)) capturedSq)
      score := fnUpdate
        (fnUpdate b.score S
          ((b.score S).add ((T.pst ourPawn sqT).sub (T.pst ourPawn sqF))))
        (S ^^^ 1) ((b.score (S ^^^ 1)).sub (T.pst oppPawn capturedSq))
      material := fnUpdate b.material (S ^^^ 1)
        (b.material (S ^^^ 1) - materialOf ptPAWN) }
  else
    { b with
      board := fnUpdate (fnUpdate (fnUpdate b.board sqF ourPawn) sqT 0) capturedSq oppPawn
      pieces := fnUpdate (fnUpdate b.pieces ourPawn (b.pieces ourPawn ^^^ change))
        oppPawn (bbSet (b.pieces oppPawn) capturedSq)
      piecesByColor := fnUpdate
        (fnUpdate b.piecesByColor S (b.piecesByColor S ^^^ change))
        (S ^^^ 1) (bbSet (b.piecesByColor (S ^^^ 1)) capturedSq)
      score := fnUpdate
        (fnUpdate b.score S
          ((b.score S).sub ((T.pst ourPawn sqT).sub (T.pst ourPawn sqF))))
        (S ^^^ 1) ((b.score (S ^^^ 1)).add (T.pst oppPawn capturedSq))
      material := fnUpdate b.material (S ^^^ 1)
        (b.material (S ^^^ 1) + materialOf ptPAWN) }

/-- `Board::promotePawn<Side, IsDoing>` (promotion without capture, or its undo). -/
def promotePawn (T : ZTables) (S : Nat) (isDoing : Bool) (b : Board)
    (promoted sqF sqT : Nat) : Board :=
  let ourPawn := mkPiece S ptPAWN
  let change := bbFromSquare sqF ||| bbFromSquare sqT
  if isDoing then
    { b with
      board := fnUpdate (fnUpdate b.board sqF 0) sqT promoted
      pieces := fnUpdate (fnUpdate b.pieces ourPawn (bbClear (b.pieces ourPawn) sqF))
        promoted (bbSet (b.pieces promoted) sqT)
      piecesByColor := fnUpdate b.piecesByColor S (b.piecesByColor S ^^^ change)
      score := fnUpdate b.score S
        ((b.score S).add ((T.pst promoted sqT).sub (T.pst ourPawn sqF)))
      material := fnUpdate b.material S
        (b.material S + (materialOf (pieceType promoted) - materialOf ptPAWN)) }
  else
    { b with
      board := fnUpdate (fnUpdate b.board sqT 0) sqF ourPawn
      pieces := fnUpdate (fnUpdate b.pieces ourPawn (bbSet (b.pieces ourPawn) sqF))
        promoted (bbClear (b.pieces promoted) sqT)
      piecesByColor := fnUpdate b.piecesByColor S (b.piecesByColor S ^^^ change)
      score := fnUpdate b.score S
        ((b.score S).sub ((T.pst promoted sqT).sub (T.pst ourPawn sqF)))
      material := fnUpdate b.material S
        (b.material S - (materialOf (pieceType promoted) - materialOf ptPAWN)) }

/-- `Board::promotePawnWithCapture<Side>`; returns the captured piece. -/
def promotePawnWithCapture (T : ZTables) (S : Nat) (b : Board)
    (promoted sqF sqT : Nat) : Board × Nat :=
  let ourPawn := mkPiece S ptPAWN
  let change := bbFromSquare sqF ||| bbFromSquare sqT
  let captured := b.board sqT
  let b := { b with
    board := fnUpdate (fnUpdate b.board sqF 0) sqT promoted
    pieces := fnUpdate (fnUpdate b.pieces ourPawn (bbClear (b.pieces ourPawn) sqF))
      promoted (bbSet (b.pieces promoted) sqT)
    piecesByColor := fnUpdate b.piecesByColor S (b.piecesByColor S ^^^ change)
    score := fnUpdate b.score S
      ((b.score S).add ((T.pst promoted sqT).sub (T.pst ourPawn sqF)))
    material := fnUpdate b.material S
      (b.material S + (materialOf (pieceType promoted) - materialOf ptPAWN)) }
  if captured != 0 then
    ({ b with
      pieces := fnUpdate b.pieces captured (bbClear (b.pieces captured) sqT)
      piecesByColor := fnUpdate b.piecesByColor (S ^^^ 1)
        (bbClear (b.piecesByColor (S ^^^ 1)) sqT)
      score := fnUpdate b.score (S ^^^ 1) ((b.score (S ^^^ 1)).sub (T.pst captured sqT))
      material := fnUpdate b.material (S ^^^ 1)
        (b.material (S ^^^ 1) - materialOf (pieceType captured)) }, captured)
  else (b, captured)

/-- `Board::unpromotePawnWithCapture<Side>`. -/
def unpromotePawnWithCapture (T : ZTables) (S : Nat) (b : Board)
    (promoted captured sqF sqT : Nat) : Board :=
  let ourPawn := mkPiece S ptPAWN
  let change := bbFromSquare sqF ||| bbFromSquare sqT
  let b := { b with
    board := fnUpdate (fnUpdate b.board sqT captured) sqF ourPawn
    pieces := fnUpdate (fnUpdate b.pieces ourPawn (bbSet (b.pieces ourPawn) sqF))
      promoted (bbClear (b.pieces promoted) sqT)
    piecesByColor := fnUpdate b.piecesByColor S (b.piecesByColor S ^^^ change)
    score := fnUpdate b.score S
      ((b.score S).sub ((T.pst promoted sqT).sub (T.pst ourPawn sqF)))
    material := fnUpdate b.material S
      (b.material S - (materialOf (pieceType promoted) - materialOf ptPAWN)) }
  if captured != 0 then
    { b with
      pieces := fnUpdate b.pieces captured (bbSet (b.pieces captured) sqT)
      piecesByColor := fnUpdate b.piecesByColor (S ^^^ 1)
        (bbSet (b.piecesByColor (S ^^^ 1)) sqT)
      score := fnUpdate b.score (S ^^^ 1) ((b.score (S ^^^ 1)).add (T.pst captured sqT))
      material := fnUpdate b.material (S ^^^ 1)
        (b.material (S ^^^ 1) + materialOf (pieceType captured)) }
  else b

/-- `Board::doCastling<Side, IsDoing>`. -/
def doCastling (T : ZTables) (S : Nat) (isDoing : Bool) (b : Board) (sqF sqT : Nat) :
    Board :=
  let ourRook := mkPiece S ptROOK
  let ourKing := mkPiece S ptKING
  let kingFrom := if isDoing then sqF else sqT
  let kingTo := if isDoing then sqT else sqF
  let changeKing := bbFromSquare sqF ||| bbFromSquare sqT
  let rookFrom :=
    if sqFile sqT = 6 then relSquare S (if isDoing then 7 else 5)
    else relSquare S (if isDoing then 0 else 3)
  let rookTo :=
    if sqFile sqT = 6 then relSquare S (if isDoing then 5 else 7)
    else relSquare S (if isDoing then 3 else 0)
  let changeRook := bbFromSquare rookFrom ||| bbFromSquare rookTo
  let ourChange := changeKing ||| changeRook
  { b with
    board := fnUpdate (fnUpdate (fnUpdate (fnUpdate b.board kingFrom 0) kingTo ourKing)
      rookFrom 0) rookTo ourRook
    pieces := fnUpdate (fnUpdate b.pieces ourKing (b.pieces ourKing ^^^ changeKing))
      ourRook (b.pieces ourRook ^^^ changeRook)
    piecesByColor := fnUpdate b.piecesByColor S (b.piecesByColor S ^^^ ourChange)
    score := fnUpdate b.score S
      (((b.score S).add ((T.pst ourKing kingTo).sub (T.pst ourKing kingFrom))).add
        ((T.pst ourRook rookTo).sub (T.pst ourRook rookFrom))) }

/-- `Board::pushNextState`. -/
def Board.pushNextState (b : Board) : Board :=
  let prev := b.state
  { b with states :=
    { StateInfo.dflt with
      castleRight := prev.castleRight
      fiftyRule := (prev.fiftyRule + 1) % 256
      movesFromNull := prev.movesFromNull + 1
      hash := prev.hash } :: b.states }

/-! ## Make / unmake (Board.cpp) -/

/-- The repetition-scan loop at the end of `Board::makeMove`: the source walks
`m_states[i]` for `i = size-5, size-7, …` down to `size - ply`; in head-first
list coordinates that is offsets `j = 4, 6, …` up to `ply - 1`.  Returns
`m_states.size() - i = j + 1` for the first hash match. -/
def repScan (states : List StateInfo) (current : Nat) (maxJ : Nat) :
    Nat → Nat → Option Nat
  | 0, _ => none
  | fuel + 1, j =>
    if j ≤ maxJ then
      if (states.getD j StateInfo.dflt).hash = current then some (j + 1)
      else repScan states current maxJ fuel (j + 2)
    else none

/-- The opening statements of `Board::makeMove<Side>`: `pushNextState`, the
en-passant reset, the move-key hash flip, the move counter and the side flip. -/
def mkHead (b : Board) (S : Nat) : Board :=
  let b := b.pushNextState
  let b := b.modifyState fun st => { st with ep := 64, hash := st.hash ^^^ zMOVE_KEY }
  { b with moveCount := b.moveCount + 1, side := S ^^^ 1 }

/-- The `MoveType::SIMPLE` branch of `Board::makeMove<Side>` (the captured
piece returned by `movePieceWithCapture` is the piece standing on `to`). -/
def mkSimpleCore (T : ZTables) (S : Nat) (b : Board) (m : Nat) : Board :=
  let sqF := mvFrom m
  let sqT := mvTo m
  let piece := b.board sqF
  let captured := b.board sqT
  let b := (movePieceWithCapture T S b piece sqF sqT).1
  let b := b.modifyState fun st => { st with captured := captured }
  let b :=
    if captured != 0 then
      b.modifyState fun st =>
        { st with hash := st.hash ^^^ T.zPiece captured sqT, fiftyRule := 0 }
    else if piece = mkPiece S ptPAWN then
      let b := b.modifyState fun st => { st with fiftyRule := 0 }
      if sqDistance sqF sqT = 2 then
        b.modifyState fun st =>
          { st with ep := if S = 1 then sqForward sqF 8 else sqBackward sqF 8 }
      else b
    else b
  let b := b.modifyState fun st =>
    { st with hash := st.hash ^^^ T.zPiece piece sqF ^^^ T.zPiece piece sqT }
  b.modifyState fun st =>
    { st with castleRight :=
        st.castleRight &&& getCastleChangeMask sqF &&& getCastleChangeMask sqT }

/-- The `MoveType::PROMOTION` branch of `Board::makeMove<Side>`. -/
def mkPromoCore (T : ZTables) (S : Nat) (b : Board) (m : Nat) : Board :=
  let sqF := mvFrom m
  let sqT := mvTo m
  let promoted := mkPiece S (mvPromo m)
  let b :=
    if (sqT : Int) - (sqF : Int) ≠ (if S = 1 then (8 : Int) else -8) then
      let captured := b.board sqT
      let b := (promotePawnWithCapture T S b promoted sqF sqT).1
      let b := b.modifyState fun st => { st with captured := captured }
      if captured != 0 then
        b.modifyState fun st => { st with hash := st.hash ^^^ T.zPiece captured sqT }
      else b
    else promotePawn T S true b promoted sqF sqT
  let b := b.modifyState fun st =>
    { st with hash := st.hash ^^^ T.zPiece (mkPiece S ptPAWN) sqF
        ^^^ T.zPiece (mkPiece S (mvPromo m)) sqT, fiftyRule := 0 }
  b.modifyState fun st =>
    { st with castleRight :=
        st.castleRight &&& getCastleChangeMask sqF &&& getCastleChangeMask sqT }

/-- The `MoveType::ENPASSANT` branch of `Board::makeMove<Side>`. -/
def mkEpCore (T : ZTables) (S : Nat) (b : Board) (m : Nat) : Board :=
  let sqF := mvFrom m
  let sqT := mvTo m
  let ourPawn := mkPiece S ptPAWN
  let b := doEnpassant T S true b sqF sqT
  b.modifyState fun st =>
    { st with fiftyRule := 0
              hash := st.hash ^^^ T.zPiece ourPawn sqF ^^^ T.zPiece ourPawn sqT }

/-- The `MoveType::CASTLE` branch of `Board::makeMove<Side>`. -/
def mkCastleCore (T : ZTables) (S : Nat) (b : Board) (m : Nat) : Board :=
  let sqF := mvFrom m
  let sqT := mvTo m
  let ourKing := mkPiece S ptKING
  let ourRook := mkPiece S ptROOK
  let b := b.modifyState fun st =>
    { st with castleRight :=
        (st.castleRight &&& getCastleChangeMask sqF) ||| castleBitMaskFor 3 S }
  let b := doCastling T S true b sqF sqT
  let b := b.modifyState fun st =>
    { st with hash := st.hash ^^^ T.zPiece ourKing sqF ^^^ T.zPiece ourKing sqT }
  if sqFile sqT = 6 then
    b.modifyState fun st =>
      { st with hash := st.hash ^^^ T.zPiece ourRook (relSquare S 7)
          ^^^ T.zPiece ourRook (relSquare S 5) }
  else
    b.modifyState fun st =>
      { st with hash := st.hash ^^^ T.zPiece ourRook (relSquare S 0)
          ^^^ T.zPiece ourRook (relSquare S 3) }

/-- The closing statements of `Board::makeMove<Side>`: `updateInternalState`
and the repetition scan. -/
def mkTail (b : Board) : Board :=
  let b := b.updateInternalState
  let st := b.state
  let ply := min st.fiftyRule st.movesFromNull
  if ply ≥ 4 then
    match repScan b.states st.hash (ply - 1) (b.states.length + 2) 4 with
    | some r => b.modifyState fun st => { st with lastRepetition := r }
    | none => b
  else b

/-- `Board::makeMove<Side>`. -/
def makeMoveSide (T : ZTables) (S : Nat) (b : Board) (m : Nat) : Board :=
  let b := mkHead b S
  let mt := mvType m
  mkTail
    (if mt = mtSIMPLE then mkSimpleCore T S b m
     else if mt = mtPROMOTION then mkPromoCore T S b m
     else if mt = mtENPASSANT then mkEpCore T S b m
     else if mt = mtCASTLE then mkCastleCore T S b m
     else b)

/-- `Board::makeMove` (the side dispatcher; `BLACK = 0`). -/
def Board.makeMove (T : ZTables) (b : Board) (m : Nat) : Board :=
  if b.side = 0 then makeMoveSide T 0 b m else makeMoveSide T 1 b m

/-- `Board::unmakeMove<Side>`. -/
def unmakeMoveSide (T : ZTables) (S : Nat) (b : Board) (m : Nat) : Board :=
  let captured := b.state.captured
  let b := { b with states := b.states.tail }
  let b := { b with moveCount := b.moveCount - 1, side := S }
  let sqF := mvFrom m
  let sqT := mvTo m
  let mt := mvType m
  let piece := b.board sqT
  if mt = mtSIMPLE then unmovePieceWithCapture T S b piece captured sqF sqT
  else if mt = mtPROMOTION then
    let promoted := mkPiece S (mvPromo m)
    if captured != 0 then unpromotePawnWithCapture T S b promoted captured sqF sqT
    else promotePawn T S false b promoted sqF sqT
  else if mt = mtENPASSANT then doEnpassant T S false b sqF sqT
  else if mt = mtCASTLE then doCastling T S false b sqF sqT
  else b

/-- `Board::unmakeMove` (the side dispatcher). -/
def Board.unmakeMove (T : ZTables) (b : Board) (m : Nat) : Board :=
  if b.side = 0 then unmakeMoveSide T 1 b m else unmakeMoveSide T 0 b m

/-- `Board::makeNullMove`. -/
def Board.makeNullMove (b : Board) : Board :=
  let b := { b with side := b.side ^^^ 1 }
  let b := b.pushNextState
  let b := b.modifyState fun st =>
    { st with hash := st.hash ^^^ zNULL_MOVE_KEY, movesFromNull := 0 }
  b.updateInternalState

/-- `Board::unmakeNullMove`. -/
def Board.unmakeNullMove (b : Board) : Board :=
  { b with side := b.side ^^^ 1, states := b.states.tail }

/-! ## Draw predicates (Board.h) -/

/-- `Board::lowMaterialDraw`. -/
def Board.lowMaterialDraw (b : Board) : Bool :=
  if b.byPieceType ptPAWN != 0 then false
  else if b.material 1 < 5 && b.material 0 < 5 then true
  else false

/-- `Board::fiftyRuleDraw`. -/
def Board.fiftyRuleDraw (b : Board) : Bool := b.state.fiftyRule ≥ 100

/-- `Board::repetitionDraw`: `m_states[m_states.size() - lastRep]` is, in
head-first list coordinates, the entry at offset `lastRep - 1`. -/
def Board.repetitionDraw (b : Board) (ply : Nat) : Bool :=
  let lastRep := b.state.lastRepetition
  if lastRep != 0 then
    if ply != 0 then true
    else (b.states.getD (lastRep - 1) StateInfo.dflt).lastRepetition != 0
  else false

/-- `Board::isDraw`. -/
def Board.isDraw (b : Board) (ply : Nat) : Bool :=
  b.lowMaterialDraw || b.fiftyRuleDraw || b.repetitionDraw ply

/-- `Board::isQuiet`. -/
def Board.isQuiet (b : Board) (m : Nat) : Bool :=
  if mvType m = mtSIMPLE then b.board (mvTo m) = 0
  else if mvType m = mtPROMOTION then false
  else if mvType m = mtENPASSANT then false
  else true

/-! ## Legality (Board.cpp, `Board::isLegal`) -/

/-- The castling-path loop of `isLegal`:
`for (Square sq = to; sq != from; sq = sq.forward(step))`.  The walk is over
`u8` squares, so it returns to `from` within 256 steps; the fuel is never
exhausted. -/
def castleWalk (b : Board) (sqF step : Nat) : Nat → Nat → Bool
  | 0, _ => true
  | fuel + 1, sq =>
    if sq = sqF then true
    else if b.computeAttackersOf (b.side ^^^ 1) sq b.allPieces != 0 then false
    else castleWalk b sqF step fuel ((sq + step) % 256)

/-- `Board::isLegal`. -/
def Board.isLegal (b : Board) (m : Nat) : Bool :=
  let sqF := mvFrom m
  let sqT := mvTo m
  let mt := mvType m
  if mt = mtSIMPLE && pieceType (b.board sqF) = ptKING then
    b.computeAttackersOf (b.side ^^^ 1) sqT (b.allPieces ^^^ bbFromSquare sqF) = 0
  else if mt = mtSIMPLE || mt = mtPROMOTION then
    !bbTest (b.checkBlockers b.side) sqF || areAligned sqF sqT (b.king b.side)
  else if mt = mtENPASSANT then
    let kingSq := b.king b.side
    let capturedSq := if b.side = 1 then sqBackward sqT 8 else sqForward sqT 8
    let occ := ((b.allPieces ^^^ bbFromSquare sqF) ^^^ bbFromSquare capturedSq)
      ||| bbFromSquare sqT
    attacksOf ptROOK kingSq occ &&& b.rooksAndQueens (b.side ^^^ 1) = 0 &&
      attacksOf ptBISHOP kingSq occ &&& b.bishopsAndQueens (b.side ^^^ 1) = 0
  else if mt = mtCASTLE then
    let step := if sqFile sqT = 6 then 255 else 1
    castleWalk b sqF step 256 sqT
  else false

/-! ## Static exchange evaluation (Board.cpp, `Board::SEE`) -/

/-- The final min/max fold of `SEE`: the loop
`for (; i > 0; --i) valuesArr[i-1] = (i odd ? min : max)(valuesArr[i-1], valuesArr[i])`
is a right fold in which the value at index `i` is combined with the folded
suffix using `min` when `i + 1` is odd and `max` otherwise. -/
def seeCollapse : List Int → Nat → Int
  | [], _ => 0
  | [v], _ => v
  | v :: w :: rest, i =>
    let tl := seeCollapse (w :: rest) (i + 1)
    if (i + 1) % 2 = 1 then min v tl else max v tl

/-- The capture-exchange loop of `SEE`.  State: current score, next value to
be lost, occupancy, attackers, side, modifier, and the gain stack so far. -/
def seeLoop (b : Board) (sqT : Nat) : Nat → Int → Int → BB → BB → Nat → Int →
    List Int → List Int
  | 0, _, _, _, _, _, _, values => values
  | fuel + 1, result, nextLoss, occ, attackers, side, modifier, values =>
    let side := side ^^^ 1
    let attackers := attackers &&& occ
    let currentAttackers := attackers &&& b.byColor side
    let currentAttackers :=
      if occ &&& b.state.pinners (side ^^^ 1) != 0 then
        currentAttackers &&& bbNot (b.checkBlockers side)
      else currentAttackers
    if currentAttackers = 0 then values
    else
      let modifier := -modifier
      let bbP := currentAttackers &&& b.byPiece (mkPiece side ptPAWN)
      if bbP != 0 then
        let result := result + modifier * nextLoss
        let nextLoss := SIMPLIFIED_PIECE_VALUES (mkPiece 1 ptPAWN)
        let values := values ++ [result]
        let occ := bbClear occ (bbLsb bbP)
        let attackers := attackers ||| (attacksOf ptBISHOP sqT occ &&&
          (b.bishopsAndQueens 1 ||| b.bishopsAndQueens 0))
        seeLoop b sqT fuel result nextLoss occ attackers side modifier values
      else
        let bbN := currentAttackers &&& b.byPiece (mkPiece side ptKNIGHT)
        if bbN != 0 then
          let result := result + modifier * nextLoss
          let nextLoss := SIMPLIFIED_PIECE_VALUES (mkPiece 1 ptKNIGHT)
          let values := values ++ [result]
          let occ := bbClear occ (bbLsb bbN)
          seeLoop b sqT fuel result nextLoss occ attackers side modifier values
        else
          let bbB := currentAttackers &&& b.bishops side
          if bbB != 0 then
            let result := result + modifier * nextLoss
            let nextLoss := SIMPLIFIED_PIECE_VALUES (mkPiece 1 ptBISHOP)
            let values := values ++ [result]
            let occ := bbClear occ (bbLsb bbB)
            let attackers := attackers ||| (attacksOf ptBISHOP sqT occ &&&
              (b.bishopsAndQueens 1 ||| b.bishopsAndQueens 0))
            seeLoop b sqT fuel result nextLoss occ attackers side modifier values
          else
            let bbR := currentAttackers &&& b.rooks side
            if bbR != 0 then
              let result := result + modifier * nextLoss
              let nextLoss := SIMPLIFIED_PIECE_VALUES (mkPiece 1 ptROOK)
              let values := values ++ [result]
              let occ := bbClear occ (bbLsb bbR)
              let attackers := attackers ||| (attacksOf ptROOK sqT occ &&&
                (b.rooksAndQueens 1 ||| b.rooksAndQueens 0))
              seeLoop b sqT fuel result nextLoss occ attackers side modifier values
            else
              let bbQ := currentAttackers &&& b.queens side
              if bbQ != 0 then
                let result := result + modifier * nextLoss
                let nextLoss := SIMPLIFIED_PIECE_VALUES (mkPiece 1 ptQUEEN)
                let values := values ++ [result]
                let occ := bbClear occ (bbLsb bbQ)
                let attackers := attackers
                  ||| (attacksOf ptBISHOP sqT occ &&&
                    (b.bishopsAndQueens 1 ||| b.bishopsAndQueens 0))
                  ||| (attacksOf ptROOK sqT occ &&&
                    (b.rooksAndQueens 1 ||| b.rooksAndQueens 0))
                seeLoop b sqT fuel result nextLoss occ attackers side modifier values
              else
                -- king: last capture, only if no attackers from the other side
                if attackers &&& b.byColor (side ^^^ 1) &&& occ = 0 then
                  let bbK := currentAttackers &&& b.byPiece (mkPiece side ptKING)
                  let result := if bbK != 0 then result + modifier * nextLoss else result
                  values ++ [result]
                else values

/-- `Board::SEE`. -/
def Board.SEE (b : Board) (m : Nat) : Int :=
  let sqT := mvTo m
  let sqF := mvFrom m
  let mt := mvType m
  if mt = mtCASTLE then 0
  else
    let (result, nextLoss, occ) :=
      if mt = mtPROMOTION then
        let nextLoss := SIMPLIFIED_PIECE_VALUES (mkPiece 1 (mvPromo m))
        (SIMPLIFIED_PIECE_VALUES (b.board sqT) + nextLoss
          - SIMPLIFIED_PIECE_VALUES (mkPiece 1 ptPAWN), nextLoss,
         bbClear b.allPieces sqF)
      else if mt = mtSIMPLE then
        (SIMPLIFIED_PIECE_VALUES (b.board sqT), SIMPLIFIED_PIECE_VALUES (b.board sqF),
         bbClear b.allPieces sqF)
      else -- ENPASSANT
        let capturedSq := mkSquare (sqFile sqT) (sqRank sqF)
        (SIMPLIFIED_PIECE_VALUES (mkPiece 1 ptPAWN),
         SIMPLIFIED_PIECE_VALUES (mkPiece 1 ptPAWN),
         bbClear (bbClear b.allPieces capturedSq) sqF)
    let attackers := b.computeAllAttackersOf sqT occ
    let values := seeLoop b sqT 40 result nextLoss occ attackers b.side 1 [result]
    seeCollapse values 0

/-! ## Move generation (Board.cpp, `Board::generateMoves`)

Generation modes: `ALL_MOVES = 0, CAPTURES = 1, CHECK_EVASIONS = 2,
QUIET_CHECKS = 3`.  `BB_FOR_EACH` pops squares in increasing order, which is
the order of `bbSquares`. -/

/-- `Board::computeAttacksOf`. -/
def Board.computeAttacksOf (_b : Board) (piece sq : Nat) (occ : BB) : BB :=
  if pieceType piece = ptNONE then 0
  else if pieceType piece = ptPAWN then pawnAttacks (pieceColor piece) sq
  else attacksOf (pieceType piece) sq occ

/-- `Board::generatePieceMoves<Side, Mode, PT>`. -/
def generatePieceMoves (S mode pt : Nat) (b : Board) (allP trg : BB) : List Nat :=
  let oppKingAttacks :=
    if mode = 3 then b.computeAttacksOf (mkPiece S pt) (b.king (S ^^^ 1)) allP else 0
  (bbSquares (b.byPiece (mkPiece S pt))).flatMap fun sq =>
    let attacks := attacksOf pt sq allP &&& trg
    let attacks :=
      if mode = 3 && !bbTest (b.checkBlockers (S ^^^ 1)) sq then
        attacks &&& oppKingAttacks
      else attacks
    (bbSquares attacks).map fun sqT => mvMkSimple sq sqT

/-- The `enemyPieces` binding of `Board::generateMoves<Side, Mode>`. -/
def genEnemyPieces (S mode : Nat) (b : Board) : BB :=
  if mode = 2 then b.checkGivers else b.byColor (S ^^^ 1)

/-- The `trg` binding of `Board::generateMoves<Side, Mode>`. -/
def genTrg (S mode : Nat) (b : Board) : BB :=
  if mode = 1 then genEnemyPieces S mode b
  else if mode = 2 then betweenBits (b.king S) (bbLsb b.checkGivers)
  else if mode = 3 then bbNot b.allPieces
  else bbNot (b.byColor S)

/-- The king section of `Board::generateMoves<Side, Mode>`. -/
def genKingMoves (S mode : Nat) (b : Board) : List Nat :=
  let kingSq := b.king S
  if mode != 3 || bbTest (b.checkBlockers (S ^^^ 1)) kingSq then
    let attacks := attacksOf ptKING kingSq b.allPieces &&&
      (if mode != 2 then genTrg S mode b else bbNot (b.byColor S))
    let attacks :=
      if mode = 3 then attacks &&& bbNot (pseudoAttacks ptQUEEN (b.king (S ^^^ 1)))
      else attacks
    (bbSquares attacks).map fun sq => mvMkSimple kingSq sq
  else []

/-- The promotion section of `Board::generateMoves<Side, Mode>`. -/
def genPromotionMoves (S mode : Nat) (b : Board) : List Nat :=
  let up := relDir S dirUP
  let upRight := relDir S dirUPRIGHT
  let upLeft := relDir S dirUPLEFT
  let down := relDir S dirDOWN
  let downRight := relDir S dirDOWNRIGHT
  let downLeft := relDir S dirDOWNLEFT
  let rank7BB := rankBB (if S = 1 then 6 else 1)
  let enemyPieces := genEnemyPieces S mode b
  let emptySquares := bbNot b.allPieces
  let trg := genTrg S mode b
  let bb := b.pieces (mkPiece S ptPAWN)
  let promotablePawns := bb &&& rank7BB
  if mode != 3 && promotablePawns != 0 then
    let upPromotions := bbShift up promotablePawns &&& emptySquares
    let upLeftPromotions := bbShift upLeft promotablePawns &&& enemyPieces
    let upRightPromotions := bbShift upRight promotablePawns &&& enemyPieces
    let upPromotions := if mode = 2 then upPromotions &&& trg else upPromotions
    let emitPromos := fun (sqF sqT : Nat) =>
      mvMk sqF sqT mtPROMOTION ptQUEEN ::
      (if mode != 1 then
        [mvMk sqF sqT mtPROMOTION ptROOK, mvMk sqF sqT mtPROMOTION ptBISHOP,
         mvMk sqF sqT mtPROMOTION ptKNIGHT]
      else [])
    ((bbSquares upPromotions).flatMap fun sq => emitPromos (sqShift down sq) sq) ++
    ((bbSquares upLeftPromotions).flatMap fun sq => emitPromos (sqShift downRight sq) sq) ++
    ((bbSquares upRightPromotions).flatMap fun sq => emitPromos (sqShift downLeft sq) sq)
  else []

/-- The pawn-capture (and en-passant) section of `Board::generateMoves<Side, Mode>`. -/
def genPawnCaptureMoves (S mode : Nat) (b : Board) : List Nat :=
  let upRight := relDir S dirUPRIGHT
  let upLeft := relDir S dirUPLEFT
  let downRight := relDir S dirDOWNRIGHT
  let downLeft := relDir S dirDOWNLEFT
  let rank7BB := rankBB (if S = 1 then 6 else 1)
  let enemyPieces := genEnemyPieces S mode b
  let bb := b.pieces (mkPiece S ptPAWN)
  let promotablePawns := bb &&& rank7BB
  let nonPromotablePawns := bb ^^^ promotablePawns
  if mode != 3 && nonPromotablePawns != 0 then
    let upLeftCaptures := bbShift upLeft nonPromotablePawns &&& enemyPieces
    let upRightCaptures := bbShift upRight nonPromotablePawns &&& enemyPieces
    ((bbSquares upLeftCaptures).map fun sq => mvMkSimple (sqShift downRight sq) sq) ++
    ((bbSquares upRightCaptures).map fun sq => mvMkSimple (sqShift downLeft sq) sq) ++
    (if b.state.ep != 64 then
      let epCapture := bb &&& pawnAttackedSquares (S ^^^ 1) (bbFromSquare b.state.ep)
      (bbSquares epCapture).map fun sq => mvMk sq b.state.ep mtENPASSANT ptKNIGHT
    else [])
  else []

/-- The quiet-pawn-push section of `Board::generateMoves<Side, Mode>`. -/
def genQuietPawnMoves (S mode : Nat) (b : Board) : List Nat :=
  let up := relDir S dirUP
  let down := relDir S dirDOWN
  let rank3BB := rankBB (if S = 1 then 2 else 5)
  let rank7BB := rankBB (if S = 1 then 6 else 1)
  let emptySquares := bbNot b.allPieces
  let oppKingSq := b.king (S ^^^ 1)
  let trg := genTrg S mode b
  let bb := b.pieces (mkPiece S ptPAWN)
  let promotablePawns := bb &&& rank7BB
  let nonPromotablePawns := bb ^^^ promotablePawns
  if mode != 1 then
    let singlePawnPush := bbShift up nonPromotablePawns &&& emptySquares
    let doublePawnPush := bbShift up (singlePawnPush &&& rank3BB) &&& emptySquares
    let (singlePawnPush, doublePawnPush) :=
      if mode = 2 then (singlePawnPush &&& trg, doublePawnPush &&& trg)
      else if mode = 3 then
        let pawnToKingAttacks := pawnAttacks (S ^^^ 1) oppKingSq
        let pawnsBlockingCheck := b.checkBlockers (S ^^^ 1) &&&
          bbNot (fileBB (sqFile oppKingSq))
        let pawnsBlockingCheck := bbShift up pawnsBlockingCheck
        (singlePawnPush &&& (pawnToKingAttacks ||| pawnsBlockingCheck),
         doublePawnPush &&& (pawnToKingAttacks ||| bbShift up pawnsBlockingCheck))
      else (singlePawnPush, doublePawnPush)
    ((bbSquares singlePawnPush).map fun sq => mvMkSimple (sqShift down sq) sq) ++
    ((bbSquares doublePawnPush).map fun sq =>
      mvMkSimple (sqShift down (sqShift down sq)) sq)
  else []

/-- The knight/bishop/rook/queen section of `Board::generateMoves<Side, Mode>`. -/
def genPieceMovesAll (S mode : Nat) (b : Board) : List Nat :=
  let allP := b.allPieces
  let trg := genTrg S mode b
  generatePieceMoves S mode ptKNIGHT b allP trg ++
  generatePieceMoves S mode ptBISHOP b allP trg ++
  generatePieceMoves S mode ptROOK b allP trg ++
  generatePieceMoves S mode ptQUEEN b allP trg

/-- The castling section of `Board::generateMoves<Side, Mode>`. -/
def genCastleMoves (S mode : Nat) (b : Board) : List Nat :=
  let kingSq := b.king S
  let allP := b.allPieces
  if mode = 0 then
    (if hasCastleRight b.state.castleRight 1 S &&
        castlingInternalSquares S 1 &&& allP = 0 then
      [mvMk kingSq (mkSquare 6 (if S = 1 then 0 else 7)) mtCASTLE ptKNIGHT]
    else []) ++
    (if hasCastleRight b.state.castleRight 0 S &&
        castlingInternalSquares S 0 &&& allP = 0 then
      [mvMk kingSq (mkSquare 2 (if S = 1 then 0 else 7)) mtCASTLE ptKNIGHT]
    else [])
  else []

/-- `Board::generateMoves<Side, Mode>`: in double check only king moves are
generated; otherwise the sections are emitted in the source order. -/
def generateMovesSide (S mode : Nat) (b : Board) : List Nat :=
  if mode = 2 && bbHasMoreThanOne b.checkGivers then
    genKingMoves S mode b -- no moves but king's can evade double check
  else
    genKingMoves S mode b ++ genPromotionMoves S mode b ++
      genPawnCaptureMoves S mode b ++ genQuietPawnMoves S mode b ++
      genPieceMovesAll S mode b ++ genCastleMoves S mode b

/-- `Board::generateMoves<Mode>` (the dispatching wrapper: in check, every
mode except `CHECK_EVASIONS` and `QUIET_CHECKS` generates evasions). -/
def Board.generateMoves (b : Board) (mode : Nat) : List Nat :=
  if mode = 3 then generateMovesSide b.side 3 b
  else if mode != 2 && b.isInCheck then generateMovesSide b.side 2 b
  else generateMovesSide b.side mode b

/-! ## `Board::makeMoveFromString` (Board.cpp) -/

/-- The move-matching loop of `makeMoveFromString`. -/
def matchMoveLoop (b : Board) (sqF sqT : Nat) (s : List Char) : List Nat → Nat
  | [] => mvNull
  | m :: rest =>
    if mvFrom m = sqF && mvTo m = sqT then
      if !b.isLegal m then mvNull
      else if mvType m = mtPROMOTION then
        let promoted :=
          if s.length > 4 then pieceType (pieceFromFENChar (s.getD 4 ' '))
          else ptKNIGHT
        mvMk sqF sqT mtPROMOTION promoted
      else m
    else matchMoveLoop b sqF sqT s rest

/-- `Board::makeMoveFromString`; returns the null move (0) when no legal move
matches.  `E1 = 4, G1 = 6, C1 = 2`. -/
def Board.makeMoveFromString (b : Board) (s : List Char) : Nat :=
  if s.length < 4 && s != "0-0".toList then mvNull
  else
    let (sqF, sqT) :=
      if s = "0-0".toList then (relSquare b.side 4, relSquare b.side 6)
      else if s = "0-0-0".toList then (relSquare b.side 4, relSquare b.side 2)
      else (sqFromChars (s.getD 0 ' ') (s.getD 1 ' '),
            sqFromChars (s.getD 2 ' ') (s.getD 3 ' '))
    if !bbTest (b.byColor b.side) sqF || bbTest (b.byColor b.side) sqT || sqF = sqT then
      mvNull
    else matchMoveLoop b sqF sqT s (b.generateMoves 0)

/-! ## Transposition table (TranspositionTable.h)

`EntryType`: `NON_PV = 0, PV = 1, EXACT = 0b010, BETA = 0b100, ALPHA = 0b110`.
Engine constants (Scores.h): `MAX_DEPTH = 99`, `INF = 31000`, `MATE = 30000`.
-/

def etEXACT : Nat := 0b010
def etBETA : Nat := 0b100
def etALPHA : Nat := 0b110

def MAX_DEPTH : Nat := 99
def valINF : Int := 31000
def valMATE : Int := 30000

/-- `engine::isMateValue`. -/
def isMateValue (v : Int) : Bool :=
  (v > valMATE - MAX_DEPTH * 2 && v ≤ valMATE) ||
  (v < MAX_DEPTH * 2 - valMATE && v ≥ -valMATE)

structure TableEntry where
  hash : Nat
  move : Nat
  value : Int
  age : Nat
  depth : Nat
  type : Nat
deriving DecidableEq

/-- `TableEntry::isPvNode`: `type & PV`. -/
def TableEntry.isPvNode (e : TableEntry) : Bool := e.type &&& 1 != 0

/-- `TableEntry::getBoundType`: `type & 0b110`. -/
def TableEntry.getBoundType (e : TableEntry) : Nat := e.type &&& 0b110

/-- The mate-value fix applied on the write side inside
`TranspositionTable::tryRecord`. -/
def ttStoreValue (v : Int) (ply : Nat) : Int :=
  if isMateValue v then
    if v > valMATE - 2 * (MAX_DEPTH : Int) then v + ply else v - ply
  else v

/-- The mate-distance fix applied on the read side of the TT probe in
`search` (Search.cpp). -/
def ttProbeValue (v : Int) (ply : Nat) : Int :=
  if isMateValue v then
    if v > valMATE - 2 * (MAX_DEPTH : Int) then v - ply
    else if v < -valMATE + 2 * (MAX_DEPTH : Int) then v + ply
    else v
  else v

/-- `TranspositionTable::tryRecord`, as a pure function on the addressed
cluster `(main, aux)`; `rootAge` is the static `s_rootAge`.  Note the
condition `(type & 0x110) <= mainEntry.getBoundType()` is embedded with the
hexadecimal `0x110` mask exactly as in the source. -/
def tryRecord (rootAge : Nat) (type hash move : Nat) (value : Int)
    (age depth ply : Nat) (main aux : TableEntry) : TableEntry × TableEntry :=
  if main.type = 0 || main.age ≤ rootAge || depth > main.depth ||
     (depth = main.depth && (type &&& 1) ≥ (main.type &&& 1) &&
      (type &&& 0x110) ≤ main.getBoundType) then
    (⟨hash, move, ttStoreValue value ply, age, depth, type⟩, aux)
  else if main.hash != hash then
    (main, ⟨hash, move, value, age, depth, type⟩)
  else (main, aux)

/-- The replacement condition for the main slot, as the source writes it. -/
def tryRecordMainCond (rootAge type depth : Nat) (main : TableEntry) : Bool :=
  main.type = 0 || main.age ≤ rootAge || depth > main.depth ||
  (depth = main.depth && (type &&& 1) ≥ (main.type &&& 1) &&
   (type &&& 0x110) ≤ main.getBoundType)

/-- The replacement condition for the main slot as claim C5 (and the spec and
the source's own comment) state it: empty, aged, strictly deeper, or same
depth with at least the same PV status and a *tighter* bound
(`(type & 0b110) <= mainEntry.getBoundType()`). -/
def claimedMainCond (rootAge type depth : Nat) (main : TableEntry) : Bool :=
  main.type = 0 || main.age ≤ rootAge || depth > main.depth ||
  (depth = main.depth && (type &&& 1) ≥ (main.type &&& 1) &&
   (type &&& 0b110) ≤ main.getBoundType)

/-! ## Search fragments (Search.cpp)

`NodeType`: `NON_PV = 0, PV = 1`. -/

/-- The null-move depth reduction computed in `search`:
`R = 3 + (depth - 2) / 5 + max((staticEval - beta) / 300, 0)`, clamped below
at 0 (`NULLMOVE_DEPTH_REDUCTION_BASE = 3`,
`NULLMOVE_HIGH_DEPTH_DENOMINATOR = 5`,
`NULLMOVE_BETA_DIFFERENCE_DENOMINATOR = 300`). -/
def nullMoveReduction (depth staticEval beta : Int) : Int :=
  let R := 3 + (depth - 2).tdiv 5 + max ((staticEval - beta).tdiv 300) 0
  if R < 0 then 0 else R

/-- The reduction formula as claim C4 (and the spec) state it:
`R = 3 + (depth - 2) / 5 + min(0, (staticEval - beta) / 300)`. -/
def claimedNullMoveReduction (depth staticEval beta : Int) : Int :=
  3 + (depth - 2).tdiv 5 + min 0 ((staticEval - beta).tdiv 300)

/-- The null-move-pruning block of `search`, as a function of an oracle for
the recursive search calls (`srch alpha beta depth ply`, from the moving
side's perspective).  Returns `some v` when the block returns `v` from the
node and `none` when it falls through.  The `g_mustStop` early exit (the
asynchronous stop flag) is outside the scope of this embedding. -/
def nullMovePruning (srch : Int → Int → Int → Nat → Int) (nt : Nat)
    (isInCheck : Bool) (staticEval beta depth : Int) (ply : Nat)
    (hasNonPawns : Bool) : Option Int :=
  if nt != 1 && !isInCheck && staticEval ≥ beta && depth ≥ 2 && hasNonPawns then
    let R := nullMoveReduction depth staticEval beta
    let tmp := -(srch (-beta) (-beta + 1) (depth - R) (ply + 1))
    if tmp ≥ beta then
      let tmp := if isMateValue tmp then beta else tmp
      if depth ≥ 5 then
        let verification := srch (beta - 1) beta (depth - R) ply
        if verification ≥ beta then some tmp else none
      else some tmp
    else none
  else none

/-- The entry type recorded by `search` into the TT:
`EntryType(u8(entryType) | u8(NT))`, where the `entryType` local variable
only ever holds `ALPHA` (its initial value), `EXACT` (on an alpha update) or
`BETA` (on a beta cut-off). -/
def recordedEntryType (entryType nt : Nat) : Nat := entryType ||| nt

/-! ## Limits (Limits.cpp)

`time_t` values are modelled as `Int` milliseconds.  The two `double`
multiplications (`* 0.9`, `* 0.95`, truncated back to `time_t`) are modelled
as `* 9 / 10` and `* 19 / 20` (see the header comment). -/

structure Limits where
  softBreak : Int
  hardBreak : Int
  start : Int
  timeControlMoves : Nat
  movesMade : Nat
  baseTime : Int
  incTime : Int
  depthLimit : Nat
  nodesLimit : Nat

/-- `Limits::computeConventionalTimeLimits`. -/
def computeConventionalTimeLimits (L : Limits) (msLeft : Int) : Limits :=
  let msPerMove :=
    if msLeft != 0 then
      min (msLeft.tdiv ((L.timeControlMoves : Int) - (L.movesMade : Int)) + L.incTime) msLeft
    else L.baseTime.tdiv (L.timeControlMoves : Int) + L.incTime
  { L with softBreak := L.start + msPerMove.tdiv 2,
           hardBreak := L.start + (msPerMove * 9).tdiv 10 }

/-- `Limits::computeIncrementalTimeLimits` (`GAME_LENGTH_FACTOR = 40`). -/
def computeIncrementalTimeLimits (L : Limits) (msLeft : Int) : Limits :=
  let msPerMove :=
    if msLeft != 0 then min (L.incTime + msLeft.tdiv 40) msLeft
    else L.incTime + L.baseTime.tdiv 40
  { L with softBreak := L.start + msPerMove.tdiv 2,
           hardBreak := L.start + (msPerMove * 9).tdiv 10 }

/-- `Limits::computeExactTimePerMove`. -/
def computeExactTimePerMove (L : Limits) (msLeft : Int) : Limits :=
  let msForMove := if msLeft != 0 then msLeft else L.incTime
  { L with softBreak := L.start + (msForMove * 9).tdiv 10,
           hardBreak := L.start + (msForMove * 19).tdiv 20 }

/-- `Limits::reset`; `now` is the value `timeNow()` returned
(`DELAY_FIX = 0`), `selfPlay` is `options::g_isPlayingAgainstSelf`. -/
def Limits.reset (L : Limits) (now msLeft : Int) (selfPlay : Bool) : Limits :=
  let L := { L with start := now }
  let L :=
    if L.timeControlMoves != 0 && L.baseTime != 0 then
      computeConventionalTimeLimits L msLeft
    else if L.baseTime != 0 then computeIncrementalTimeLimits L msLeft
    else if L.incTime != 0 then computeExactTimePerMove L msLeft
    else L
  if selfPlay then
    { L with softBreak := L.start + max ((L.softBreak - L.start).tdiv 10) 100,
             hardBreak := L.start + max ((L.hardBreak - L.start).tdiv 10) 100 }
  else L

/-! ## Bitboard restoration lemmas (for the make/unmake involution) -/

theorem testBit_mask64 (i : Nat) : mask64.testBit i = decide (i < 64) := by
  have hm : mask64 = 2 ^ 64 - 1 := by norm_num [mask64]
  rw [hm, Nat.testBit_two_pow_sub_one]

theorem bbFromSquare_eq_pow (sq : Nat) (h : sq < 64) : bbFromSquare sq = 2 ^ sq := by
  unfold bbFromSquare
  rw [Nat.shiftLeft_eq, one_mul]
  apply Nat.eq_of_testBit_eq
  intro i
  simp only [Nat.testBit_and, testBit_mask64]
  by_cases hi : sq = i
  · subst hi
    simp [Nat.testBit_two_pow_self, h]
  · simp [Nat.testBit_two_pow_of_ne hi]

theorem bbTest_eq_testBit (b sq : Nat) (h : sq < 64) : bbTest b sq = b.testBit sq := by
  unfold bbTest
  rw [bbFromSquare_eq_pow sq h]
  have hand : b &&& 2 ^ sq = if b.testBit sq then 2 ^ sq else 0 := by
    apply Nat.eq_of_testBit_eq
    intro i
    by_cases hi : sq = i
    · subst hi
      cases h' : b.testBit sq <;> simp [Nat.testBit_two_pow_self, h']
    · cases h' : b.testBit sq <;>
        simp [Nat.testBit_two_pow_of_ne hi, h']
  rw [hand]
  cases h' : b.testBit sq
  · simp
  · simp [bne_iff_ne, (Nat.two_pow_pos sq).ne']

/-- Re-setting a bit that was set before clearing restores the bitboard. -/
theorem bbSet_bbClear (x sq : Nat) (hx : x < 2 ^ 64) (hsq : sq < 64)
    (h : x.testBit sq = true) : bbSet (bbClear x sq) sq = x := by
  unfold bbSet bbClear
  rw [bbFromSquare_eq_pow sq hsq]
  apply Nat.eq_of_testBit_eq
  intro i
  simp only [Nat.testBit_or, Nat.testBit_and, Nat.testBit_xor, testBit_mask64]
  by_cases hi : i = sq
  · subst hi; simp [Nat.testBit_two_pow_self, h]
  · by_cases h64 : i < 64
    · simp [Nat.testBit_two_pow_of_ne (Ne.symm hi), h64]
    · have hxi : x.testBit i = false :=
        Nat.testBit_lt_two_pow
          (lt_of_lt_of_le hx (Nat.pow_le_pow_right (by norm_num) (by omega)))
      simp [Nat.testBit_two_pow_of_ne (Ne.symm hi), h64, hxi]

/-- Clearing a bit that was clear before setting restores the bitboard. -/
theorem bbClear_bbSet (x sq : Nat) (hx : x < 2 ^ 64) (hsq : sq < 64)
    (h : x.testBit sq = false) : bbClear (bbSet x sq) sq = x := by
  unfold bbSet bbClear
  rw [bbFromSquare_eq_pow sq hsq]
  apply Nat.eq_of_testBit_eq
  intro i
  simp only [Nat.testBit_and, Nat.testBit_or, Nat.testBit_xor, testBit_mask64]
  by_cases hi : i = sq
  · subst hi; simp [Nat.testBit_two_pow_self, h, hsq]
  · by_cases h64 : i < 64
    · simp [Nat.testBit_two_pow_of_ne (Ne.symm hi), h64]
    · have hxi : x.testBit i = false :=
        Nat.testBit_lt_two_pow
          (lt_of_lt_of_le hx (Nat.pow_le_pow_right (by norm_num) (by omega)))
      simp [Nat.testBit_two_pow_of_ne (Ne.symm hi), h64, hxi]

/-! ## Invariants and pseudo-legality facts for make/unmake (claim C1)

`boardConsistent` collects the §3 invariants the involution proof uses: the
bitboards fit in 64 bits and agree with the square→piece array.
`moveOk` collects the facts that hold of every move the generator produces
on a reachable position (the moved piece belongs to the side to move, a
captured piece to the opponent, the quiet-promotion / en-passant / castling
target squares hold what the move semantics assume). -/

def boardConsistent (b : Board) : Prop :=
  (∀ p, p < 14 → b.pieces p < 2 ^ 64) ∧
  (∀ c, c < 2 → b.piecesByColor c < 2 ^ 64) ∧
  (∀ sq, sq < 64 → ∀ p, 2 ≤ p → p < 14 →
    (bbTest (b.pieces p) sq = true ↔ b.board sq = p)) ∧
  (∀ sq, sq < 64 → ∀ c, c < 2 →
    (bbTest (b.piecesByColor c) sq = true ↔
      (b.board sq ≠ 0 ∧ pieceColor (b.board sq) = c))) ∧
  (∀ sq, sq < 64 → b.board sq = 0 ∨ (2 ≤ b.board sq ∧ b.board sq < 14))

def moveOk (b : Board) (m : Nat) : Prop :=
  b.side < 2 ∧ mvFrom m ≠ mvTo m ∧
  (mvType m = mtSIMPLE →
    pieceColor (b.board (mvFrom m)) = b.side ∧ pieceType (b.board (mvFrom m)) ≠ 0 ∧
    (b.board (mvTo m) = 0 ∨ pieceColor (b.board (mvTo m)) = b.side ^^^ 1)) ∧
  (mvType m = mtPROMOTION →
    b.board (mvFrom m) = mkPiece b.side ptPAWN ∧
    (((mvTo m : Int) - (mvFrom m : Int) = (if b.side = 1 then (8 : Int) else -8)) →
      b.board (mvTo m) = 0) ∧
    (b.board (mvTo m) = 0 ∨ pieceColor (b.board (mvTo m)) = b.side ^^^ 1)) ∧
  (mvType m = mtENPASSANT →
    (b.board (mvFrom m) = mkPiece b.side ptPAWN ∧ b.board (mvTo m) = 0 ∧
     b.board (if b.side = 1 then sqBackward (mvTo m) 8 else sqForward (mvTo m) 8) =
       mkPiece (b.side ^^^ 1) ptPAWN ∧
     (if b.side = 1 then sqBackward (mvTo m) 8 else sqForward (mvTo m) 8) < 64 ∧
     mvFrom m ≠ (if b.side = 1 then sqBackward (mvTo m) 8 else sqForward (mvTo m) 8) ∧
     mvTo m ≠ (if b.side = 1 then sqBackward (mvTo m) 8 else sqForward (mvTo m) 8))) ∧
  (mvType m = mtCASTLE →
    (mvFrom m = relSquare b.side 4 ∧
     (mvTo m = relSquare b.side 6 ∨ mvTo m = relSquare b.side 2) ∧
     b.board (mvFrom m) = mkPiece b.side ptKING ∧ b.board (mvTo m) = 0 ∧
     (mvTo m = relSquare b.side 6 →
       b.board (relSquare b.side 7) = mkPiece b.side ptROOK ∧
       b.board (relSquare b.side 5) = 0) ∧
     (mvTo m = relSquare b.side 2 →
       b.board (relSquare b.side 0) = mkPiece b.side ptROOK ∧
       b.board (relSquare b.side 3) = 0)))

/-! State-wrapper preservation lemmas: every state modification of `makeMove`
after the core board update leaves the board-level fields unchanged. -/

theorem modifyState_board (b : Board) (f : StateInfo → StateInfo) :
    (b.modifyState f).board = b.board := rfl

theorem modifyState_pieces (b : Board) (f : StateInfo → StateInfo) :
    (b.modifyState f).pieces = b.pieces := rfl

theorem modifyState_piecesByColor (b : Board) (f : StateInfo → StateInfo) :
    (b.modifyState f).piecesByColor = b.piecesByColor := rfl

theorem modifyState_material (b : Board) (f : StateInfo → StateInfo) :
    (b.modifyState f).material = b.material := rfl

theorem modifyState_score (b : Board) (f : StateInfo → StateInfo) :
    (b.modifyState f).score = b.score := rfl

theorem modifyState_moveCount (b : Board) (f : StateInfo → StateInfo) :
    (b.modifyState f).moveCount = b.moveCount := rfl

theorem modifyState_side (b : Board) (f : StateInfo → StateInfo) :
    (b.modifyState f).side = b.side := rfl

theorem modifyState_state (b : Board) (f : StateInfo → StateInfo) :
    (b.modifyState f).state = f b.state := rfl

theorem modifyState_states_tail (b : Board) (f : StateInfo → StateInfo) :
    (b.modifyState f).states.tail = b.states.tail := rfl

/-- A `foldl` whose step only rewrites check blockers and pinners leaves the
`captured` field alone. -/
theorem foldl_captured {α : Type} (g : StateInfo → α → StateInfo)
    (hg : ∀ st a, (g st a).captured = st.captured) :
    ∀ (l : List α) (st : StateInfo), (l.foldl g st).captured = st.captured := by
  intro l
  induction l with
  | nil => intro st; rfl
  | cons a l ih =>
    intro st
    rw [List.foldl_cons, ih, hg]

theorem updateInternalStateFor_captured (b : Board) (side : Nat) (st : StateInfo) :
    (updateInternalStateFor b side st).captured = st.captured := by
  unfold updateInternalStateFor
  dsimp only
  rw [foldl_captured]
  intro st a
  dsimp only
  split_ifs <;> rfl

theorem updateInternalState_state_captured (b : Board) :
    b.updateInternalState.state.captured = b.state.captured := by
  unfold Board.updateInternalState
  rw [modifyState_state]
  dsimp only
  rw [updateInternalStateFor_captured, updateInternalStateFor_captured]


theorem or_two_mul_add (s pt : Nat) (hs : s < 2) : s ||| 2 * pt = 2 * pt + s := by
  apply Nat.eq_of_testBit_eq
  intro i
  cases i with
  | zero =>
    simp only [Nat.testBit_or, Nat.testBit_zero]
    have h2 : (2 * pt) % 2 = 0 := by omega
    interval_cases s
    · simp [h2]
    · have h3 : (2 * pt + 1) % 2 = 1 := by omega
      simp [h2, h3]
  | succ n =>
    rw [Nat.testBit_or]
    simp only [Nat.testBit_succ]
    have h1 : (2 * pt + s) / 2 = pt := by omega
    have h2 : 2 * pt / 2 = pt := by omega
    have h3 : s / 2 = 0 := by omega
    rw [h1, h2, h3]
    simp

theorem mkPiece_eq (S pt : Nat) (hS : S < 2) : mkPiece S pt = 2 * pt + S := by
  unfold mkPiece
  rw [Nat.shiftLeft_eq]
  have h : pt * 2 ^ 1 = 2 * pt := by ring
  rw [h]
  exact or_two_mul_add S pt hS

theorem pieceColor_mkPiece (S pt : Nat) (hS : S < 2) :
    pieceColor (mkPiece S pt) = S := by
  rw [mkPiece_eq S pt hS]
  unfold pieceColor
  rw [Nat.and_one_is_mod]
  omega

theorem pieceType_mkPiece (S pt : Nat) (hS : S < 2) :
    pieceType (mkPiece S pt) = pt := by
  rw [mkPiece_eq S pt hS]
  unfold pieceType
  rw [Nat.shiftRight_eq_div_pow]
  omega

theorem fnUpdate_eq {α : Type} (f : Nat → α) (k : Nat) (v : α) :
    fnUpdate f k v k = v := by simp [fnUpdate]

theorem fnUpdate_ne {α : Type} (f : Nat → α) (k : Nat) (v : α) (x : Nat) (h : x ≠ k) :
    fnUpdate f k v x = f x := by simp [fnUpdate, h]

theorem fnUpdate_fnUpdate {α : Type} (f : Nat → α) (k : Nat) (v w : α) :
    fnUpdate (fnUpdate f k v) k w = fnUpdate f k w := by
  funext x
  by_cases h : x = k <;> simp [fnUpdate, h]

theorem fnUpdate_self {α : Type} (f : Nat → α) (k : Nat) :
    fnUpdate f k (f k) = f := by
  funext x
  by_cases h : x = k <;> simp [fnUpdate, h]

theorem mvFrom_lt (m : Nat) : mvFrom m < 64 :=
  Nat.lt_succ_of_le (Nat.and_le_right)

theorem mvTo_lt (m : Nat) : mvTo m < 64 :=
  Nat.lt_succ_of_le (Nat.and_le_right)

theorem mvType_lt (m : Nat) : mvType m < 4 :=
  Nat.lt_succ_of_le (Nat.and_le_right)

theorem Score.add_sub_cancel (a d : Score) : (a.add d).sub d = a := by
  cases a
  simp [Score.add, Score.sub]

theorem Score.sub_add_cancel (a d : Score) : (a.sub d).add d = a := by
  cases a
  simp [Score.add, Score.sub]

/-! Field lemmas for `movePieceWithCapture`. -/

theorem mpc_board (T : ZTables) (S : Nat) (b : Board) (p f t : Nat) :
    (movePieceWithCapture T S b p f t).1.board = fnUpdate (fnUpdate b.board f 0) t p := by
  unfold movePieceWithCapture
  dsimp only
  split <;> rfl

theorem mpc_side (T : ZTables) (S : Nat) (b : Board) (p f t : Nat) :
    (movePieceWithCapture T S b p f t).1.side = b.side := by
  unfold movePieceWithCapture
  dsimp only
  split <;> rfl

theorem mpc_moveCount (T : ZTables) (S : Nat) (b : Board) (p f t : Nat) :
    (movePieceWithCapture T S b p f t).1.moveCount = b.moveCount := by
  unfold movePieceWithCapture
  dsimp only
  split <;> rfl

theorem mpc_states (T : ZTables) (S : Nat) (b : Board) (p f t : Nat) :
    (movePieceWithCapture T S b p f t).1.states = b.states := by
  unfold movePieceWithCapture
  dsimp only
  split <;> rfl

theorem mpc_snd (T : ZTables) (S : Nat) (b : Board) (p f t : Nat) :
    (movePieceWithCapture T S b p f t).2 = b.board t := by
  unfold movePieceWithCapture
  dsimp only
  split <;> rfl

theorem mpc_pieces_quiet (T : ZTables) (S : Nat) (b : Board) (p f t : Nat)
    (hc : b.board t = 0) :
    (movePieceWithCapture T S b p f t).1.pieces =
      fnUpdate b.pieces p (b.pieces p ^^^ (bbFromSquare f ||| bbFromSquare t)) := by
  unfold movePieceWithCapture
  dsimp only
  rw [hc, if_neg (by simp : ¬((0 != 0) = true))]

theorem mpc_pbc_quiet (T : ZTables) (S : Nat) (b : Board) (p f t : Nat)
    (hc : b.board t = 0) :
    (movePieceWithCapture T S b p f t).1.piecesByColor =
      fnUpdate b.piecesByColor S
        (b.piecesByColor S ^^^ (bbFromSquare f ||| bbFromSquare t)) := by
  unfold movePieceWithCapture
  dsimp only
  rw [hc, if_neg (by simp : ¬((0 != 0) = true))]

theorem mpc_material_quiet (T : ZTables) (S : Nat) (b : Board) (p f t : Nat)
    (hc : b.board t = 0) :
    (movePieceWithCapture T S b p f t).1.material = b.material := by
  unfold movePieceWithCapture
  dsimp only
  rw [hc, if_neg (by simp : ¬((0 != 0) = true))]

theorem mpc_score_quiet (T : ZTables) (S : Nat) (b : Board) (p f t : Nat)
    (hc : b.board t = 0) :
    (movePieceWithCapture T S b p f t).1.score =
      fnUpdate b.score S ((b.score S).add ((T.pst p t).sub (T.pst p f))) := by
  unfold movePieceWithCapture
  dsimp only
  rw [hc, if_neg (by simp : ¬((0 != 0) = true))]

theorem mpc_pieces_cap (T : ZTables) (S : Nat) (b : Board) (p f t : Nat)
    (hc : b.board t ≠ 0) :
    (movePieceWithCapture T S b p f t).1.pieces =
      fnUpdate (fnUpdate b.pieces p (b.pieces p ^^^ (bbFromSquare f ||| bbFromSquare t)))
        (b.board t)
        (bbClear
          ((fnUpdate b.pieces p (b.pieces p ^^^ (bbFromSquare f ||| bbFromSquare t)))
            (b.board t)) t) := by
  unfold movePieceWithCapture
  dsimp only
  rw [if_pos (bne_iff_ne.mpr hc)]

theorem mpc_pbc_cap (T : ZTables) (S : Nat) (b : Board) (p f t : Nat)
    (hc : b.board t ≠ 0) :
    (movePieceWithCapture T S b p f t).1.piecesByColor =
      fnUpdate (fnUpdate b.piecesByColor S
          (b.piecesByColor S ^^^ (bbFromSquare f ||| bbFromSquare t)))
        (S ^^^ 1)
        (bbClear
          ((fnUpdate b.piecesByColor S
            (b.piecesByColor S ^^^ (bbFromSquare f ||| bbFromSquare t))) (S ^^^ 1)) t) := by
  unfold movePieceWithCapture
  dsimp only
  rw [if_pos (bne_iff_ne.mpr hc)]

theorem mpc_material_cap (T : ZTables) (S : Nat) (b : Board) (p f t : Nat)
    (hc : b.board t ≠ 0) :
    (movePieceWithCapture T S b p f t).1.material =
      fnUpdate b.material (S ^^^ 1)
        (b.material (S ^^^ 1) - materialOf (pieceType (b.board t))) := by
  unfold movePieceWithCapture
  dsimp only
  rw [if_pos (bne_iff_ne.mpr hc)]

theorem mpc_score_cap (T : ZTables) (S : Nat) (b : Board) (p f t : Nat)
    (hc : b.board t ≠ 0) :
    (movePieceWithCapture T S b p f t).1.score =
      fnUpdate (fnUpdate b.score S ((b.score S).add ((T.pst p t).sub (T.pst p f))))
        (S ^^^ 1)
        (((fnUpdate b.score S ((b.score S).add ((T.pst p t).sub (T.pst p f)))) (S ^^^ 1)).sub
          (T.pst (b.board t) t)) := by
  unfold movePieceWithCapture
  dsimp only
  rw [if_pos (bne_iff_ne.mpr hc)]

/-! Field lemmas for `mkHead` and `mkTail`. -/

theorem mkHead_board (b : Board) (S : Nat) : (mkHead b S).board = b.board := rfl

theorem mkHead_pieces (b : Board) (S : Nat) : (mkHead b S).pieces = b.pieces := rfl

theorem mkHead_pbc (b : Board) (S : Nat) : (mkHead b S).piecesByColor = b.piecesByColor := rfl

theorem mkHead_material (b : Board) (S : Nat) : (mkHead b S).material = b.material := rfl

theorem mkHead_score (b : Board) (S : Nat) : (mkHead b S).score = b.score := rfl

theorem mkHead_moveCount (b : Board) (S : Nat) :
    (mkHead b S).moveCount = b.moveCount + 1 := rfl

theorem mkHead_side (b : Board) (S : Nat) : (mkHead b S).side = S ^^^ 1 := rfl

theorem mkHead_states_tail (b : Board) (S : Nat) : (mkHead b S).states.tail = b.states := rfl

theorem mkHead_state_captured (b : Board) (S : Nat) : (mkHead b S).state.captured = 0 := rfl

theorem updateIS_board (b : Board) : b.updateInternalState.board = b.board := by
  unfold Board.updateInternalState
  rw [modifyState_board]

theorem updateIS_pieces (b : Board) : b.updateInternalState.pieces = b.pieces := by
  unfold Board.updateInternalState
  rw [modifyState_pieces]

theorem updateIS_pbc (b : Board) :
    b.updateInternalState.piecesByColor = b.piecesByColor := by
  unfold Board.updateInternalState
  rw [modifyState_piecesByColor]

theorem updateIS_material (b : Board) : b.updateInternalState.material = b.material := by
  unfold Board.updateInternalState
  rw [modifyState_material]

theorem updateIS_score (b : Board) : b.updateInternalState.score = b.score := by
  unfold Board.updateInternalState
  rw [modifyState_score]

theorem updateIS_moveCount (b : Board) :
    b.updateInternalState.moveCount = b.moveCount := by
  unfold Board.updateInternalState
  rw [modifyState_moveCount]

theorem updateIS_side (b : Board) : b.updateInternalState.side = b.side := by
  unfold Board.updateInternalState
  rw [modifyState_side]

theorem updateIS_states_tail (b : Board) :
    b.updateInternalState.states.tail = b.states.tail := by
  unfold Board.updateInternalState
  rw [modifyState_states_tail]

theorem mkTail_board (b : Board) : (mkTail b).board = b.board := by
  unfold mkTail
  dsimp only
  split
  · split
    · rw [modifyState_board, updateIS_board]
    · rw [updateIS_board]
  · rw [updateIS_board]

theorem mkTail_pieces (b : Board) : (mkTail b).pieces = b.pieces := by
  unfold mkTail
  dsimp only
  split
  · split
    · rw [modifyState_pieces, updateIS_pieces]
    · rw [updateIS_pieces]
  · rw [updateIS_pieces]

theorem mkTail_pbc (b : Board) : (mkTail b).piecesByColor = b.piecesByColor := by
  unfold mkTail
  dsimp only
  split
  · split
    · rw [modifyState_piecesByColor, updateIS_pbc]
    · rw [updateIS_pbc]
  · rw [updateIS_pbc]

theorem mkTail_material (b : Board) : (mkTail b).material = b.material := by
  unfold mkTail
  dsimp only
  split
  · split
    · rw [modifyState_material, updateIS_material]
    · rw [updateIS_material]
  · rw [updateIS_material]

theorem mkTail_score (b : Board) : (mkTail b).score = b.score := by
  unfold mkTail
  dsimp only
  split
  · split
    · rw [modifyState_score, updateIS_score]
    · rw [updateIS_score]
  · rw [updateIS_score]

theorem mkTail_moveCount (b : Board) : (mkTail b).moveCount = b.moveCount := by
  unfold mkTail
  dsimp only
  split
  · split
    · rw [modifyState_moveCount, updateIS_moveCount]
    · rw [updateIS_moveCount]
  · rw [updateIS_moveCount]

theorem mkTail_side (b : Board) : (mkTail b).side = b.side := by
  unfold mkTail
  dsimp only
  split
  · split
    · rw [modifyState_side, updateIS_side]
    · rw [updateIS_side]
  · rw [updateIS_side]

theorem mkTail_states_tail (b : Board) : (mkTail b).states.tail = b.states.tail := by
  unfold mkTail
  dsimp only
  split
  · split
    · rw [modifyState_states_tail, updateIS_states_tail]
    · rw [updateIS_states_tail]
  · rw [updateIS_states_tail]

theorem mkTail_state_captured (b : Board) :
    (mkTail b).state.captured = b.state.captured := by
  unfold mkTail
  dsimp only
  split
  · split
    · rw [modifyState_state]
      dsimp only
      rw [updateInternalState_state_captured]
    · rw [updateInternalState_state_captured]
  · rw [updateInternalState_state_captured]


theorem mkSimpleCore_board (T : ZTables) (S : Nat) (b : Board) (m : Nat) :
    (mkSimpleCore T S b m).board =
      fnUpdate (fnUpdate b.board (mvFrom m) 0) (mvTo m) (b.board (mvFrom m)) := by
  unfold mkSimpleCore
  dsimp only
  split <;> (try split) <;> (try split) <;> simp only [modifyState_board] <;>
    rw [mpc_board]

theorem mkSimpleCore_moveCount (T : ZTables) (S : Nat) (b : Board) (m : Nat) :
    (mkSimpleCore T S b m).moveCount = b.moveCount := by
  unfold mkSimpleCore
  dsimp only
  split <;> (try split) <;> (try split) <;> simp only [modifyState_moveCount] <;>
    rw [mpc_moveCount]

theorem mkSimpleCore_side (T : ZTables) (S : Nat) (b : Board) (m : Nat) :
    (mkSimpleCore T S b m).side = b.side := by
  unfold mkSimpleCore
  dsimp only
  split <;> (try split) <;> (try split) <;> simp only [modifyState_side] <;>
    rw [mpc_side]

theorem mkSimpleCore_states_tail (T : ZTables) (S : Nat) (b : Board) (m : Nat) :
    (mkSimpleCore T S b m).states.tail = b.states.tail := by
  unfold mkSimpleCore
  dsimp only
  split <;> (try split) <;> (try split) <;> simp only [modifyState_states_tail] <;>
    rw [mpc_states]

theorem mkSimpleCore_state_captured (T : ZTables) (S : Nat) (b : Board) (m : Nat) :
    (mkSimpleCore T S b m).state.captured = b.board (mvTo m) := by
  unfold mkSimpleCore
  dsimp only
  split <;> (try split) <;> (try split) <;> simp only [modifyState_state]

theorem mkSimpleCore_pieces_quiet (T : ZTables) (S : Nat) (b : Board) (m : Nat)
    (hc : b.board (mvTo m) = 0) :
    (mkSimpleCore T S b m).pieces =
      fnUpdate b.pieces (b.board (mvFrom m))
        (b.pieces (b.board (mvFrom m)) ^^^
          (bbFromSquare (mvFrom m) ||| bbFromSquare (mvTo m))) := by
  unfold mkSimpleCore
  dsimp only
  rw [hc, if_neg (by simp : ¬((0 != 0) = true))]
  split <;> (try split) <;> (try split) <;> simp only [modifyState_pieces] <;>
    rw [mpc_pieces_quiet T S b _ _ _ hc]

theorem mkSimpleCore_pbc_quiet (T : ZTables) (S : Nat) (b : Board) (m : Nat)
    (hc : b.board (mvTo m) = 0) :
    (mkSimpleCore T S b m).piecesByColor =
      fnUpdate b.piecesByColor S
        (b.piecesByColor S ^^^ (bbFromSquare (mvFrom m) ||| bbFromSquare (mvTo m))) := by
  unfold mkSimpleCore
  dsimp only
  rw [hc, if_neg (by simp : ¬((0 != 0) = true))]
  split <;> (try split) <;> (try split) <;> simp only [modifyState_piecesByColor] <;>
    rw [mpc_pbc_quiet T S b _ _ _ hc]

theorem mkSimpleCore_material_quiet (T : ZTables) (S : Nat) (b : Board) (m : Nat)
    (hc : b.board (mvTo m) = 0) :
    (mkSimpleCore T S b m).material = b.material := by
  unfold mkSimpleCore
  dsimp only
  rw [hc, if_neg (by simp : ¬((0 != 0) = true))]
  split <;> (try split) <;> (try split) <;> simp only [modifyState_material] <;>
    rw [mpc_material_quiet T S b _ _ _ hc]

theorem mkSimpleCore_score_quiet (T : ZTables) (S : Nat) (b : Board) (m : Nat)
    (hc : b.board (mvTo m) = 0) :
    (mkSimpleCore T S b m).score =
      fnUpdate b.score S ((b.score S).add
        ((T.pst (b.board (mvFrom m)) (mvTo m)).sub
          (T.pst (b.board (mvFrom m)) (mvFrom m)))) := by
  unfold mkSimpleCore
  dsimp only
  rw [hc, if_neg (by simp : ¬((0 != 0) = true))]
  split <;> (try split) <;> (try split) <;> simp only [modifyState_score] <;>
    rw [mpc_score_quiet T S b _ _ _ hc]

theorem mkSimpleCore_pieces_cap (T : ZTables) (S : Nat) (b : Board) (m : Nat)
    (hc : b.board (mvTo m) ≠ 0) :
    (mkSimpleCore T S b m).pieces =
      fnUpdate
        (fnUpdate b.pieces (b.board (mvFrom m))
          (b.pieces (b.board (mvFrom m)) ^^^
            (bbFromSquare (mvFrom m) ||| bbFromSquare (mvTo m))))
        (b.board (mvTo m))
        (bbClear
          ((fnUpdate b.pieces (b.board (mvFrom m))
            (b.pieces (b.board (mvFrom m)) ^^^
              (bbFromSquare (mvFrom m) ||| bbFromSquare (mvTo m))))
            (b.board (mvTo m))) (mvTo m)) := by
  unfold mkSimpleCore
  dsimp only
  rw [if_pos (bne_iff_ne.mpr hc)]
  simp only [modifyState_pieces]
  rw [mpc_pieces_cap T S b _ _ _ hc]

theorem mkSimpleCore_pbc_cap (T : ZTables) (S : Nat) (b : Board) (m : Nat)
    (hc : b.board (mvTo m) ≠ 0) :
    (mkSimpleCore T S b m).piecesByColor =
      fnUpdate
        (fnUpdate b.piecesByColor S
          (b.piecesByColor S ^^^ (bbFromSquare (mvFrom m) ||| bbFromSquare (mvTo m))))
        (S ^^^ 1)
        (bbClear
          ((fnUpdate b.piecesByColor S
            (b.piecesByColor S ^^^ (bbFromSquare (mvFrom m) ||| bbFromSquare (mvTo m))))
            (S ^^^ 1)) (mvTo m)) := by
  unfold mkSimpleCore
  dsimp only
  rw [if_pos (bne_iff_ne.mpr hc)]
  simp only [modifyState_piecesByColor]
  rw [mpc_pbc_cap T S b _ _ _ hc]

theorem mkSimpleCore_material_cap (T : ZTables) (S : Nat) (b : Board) (m : Nat)
    (hc : b.board (mvTo m) ≠ 0) :
    (mkSimpleCore T S b m).material =
      fnUpdate b.material (S ^^^ 1)
        (b.material (S ^^^ 1) - materialOf (pieceType (b.board (mvTo m)))) := by
  unfold mkSimpleCore
  dsimp only
  rw [if_pos (bne_iff_ne.mpr hc)]
  simp only [modifyState_material]
  rw [mpc_material_cap T S b _ _ _ hc]

theorem mkSimpleCore_score_cap (T : ZTables) (S : Nat) (b : Board) (m : Nat)
    (hc : b.board (mvTo m) ≠ 0) :
    (mkSimpleCore T S b m).score =
      fnUpdate
        (fnUpdate b.score S ((b.score S).add
          ((T.pst (b.board (mvFrom m)) (mvTo m)).sub
            (T.pst (b.board (mvFrom m)) (mvFrom m)))))
        (S ^^^ 1)
        (((fnUpdate b.score S ((b.score S).add
            ((T.pst (b.board (mvFrom m)) (mvTo m)).sub
              (T.pst (b.board (mvFrom m)) (mvFrom m))))) (S ^^^ 1)).sub
          (T.pst (b.board (mvTo m)) (mvTo m))) := by
  unfold mkSimpleCore
  dsimp only
  rw [if_pos (bne_iff_ne.mpr hc)]
  simp only [modifyState_score]
  rw [mpc_score_cap T S b _ _ _ hc]


/-- makeMoveSide-level composite facts for a simple move. -/
theorem mkS_board (T : ZTables) (S : Nat) (b : Board) (m : Nat)
    (h0 : mvType m = mtSIMPLE) :
    (makeMoveSide T S b m).board =
      fnUpdate (fnUpdate b.board (mvFrom m) 0) (mvTo m) (b.board (mvFrom m)) := by
  unfold makeMoveSide
  dsimp only
  rw [if_pos h0, mkTail_board, mkSimpleCore_board, mkHead_board]

theorem mkS_moveCount (T : ZTables) (S : Nat) (b : Board) (m : Nat)
    (h0 : mvType m = mtSIMPLE) :
    (makeMoveSide T S b m).moveCount = b.moveCount + 1 := by
  unfold makeMoveSide
  dsimp only
  rw [if_pos h0, mkTail_moveCount, mkSimpleCore_moveCount, mkHead_moveCount]

theorem mkS_states_tail (T : ZTables) (S : Nat) (b : Board) (m : Nat)
    (h0 : mvType m = mtSIMPLE) :
    (makeMoveSide T S b m).states.tail = b.states := by
  unfold makeMoveSide
  dsimp only
  rw [if_pos h0, mkTail_states_tail, mkSimpleCore_states_tail, mkHead_states_tail]

theorem mkS_captured (T : ZTables) (S : Nat) (b : Board) (m : Nat)
    (h0 : mvType m = mtSIMPLE) :
    (makeMoveSide T S b m).state.captured = b.board (mvTo m) := by
  unfold makeMoveSide
  dsimp only
  rw [if_pos h0, mkTail_state_captured, mkSimpleCore_state_captured, mkHead_board]

theorem mkS_pieces_quiet (T : ZTables) (S : Nat) (b : Board) (m : Nat)
    (h0 : mvType m = mtSIMPLE) (hc : b.board (mvTo m) = 0) :
    (makeMoveSide T S b m).pieces =
      fnUpdate b.pieces (b.board (mvFrom m))
        (b.pieces (b.board (mvFrom m)) ^^^
          (bbFromSquare (mvFrom m) ||| bbFromSquare (mvTo m))) := by
  unfold makeMoveSide
  dsimp only
  rw [if_pos h0, mkTail_pieces,
    mkSimpleCore_pieces_quiet T S (mkHead b S) m (by rw [mkHead_board]; exact hc),
    mkHead_pieces, mkHead_board]

theorem mkS_pbc_quiet (T : ZTables) (S : Nat) (b : Board) (m : Nat)
    (h0 : mvType m = mtSIMPLE) (hc : b.board (mvTo m) = 0) :
    (makeMoveSide T S b m).piecesByColor =
      fnUpdate b.piecesByColor S
        (b.piecesByColor S ^^^ (bbFromSquare (mvFrom m) ||| bbFromSquare (mvTo m))) := by
  unfold makeMoveSide
  dsimp only
  rw [if_pos h0, mkTail_pbc,
    mkSimpleCore_pbc_quiet T S (mkHead b S) m (by rw [mkHead_board]; exact hc),
    mkHead_pbc]

theorem mkS_material_quiet (T : ZTables) (S : Nat) (b : Board) (m : Nat)
    (h0 : mvType m = mtSIMPLE) (hc : b.board (mvTo m) = 0) :
    (makeMoveSide T S b m).material = b.material := by
  unfold makeMoveSide
  dsimp only
  rw [if_pos h0, mkTail_material,
    mkSimpleCore_material_quiet T S (mkHead b S) m (by rw [mkHead_board]; exact hc),
    mkHead_material]

theorem mkS_score_quiet (T : ZTables) (S : Nat) (b : Board) (m : Nat)
    (h0 : mvType m = mtSIMPLE) (hc : b.board (mvTo m) = 0) :
    (makeMoveSide T S b m).score =
      fnUpdate b.score S ((b.score S).add
        ((T.pst (b.board (mvFrom m)) (mvTo m)).sub
          (T.pst (b.board (mvFrom m)) (mvFrom m)))) := by
  unfold makeMoveSide
  dsimp only
  rw [if_pos h0, mkTail_score,
    mkSimpleCore_score_quiet T S (mkHead b S) m (by rw [mkHead_board]; exact hc),
    mkHead_score, mkHead_board]

/-- Unmaking a quiet simple move restores the position. -/
theorem unmake_make_simple_quiet (T : ZTables) (S : Nat) (b : Board) (m : Nat)
    (hbs : b.side = S)
    (h0 : mvType m = mtSIMPLE)
    (hc : b.board (mvTo m) = 0) :
    unmakeMoveSide T S (makeMoveSide T S b m) m = b := by
  have hB := mkS_board T S b m h0
  have hP := mkS_pieces_quiet T S b m h0 hc
  have hC := mkS_pbc_quiet T S b m h0 hc
  have hM := mkS_material_quiet T S b m h0 hc
  have hSc := mkS_score_quiet T S b m h0 hc
  have hMc := mkS_moveCount T S b m h0
  have hSt := mkS_states_tail T S b m h0
  have hCap := mkS_captured T S b m h0
  unfold unmakeMoveSide
  dsimp only
  rw [hCap, hc, if_pos h0]
  unfold unmovePieceWithCapture
  dsimp only
  rw [if_neg (by simp : ¬((0 != 0) = true))]
  rw [hB, fnUpdate_eq, hP, hC, hM, hSc, hMc, hSt]
  refine Board.ext ?_ ?_ ?_ ?_ ?_ ?_ ?_ ?_ <;> dsimp only
  · -- board
    funext x
    by_cases hx1 : x = mvFrom m
    · subst hx1
      rw [fnUpdate_eq]
    · rw [fnUpdate_ne _ _ _ _ hx1]
      by_cases hx2 : x = mvTo m
      · subst hx2
        rw [fnUpdate_eq, hc]
      · rw [fnUpdate_ne _ _ _ _ hx2, fnUpdate_ne _ _ _ _ hx2,
          fnUpdate_ne _ _ _ _ hx1]
  · -- pieces
    rw [fnUpdate_eq, Nat.xor_cancel_right, fnUpdate_fnUpdate, fnUpdate_self]
  · -- piecesByColor
    rw [fnUpdate_eq, Nat.xor_cancel_right, fnUpdate_fnUpdate, fnUpdate_self]
  · -- score
    rw [fnUpdate_eq, Score.add_sub_cancel, fnUpdate_fnUpdate, fnUpdate_self]
  · -- moveCount
    omega
  · -- side
    exact hbs.symm


theorem xor_one_ne (S : Nat) (hS : S < 2) : S ^^^ 1 ≠ S := by
  interval_cases S <;> decide

theorem xor_one_lt (S : Nat) (hS : S < 2) : S ^^^ 1 < 2 := by
  interval_cases S <;> decide

theorem mkS_pieces_cap (T : ZTables) (S : Nat) (b : Board) (m : Nat)
    (h0 : mvType m = mtSIMPLE) (hc : b.board (mvTo m) ≠ 0) :
    (makeMoveSide T S b m).pieces =
      fnUpdate
        (fnUpdate b.pieces (b.board (mvFrom m))
          (b.pieces (b.board (mvFrom m)) ^^^
            (bbFromSquare (mvFrom m) ||| bbFromSquare (mvTo m))))
        (b.board (mvTo m))
        (bbClear
          ((fnUpdate b.pieces (b.board (mvFrom m))
            (b.pieces (b.board (mvFrom m)) ^^^
              (bbFromSquare (mvFrom m) ||| bbFromSquare (mvTo m))))
            (b.board (mvTo m))) (mvTo m)) := by
  unfold makeMoveSide
  dsimp only
  rw [if_pos h0, mkTail_pieces,
    mkSimpleCore_pieces_cap T S (mkHead b S) m (by rw [mkHead_board]; exact hc),
    mkHead_pieces, mkHead_board]

theorem mkS_pbc_cap (T : ZTables) (S : Nat) (b : Board) (m : Nat)
    (h0 : mvType m = mtSIMPLE) (hc : b.board (mvTo m) ≠ 0) :
    (makeMoveSide T S b m).piecesByColor =
      fnUpdate
        (fnUpdate b.piecesByColor S
          (b.piecesByColor S ^^^ (bbFromSquare (mvFrom m) ||| bbFromSquare (mvTo m))))
        (S ^^^ 1)
        (bbClear
          ((fnUpdate b.piecesByColor S
            (b.piecesByColor S ^^^ (bbFromSquare (mvFrom m) ||| bbFromSquare (mvTo m))))
            (S ^^^ 1)) (mvTo m)) := by
  unfold makeMoveSide
  dsimp only
  rw [if_pos h0, mkTail_pbc,
    mkSimpleCore_pbc_cap T S (mkHead b S) m (by rw [mkHead_board]; exact hc),
    mkHead_pbc]

theorem mkS_material_cap (T : ZTables) (S : Nat) (b : Board) (m : Nat)
    (h0 : mvType m = mtSIMPLE) (hc : b.board (mvTo m) ≠ 0) :
    (makeMoveSide T S b m).material =
      fnUpdate b.material (S ^^^ 1)
        (b.material (S ^^^ 1) - materialOf (pieceType (b.board (mvTo m)))) := by
  unfold makeMoveSide
  dsimp only
  rw [if_pos h0, mkTail_material,
    mkSimpleCore_material_cap T S (mkHead b S) m (by rw [mkHead_board]; exact hc),
    mkHead_material, mkHead_board]

theorem mkS_score_cap (T : ZTables) (S : Nat) (b : Board) (m : Nat)
    (h0 : mvType m = mtSIMPLE) (hc : b.board (mvTo m) ≠ 0) :
    (makeMoveSide T S b m).score =
      fnUpdate
        (fnUpdate b.score S ((b.score S).add
          ((T.pst (b.board (mvFrom m)) (mvTo m)).sub
            (T.pst (b.board (mvFrom m)) (mvFrom m)))))
        (S ^^^ 1)
        (((fnUpdate b.score S ((b.score S).add
            ((T.pst (b.board (mvFrom m)) (mvTo m)).sub
              (T.pst (b.board (mvFrom m)) (mvFrom m))))) (S ^^^ 1)).sub
          (T.pst (b.board (mvTo m)) (mvTo m))) := by
  unfold makeMoveSide
  dsimp only
  rw [if_pos h0, mkTail_score,
    mkSimpleCore_score_cap T S (mkHead b S) m (by rw [mkHead_board]; exact hc),
    mkHead_score, mkHead_board]

/-- Unmaking a capturing simple move restores the position. -/
theorem unmake_make_simple_cap (T : ZTables) (S : Nat) (b : Board) (m : Nat)
    (hbs : b.side = S) (hS : S < 2)
    (h0 : mvType m = mtSIMPLE)
    (hc : b.board (mvTo m) ≠ 0)
    (hpc : pieceColor (b.board (mvFrom m)) = S)
    (hcapc : pieceColor (b.board (mvTo m)) = S ^^^ 1)
    (hcons : boardConsistent b) :
    unmakeMoveSide T S (makeMoveSide T S b m) m = b := by
  obtain ⟨inv1, inv2, inv3, inv4, inv5⟩ := hcons
  have hrange : 2 ≤ b.board (mvTo m) ∧ b.board (mvTo m) < 14 := by
    rcases inv5 (mvTo m) (mvTo_lt m) with h | h
    · exact absurd h hc
    · exact h
  have epc : b.board (mvFrom m) ≠ b.board (mvTo m) := by
    intro h
    rw [h, hcapc] at hpc
    exact xor_one_ne S hS hpc
  have epc' : b.board (mvTo m) ≠ b.board (mvFrom m) := Ne.symm epc
  have hltp : b.pieces (b.board (mvTo m)) < 2 ^ 64 := inv1 _ hrange.2
  have hbitp : (b.pieces (b.board (mvTo m))).testBit (mvTo m) = true := by
    rw [← bbTest_eq_testBit _ _ (mvTo_lt m)]
    exact (inv3 (mvTo m) (mvTo_lt m) _ hrange.1 hrange.2).mpr rfl
  have hltc : b.piecesByColor (S ^^^ 1) < 2 ^ 64 := inv2 _ (xor_one_lt S hS)
  have hbitc : (b.piecesByColor (S ^^^ 1)).testBit (mvTo m) = true := by
    rw [← bbTest_eq_testBit _ _ (mvTo_lt m)]
    exact (inv4 (mvTo m) (mvTo_lt m) _ (xor_one_lt S hS)).mpr ⟨hc, hcapc⟩
  have hSne : S ≠ S ^^^ 1 := Ne.symm (xor_one_ne S hS)
  have hSne' : S ^^^ 1 ≠ S := xor_one_ne S hS
  have hB := mkS_board T S b m h0
  have hP := mkS_pieces_cap T S b m h0 hc
  have hC := mkS_pbc_cap T S b m h0 hc
  have hM := mkS_material_cap T S b m h0 hc
  have hSc := mkS_score_cap T S b m h0 hc
  have hMc := mkS_moveCount T S b m h0
  have hSt := mkS_states_tail T S b m h0
  have hCap := mkS_captured T S b m h0
  unfold unmakeMoveSide
  dsimp only
  rw [hCap, if_pos h0]
  unfold unmovePieceWithCapture
  dsimp only
  rw [if_pos (bne_iff_ne.mpr hc)]
  rw [hB, fnUpdate_eq, hP, hC, hM, hSc, hMc, hSt]
  refine Board.ext ?_ ?_ ?_ ?_ ?_ ?_ ?_ ?_ <;> dsimp only
  · -- board
    funext x
    by_cases hx1 : x = mvFrom m
    · subst hx1
      rw [fnUpdate_eq]
    · rw [fnUpdate_ne _ _ _ _ hx1]
      by_cases hx2 : x = mvTo m
      · subst hx2
        rw [fnUpdate_eq]
      · rw [fnUpdate_ne _ _ _ _ hx2, fnUpdate_ne _ _ _ _ hx2,
          fnUpdate_ne _ _ _ _ hx1]
  · -- pieces
    rw [fnUpdate_ne _ _ _ _ epc, fnUpdate_eq, Nat.xor_cancel_right]
    rw [fnUpdate_ne _ _ _ _ epc', fnUpdate_ne _ _ _ _ epc', fnUpdate_eq]
    rw [bbSet_bbClear _ _ hltp (mvTo_lt m) hbitp]
    funext x
    by_cases hx1 : x = b.board (mvTo m)
    · subst hx1
      rw [fnUpdate_eq]
    · rw [fnUpdate_ne _ _ _ _ hx1]
      by_cases hx2 : x = b.board (mvFrom m)
      · subst hx2
        rw [fnUpdate_eq]
      · rw [fnUpdate_ne _ _ _ _ hx2, fnUpdate_ne _ _ _ _ hx1,
          fnUpdate_ne _ _ _ _ hx2]
  · -- piecesByColor
    rw [fnUpdate_ne _ _ _ _ hSne, fnUpdate_eq, Nat.xor_cancel_right]
    rw [fnUpdate_ne _ _ _ _ hSne', fnUpdate_ne _ _ _ _ hSne', fnUpdate_eq]
    rw [bbSet_bbClear _ _ hltc (mvTo_lt m) hbitc]
    funext x
    by_cases hx1 : x = S ^^^ 1
    · subst hx1
      rw [fnUpdate_eq]
    · rw [fnUpdate_ne _ _ _ _ hx1]
      by_cases hx2 : x = S
      · subst hx2
        rw [fnUpdate_eq]
      · rw [fnUpdate_ne _ _ _ _ hx2, fnUpdate_ne _ _ _ _ hx1,
          fnUpdate_ne _ _ _ _ hx2]
  · -- material
    rw [fnUpdate_eq, sub_add_cancel, fnUpdate_fnUpdate, fnUpdate_self]
  · -- score
    rw [fnUpdate_ne _ _ _ _ hSne, fnUpdate_eq, Score.add_sub_cancel]
    rw [fnUpdate_ne _ _ _ _ hSne', fnUpdate_ne _ _ _ _ hSne', fnUpdate_eq,
      Score.sub_add_cancel]
    funext x
    by_cases hx1 : x = S ^^^ 1
    · subst hx1
      rw [fnUpdate_eq]
    · rw [fnUpdate_ne _ _ _ _ hx1]
      by_cases hx2 : x = S
      · subst hx2
        rw [fnUpdate_eq]
      · rw [fnUpdate_ne _ _ _ _ hx2, fnUpdate_ne _ _ _ _ hx1,
          fnUpdate_ne _ _ _ _ hx2]
  · -- moveCount
    omega
  · -- side
    exact hbs.symm



theorem mvPromo_ge2 (m : Nat) : 2 ≤ mvPromo m := Nat.le_add_left 2 _

theorem mvPromo_lt6 (m : Nat) : mvPromo m < 6 := by
  have h : (m >>> 12) &&& 0x3 ≤ 3 := Nat.and_le_right
  unfold mvPromo ptKNIGHT
  omega

theorem mkPiece_lt14 (S pt : Nat) (hS : S < 2) (hpt : pt < 7) : mkPiece S pt < 14 := by
  rw [mkPiece_eq S pt hS]
  omega

theorem mkPiece_ge2 (S pt : Nat) (hS : S < 2) (hpt : 1 ≤ pt) : 2 ≤ mkPiece S pt := by
  rw [mkPiece_eq S pt hS]
  omega

theorem mkPiece_ne_type (S pt pt' : Nat) (hS : S < 2) (h : pt ≠ pt') :
    mkPiece S pt ≠ mkPiece S pt' := by
  rw [mkPiece_eq S pt hS, mkPiece_eq S pt' hS]
  omega

/-! Field lemmas for `promotePawn` (either direction). -/

theorem ppT_board (T : ZTables) (S : Nat) (b : Board) (p f t : Nat) :
    (promotePawn T S true b p f t).board = fnUpdate (fnUpdate b.board f 0) t p := rfl

theorem ppT_pieces (T : ZTables) (S : Nat) (b : Board) (p f t : Nat) :
    (promotePawn T S true b p f t).pieces =
      fnUpdate (fnUpdate b.pieces (mkPiece S ptPAWN)
          (bbClear (b.pieces (mkPiece S ptPAWN)) f))
        p (bbSet (b.pieces p) t) := rfl

theorem ppT_pbc (T : ZTables) (S : Nat) (b : Board) (p f t : Nat) :
    (promotePawn T S true b p f t).piecesByColor =
      fnUpdate b.piecesByColor S
        (b.piecesByColor S ^^^ (bbFromSquare f ||| bbFromSquare t)) := rfl

theorem ppT_material (T : ZTables) (S : Nat) (b : Board) (p f t : Nat) :
    (promotePawn T S true b p f t).material =
      fnUpdate b.material S
        (b.material S + (materialOf (pieceType p) - materialOf ptPAWN)) := rfl

theorem ppT_score (T : ZTables) (S : Nat) (b : Board) (p f t : Nat) :
    (promotePawn T S true b p f t).score =
      fnUpdate b.score S
        ((b.score S).add ((T.pst p t).sub (T.pst (mkPiece S ptPAWN) f))) := rfl

theorem ppT_states (T : ZTables) (S : Nat) (b : Board) (p f t : Nat) :
    (promotePawn T S true b p f t).states = b.states := rfl

theorem ppT_moveCount (T : ZTables) (S : Nat) (b : Board) (p f t : Nat) :
    (promotePawn T S true b p f t).moveCount = b.moveCount := rfl

theorem ppT_side (T : ZTables) (S : Nat) (b : Board) (p f t : Nat) :
    (promotePawn T S true b p f t).side = b.side := rfl

theorem ppT_state (T : ZTables) (S : Nat) (b : Board) (p f t : Nat) :
    (promotePawn T S true b p f t).state = b.state := rfl

/-! Field lemmas for `promotePawnWithCapture`. -/

theorem ppc_board (T : ZTables) (S : Nat) (b : Board) (p f t : Nat) :
    (promotePawnWithCapture T S b p f t).1.board =
      fnUpdate (fnUpdate b.board f 0) t p := by
  unfold promotePawnWithCapture
  dsimp only
  split <;> rfl

theorem ppc_states (T : ZTables) (S : Nat) (b : Board) (p f t : Nat) :
    (promotePawnWithCapture T S b p f t).1.states = b.states := by
  unfold promotePawnWithCapture
  dsimp only
  split <;> rfl

theorem ppc_moveCount (T : ZTables) (S : Nat) (b : Board) (p f t : Nat) :
    (promotePawnWithCapture T S b p f t).1.moveCount = b.moveCount := by
  unfold promotePawnWithCapture
  dsimp only
  split <;> rfl

theorem ppc_side (T : ZTables) (S : Nat) (b : Board) (p f t : Nat) :
    (promotePawnWithCapture T S b p f t).1.side = b.side := by
  unfold promotePawnWithCapture
  dsimp only
  split <;> rfl

theorem ppc_state (T : ZTables) (S : Nat) (b : Board) (p f t : Nat) :
    (promotePawnWithCapture T S b p f t).1.state = b.state := by
  unfold promotePawnWithCapture
  dsimp only
  split <;> rfl

theorem ppc_pieces_quiet (T : ZTables) (S : Nat) (b : Board) (p f t : Nat)
    (hc : b.board t = 0) :
    (promotePawnWithCapture T S b p f t).1.pieces =
      fnUpdate (fnUpdate b.pieces (mkPiece S ptPAWN)
          (bbClear (b.pieces (mkPiece S ptPAWN)) f))
        p (bbSet (b.pieces p) t) := by
  unfold promotePawnWithCapture
  dsimp only
  rw [hc, if_neg (by simp : ¬((0 != 0) = true))]

theorem ppc_pbc_quiet (T : ZTables) (S : Nat) (b : Board) (p f t : Nat)
    (hc : b.board t = 0) :
    (promotePawnWithCapture T S b p f t).1.piecesByColor =
      fnUpdate b.piecesByColor S
        (b.piecesByColor S ^^^ (bbFromSquare f ||| bbFromSquare t)) := by
  unfold promotePawnWithCapture
  dsimp only
  rw [hc, if_neg (by simp : ¬((0 != 0) = true))]

theorem ppc_material_quiet (T : ZTables) (S : Nat) (b : Board) (p f t : Nat)
    (hc : b.board t = 0) :
    (promotePawnWithCapture T S b p f t).1.material =
      fnUpdate b.material S
        (b.material S + (materialOf (pieceType p) - materialOf ptPAWN)) := by
  unfold promotePawnWithCapture
  dsimp only
  rw [hc, if_neg (by simp : ¬((0 != 0) = true))]

theorem ppc_score_quiet (T : ZTables) (S : Nat) (b : Board) (p f t : Nat)
    (hc : b.board t = 0) :
    (promotePawnWithCapture T S b p f t).1.score =
      fnUpdate b.score S
        ((b.score S).add ((T.pst p t).sub (T.pst (mkPiece S ptPAWN) f))) := by
  unfold promotePawnWithCapture
  dsimp only
  rw [hc, if_neg (by simp : ¬((0 != 0) = true))]

theorem ppc_pieces_cap (T : ZTables) (S : Nat) (b : Board) (p f t : Nat)
    (hc : b.board t ≠ 0) :
    (promotePawnWithCapture T S b p f t).1.pieces =
      fnUpdate
        (fnUpdate (fnUpdate b.pieces (mkPiece S ptPAWN)
            (bbClear (b.pieces (mkPiece S ptPAWN)) f))
          p (bbSet (b.pieces p) t))
        (b.board t)
        (bbClear
          ((fnUpdate (fnUpdate b.pieces (mkPiece S ptPAWN)
              (bbClear (b.pieces (mkPiece S ptPAWN)) f))
            p (bbSet (b.pieces p) t)) (b.board t)) t) := by
  unfold promotePawnWithCapture
  dsimp only
  rw [if_pos (bne_iff_ne.mpr hc)]

theorem ppc_pbc_cap (T : ZTables) (S : Nat) (b : Board) (p f t : Nat)
    (hc : b.board t ≠ 0) :
    (promotePawnWithCapture T S b p f t).1.piecesByColor =
      fnUpdate
        (fnUpdate b.piecesByColor S
          (b.piecesByColor S ^^^ (bbFromSquare f ||| bbFromSquare t)))
        (S ^^^ 1)
        (bbClear
          ((fnUpdate b.piecesByColor S
            (b.piecesByColor S ^^^ (bbFromSquare f ||| bbFromSquare t))) (S ^^^ 1)) t) := by
  unfold promotePawnWithCapture
  dsimp only
  rw [if_pos (bne_iff_ne.mpr hc)]

theorem ppc_material_cap (T : ZTables) (S : Nat) (b : Board) (p f t : Nat)
    (hc : b.board t ≠ 0) :
    (promotePawnWithCapture T S b p f t).1.material =
      fnUpdate
        (fnUpdate b.material S
          (b.material S + (materialOf (pieceType p) - materialOf ptPAWN)))
        (S ^^^ 1)
        ((fnUpdate b.material S
            (b.material S + (materialOf (pieceType p) - materialOf ptPAWN))) (S ^^^ 1) -
          materialOf (pieceType (b.board t))) := by
  unfold promotePawnWithCapture
  dsimp only
  rw [if_pos (bne_iff_ne.mpr hc)]

theorem ppc_score_cap (T : ZTables) (S : Nat) (b : Board) (p f t : Nat)
    (hc : b.board t ≠ 0) :
    (promotePawnWithCapture T S b p f t).1.score =
      fnUpdate
        (fnUpdate b.score S
          ((b.score S).add ((T.pst p t).sub (T.pst (mkPiece S ptPAWN) f))))
        (S ^^^ 1)
        (((fnUpdate b.score S
            ((b.score S).add ((T.pst p t).sub (T.pst (mkPiece S ptPAWN) f)))) (S ^^^ 1)).sub
          (T.pst (b.board t) t)) := by
  unfold promotePawnWithCapture
  dsimp only
  rw [if_pos (bne_iff_ne.mpr hc)]


theorem mkPromoCore_board (T : ZTables) (S : Nat) (b : Board) (m : Nat) :
    (mkPromoCore T S b m).board =
      fnUpdate (fnUpdate b.board (mvFrom m) 0) (mvTo m) (mkPiece S (mvPromo m)) := by
  unfold mkPromoCore
  dsimp only
  split <;> (try split) <;> (try split) <;> simp only [modifyState_board] <;>
    first
      | rw [ppc_board]
      | rw [ppT_board]

theorem mkPromoCore_moveCount (T : ZTables) (S : Nat) (b : Board) (m : Nat) :
    (mkPromoCore T S b m).moveCount = b.moveCount := by
  unfold mkPromoCore
  dsimp only
  split <;> (try split) <;> (try split) <;> simp only [modifyState_moveCount] <;>
    first
      | rw [ppc_moveCount]
      | rw [ppT_moveCount]

theorem mkPromoCore_side (T : ZTables) (S : Nat) (b : Board) (m : Nat) :
    (mkPromoCore T S b m).side = b.side := by
  unfold mkPromoCore
  dsimp only
  split <;> (try split) <;> (try split) <;> simp only [modifyState_side] <;>
    first
      | rw [ppc_side]
      | rw [ppT_side]

theorem mkPromoCore_states_tail (T : ZTables) (S : Nat) (b : Board) (m : Nat) :
    (mkPromoCore T S b m).states.tail = b.states.tail := by
  unfold mkPromoCore
  dsimp only
  split <;> (try split) <;> (try split) <;> simp only [modifyState_states_tail] <;>
    first
      | rw [ppc_states]
      | rw [ppT_states]

theorem mkPromoCore_captured_diag (T : ZTables) (S : Nat) (b : Board) (m : Nat)
    (hd : ((mvTo m : Int) - (mvFrom m : Int) ≠ (if S = 1 then (8 : Int) else -8))) :
    (mkPromoCore T S b m).state.captured = b.board (mvTo m) := by
  unfold mkPromoCore
  dsimp only
  rw [if_pos hd]
  split <;> simp only [modifyState_state]

theorem mkPromoCore_captured_straight (T : ZTables) (S : Nat) (b : Board) (m : Nat)
    (hd : ¬((mvTo m : Int) - (mvFrom m : Int) ≠ (if S = 1 then (8 : Int) else -8))) :
    (mkPromoCore T S b m).state.captured = b.state.captured := by
  unfold mkPromoCore
  dsimp only
  rw [if_neg hd]
  simp only [modifyState_state]
  rw [ppT_state]

theorem mkPromoCore_pieces_quiet (T : ZTables) (S : Nat) (b : Board) (m : Nat)
    (hc : b.board (mvTo m) = 0) :
    (mkPromoCore T S b m).pieces =
      fnUpdate (fnUpdate b.pieces (mkPiece S ptPAWN)
          (bbClear (b.pieces (mkPiece S ptPAWN)) (mvFrom m)))
        (mkPiece S (mvPromo m))
        (bbSet (b.pieces (mkPiece S (mvPromo m))) (mvTo m)) := by
  unfold mkPromoCore
  dsimp only
  rw [hc, if_neg (by simp : ¬((0 != 0) = true))]
  split <;> (try split) <;> simp only [modifyState_pieces] <;>
    first
      | rw [ppc_pieces_quiet T S b _ _ _ hc]
      | rw [ppT_pieces]

theorem mkPromoCore_pbc_quiet (T : ZTables) (S : Nat) (b : Board) (m : Nat)
    (hc : b.board (mvTo m) = 0) :
    (mkPromoCore T S b m).piecesByColor =
      fnUpdate b.piecesByColor S
        (b.piecesByColor S ^^^ (bbFromSquare (mvFrom m) ||| bbFromSquare (mvTo m))) := by
  unfold mkPromoCore
  dsimp only
  rw [hc, if_neg (by simp : ¬((0 != 0) = true))]
  split <;> (try split) <;> simp only [modifyState_piecesByColor] <;>
    first
      | rw [ppc_pbc_quiet T S b _ _ _ hc]
      | rw [ppT_pbc]

theorem mkPromoCore_material_quiet (T : ZTables) (S : Nat) (b : Board) (m : Nat)
    (hc : b.board (mvTo m) = 0) :
    (mkPromoCore T S b m).material =
      fnUpdate b.material S
        (b.material S +
          (materialOf (pieceType (mkPiece S (mvPromo m))) - materialOf ptPAWN)) := by
  unfold mkPromoCore
  dsimp only
  rw [hc, if_neg (by simp : ¬((0 != 0) = true))]
  split <;> (try split) <;> simp only [modifyState_material] <;>
    first
      | rw [ppc_material_quiet T S b _ _ _ hc]
      | rw [ppT_material]

theorem mkPromoCore_score_quiet (T : ZTables) (S : Nat) (b : Board) (m : Nat)
    (hc : b.board (mvTo m) = 0) :
    (mkPromoCore T S b m).score =
      fnUpdate b.score S
        ((b.score S).add ((T.pst (mkPiece S (mvPromo m)) (mvTo m)).sub
          (T.pst (mkPiece S ptPAWN) (mvFrom m)))) := by
  unfold mkPromoCore
  dsimp only
  rw [hc, if_neg (by simp : ¬((0 != 0) = true))]
  split <;> (try split) <;> simp only [modifyState_score] <;>
    first
      | rw [ppc_score_quiet T S b _ _ _ hc]
      | rw [ppT_score]

theorem mkPromoCore_pieces_cap (T : ZTables) (S : Nat) (b : Board) (m : Nat)
    (hd : ((mvTo m : Int) - (mvFrom m : Int) ≠ (if S = 1 then (8 : Int) else -8)))
    (hc : b.board (mvTo m) ≠ 0) :
    (mkPromoCore T S b m).pieces =
      fnUpdate
        (fnUpdate (fnUpdate b.pieces (mkPiece S ptPAWN)
            (bbClear (b.pieces (mkPiece S ptPAWN)) (mvFrom m)))
          (mkPiece S (mvPromo m))
          (bbSet (b.pieces (mkPiece S (mvPromo m))) (mvTo m)))
        (b.board (mvTo m))
        (bbClear
          ((fnUpdate (fnUpdate b.pieces (mkPiece S ptPAWN)
              (bbClear (b.pieces (mkPiece S ptPAWN)) (mvFrom m)))
            (mkPiece S (mvPromo m))
            (bbSet (b.pieces (mkPiece S (mvPromo m))) (mvTo m))) (b.board (mvTo m)))
          (mvTo m)) := by
  unfold mkPromoCore
  dsimp only
  rw [if_pos hd, if_pos (bne_iff_ne.mpr hc)]
  simp only [modifyState_pieces]
  rw [ppc_pieces_cap T S b _ _ _ hc]

theorem mkPromoCore_pbc_cap (T : ZTables) (S : Nat) (b : Board) (m : Nat)
    (hd : ((mvTo m : Int) - (mvFrom m : Int) ≠ (if S = 1 then (8 : Int) else -8)))
    (hc : b.board (mvTo m) ≠ 0) :
    (mkPromoCore T S b m).piecesByColor =
      fnUpdate
        (fnUpdate b.piecesByColor S
          (b.piecesByColor S ^^^ (bbFromSquare (mvFrom m) ||| bbFromSquare (mvTo m))))
        (S ^^^ 1)
        (bbClear
          ((fnUpdate b.piecesByColor S
            (b.piecesByColor S ^^^ (bbFromSquare (mvFrom m) ||| bbFromSquare (mvTo m))))
            (S ^^^ 1)) (mvTo m)) := by
  unfold mkPromoCore
  dsimp only
  rw [if_pos hd, if_pos (bne_iff_ne.mpr hc)]
  simp only [modifyState_piecesByColor]
  rw [ppc_pbc_cap T S b _ _ _ hc]

theorem mkPromoCore_material_cap (T : ZTables) (S : Nat) (b : Board) (m : Nat)
    (hd : ((mvTo m : Int) - (mvFrom m : Int) ≠ (if S = 1 then (8 : Int) else -8)))
    (hc : b.board (mvTo m) ≠ 0) :
    (mkPromoCore T S b m).material =
      fnUpdate
        (fnUpdate b.material S
          (b.material S +
            (materialOf (pieceType (mkPiece S (mvPromo m))) - materialOf ptPAWN)))
        (S ^^^ 1)
        ((fnUpdate b.material S
            (b.material S +
              (materialOf (pieceType (mkPiece S (mvPromo m))) - materialOf ptPAWN)))
            (S ^^^ 1) -
          materialOf (pieceType (b.board (mvTo m)))) := by
  unfold mkPromoCore
  dsimp only
  rw [if_pos hd, if_pos (bne_iff_ne.mpr hc)]
  simp only [modifyState_material]
  rw [ppc_material_cap T S b _ _ _ hc]

theorem mkPromoCore_score_cap (T : ZTables) (S : Nat) (b : Board) (m : Nat)
    (hd : ((mvTo m : Int) - (mvFrom m : Int) ≠ (if S = 1 then (8 : Int) else -8)))
    (hc : b.board (mvTo m) ≠ 0) :
    (mkPromoCore T S b m).score =
      fnUpdate
        (fnUpdate b.score S
          ((b.score S).add ((T.pst (mkPiece S (mvPromo m)) (mvTo m)).sub
            (T.pst (mkPiece S ptPAWN) (mvFrom m)))))
        (S ^^^ 1)
        (((fnUpdate b.score S
            ((b.score S).add ((T.pst (mkPiece S (mvPromo m)) (mvTo m)).sub
              (T.pst (mkPiece S ptPAWN) (mvFrom m))))) (S ^^^ 1)).sub
          (T.pst (b.board (mvTo m)) (mvTo m))) := by
  unfold mkPromoCore
  dsimp only
  rw [if_pos hd, if_pos (bne_iff_ne.mpr hc)]
  simp only [modifyState_score]
  rw [ppc_score_cap T S b _ _ _ hc]


/-! `promotePawn` in the undo direction. -/

theorem ppF_board (T : ZTables) (S : Nat) (b : Board) (p f t : Nat) :
    (promotePawn T S false b p f t).board =
      fnUpdate (fnUpdate b.board t 0) f (mkPiece S ptPAWN) := rfl

theorem ppF_pieces (T : ZTables) (S : Nat) (b : Board) (p f t : Nat) :
    (promotePawn T S false b p f t).pieces =
      fnUpdate (fnUpdate b.pieces (mkPiece S ptPAWN)
          (bbSet (b.pieces (mkPiece S ptPAWN)) f))
        p (bbClear (b.pieces p) t) := rfl

theorem ppF_pbc (T : ZTables) (S : Nat) (b : Board) (p f t : Nat) :
    (promotePawn T S false b p f t).piecesByColor =
      fnUpdate b.piecesByColor S
        (b.piecesByColor S ^^^ (bbFromSquare f ||| bbFromSquare t)) := rfl

theorem ppF_material (T : ZTables) (S : Nat) (b : Board) (p f t : Nat) :
    (promotePawn T S false b p f t).material =
      fnUpdate b.material S
        (b.material S - (materialOf (pieceType p) - materialOf ptPAWN)) := rfl

theorem ppF_score (T : ZTables) (S : Nat) (b : Board) (p f t : Nat) :
    (promotePawn T S false b p f t).score =
      fnUpdate b.score S
        ((b.score S).sub ((T.pst p t).sub (T.pst (mkPiece S ptPAWN) f))) := rfl

theorem ppF_states (T : ZTables) (S : Nat) (b : Board) (p f t : Nat) :
    (promotePawn T S false b p f t).states = b.states := rfl

theorem ppF_moveCount (T : ZTables) (S : Nat) (b : Board) (p f t : Nat) :
    (promotePawn T S false b p f t).moveCount = b.moveCount := rfl

theorem ppF_side (T : ZTables) (S : Nat) (b : Board) (p f t : Nat) :
    (promotePawn T S false b p f t).side = b.side := rfl

/-! `unpromotePawnWithCapture` field lemmas. -/

theorem upc_board (T : ZTables) (S : Nat) (b : Board) (p c f t : Nat) :
    (unpromotePawnWithCapture T S b p c f t).board =
      fnUpdate (fnUpdate b.board t c) f (mkPiece S ptPAWN) := by
  unfold unpromotePawnWithCapture
  dsimp only
  split <;> rfl

theorem upc_states (T : ZTables) (S : Nat) (b : Board) (p c f t : Nat) :
    (unpromotePawnWithCapture T S b p c f t).states = b.states := by
  unfold unpromotePawnWithCapture
  dsimp only
  split <;> rfl

theorem upc_moveCount (T : ZTables) (S : Nat) (b : Board) (p c f t : Nat) :
    (unpromotePawnWithCapture T S b p c f t).moveCount = b.moveCount := by
  unfold unpromotePawnWithCapture
  dsimp only
  split <;> rfl

theorem upc_side (T : ZTables) (S : Nat) (b : Board) (p c f t : Nat) :
    (unpromotePawnWithCapture T S b p c f t).side = b.side := by
  unfold unpromotePawnWithCapture
  dsimp only
  split <;> rfl

theorem upc_pieces_cap (T : ZTables) (S : Nat) (b : Board) (p c f t : Nat)
    (hc : c ≠ 0) :
    (unpromotePawnWithCapture T S b p c f t).pieces =
      fnUpdate
        (fnUpdate (fnUpdate b.pieces (mkPiece S ptPAWN)
            (bbSet (b.pieces (mkPiece S ptPAWN)) f))
          p (bbClear (b.pieces p) t))
        c
        (bbSet
          ((fnUpdate (fnUpdate b.pieces (mkPiece S ptPAWN)
              (bbSet (b.pieces (mkPiece S ptPAWN)) f))
            p (bbClear (b.pieces p) t)) c) t) := by
  unfold unpromotePawnWithCapture
  dsimp only
  rw [if_pos (bne_iff_ne.mpr hc)]

theorem upc_pbc_cap (T : ZTables) (S : Nat) (b : Board) (p c f t : Nat)
    (hc : c ≠ 0) :
    (unpromotePawnWithCapture T S b p c f t).piecesByColor =
      fnUpdate
        (fnUpdate b.piecesByColor S
          (b.piecesByColor S ^^^ (bbFromSquare f ||| bbFromSquare t)))
        (S ^^^ 1)
        (bbSet
          ((fnUpdate b.piecesByColor S
            (b.piecesByColor S ^^^ (bbFromSquare f ||| bbFromSquare t))) (S ^^^ 1)) t) := by
  unfold unpromotePawnWithCapture
  dsimp only
  rw [if_pos (bne_iff_ne.mpr hc)]

theorem upc_material_cap (T : ZTables) (S : Nat) (b : Board) (p c f t : Nat)
    (hc : c ≠ 0) :
    (unpromotePawnWithCapture T S b p c f t).material =
      fnUpdate
        (fnUpdate b.material S
          (b.material S - (materialOf (pieceType p) - materialOf ptPAWN)))
        (S ^^^ 1)
        ((fnUpdate b.material S
            (b.material S - (materialOf (pieceType p) - materialOf ptPAWN))) (S ^^^ 1) +
          materialOf (pieceType c)) := by
  unfold unpromotePawnWithCapture
  dsimp only
  rw [if_pos (bne_iff_ne.mpr hc)]

theorem upc_score_cap (T : ZTables) (S : Nat) (b : Board) (p c f t : Nat)
    (hc : c ≠ 0) :
    (unpromotePawnWithCapture T S b p c f t).score =
      fnUpdate
        (fnUpdate b.score S
          ((b.score S).sub ((T.pst p t).sub (T.pst (mkPiece S ptPAWN) f))))
        (S ^^^ 1)
        (((fnUpdate b.score S
            ((b.score S).sub ((T.pst p t).sub (T.pst (mkPiece S ptPAWN) f)))) (S ^^^ 1)).add
          (T.pst c t)) := by
  unfold unpromotePawnWithCapture
  dsimp only
  rw [if_pos (bne_iff_ne.mpr hc)]

/-! makeMoveSide-level composites for promotions. -/

theorem mkP_board (T : ZTables) (S : Nat) (b : Board) (m : Nat)
    (h1 : mvType m = mtPROMOTION) :
    (makeMoveSide T S b m).board =
      fnUpdate (fnUpdate b.board (mvFrom m) 0) (mvTo m) (mkPiece S (mvPromo m)) := by
  have hns : ¬(mvType m = mtSIMPLE) := by rw [h1]; decide
  unfold makeMoveSide
  dsimp only
  rw [if_neg hns, if_pos h1, mkTail_board, mkPromoCore_board, mkHead_board]

theorem mkP_moveCount (T : ZTables) (S : Nat) (b : Board) (m : Nat)
    (h1 : mvType m = mtPROMOTION) :
    (makeMoveSide T S b m).moveCount = b.moveCount + 1 := by
  have hns : ¬(mvType m = mtSIMPLE) := by rw [h1]; decide
  unfold makeMoveSide
  dsimp only
  rw [if_neg hns, if_pos h1, mkTail_moveCount, mkPromoCore_moveCount, mkHead_moveCount]

theorem mkP_states_tail (T : ZTables) (S : Nat) (b : Board) (m : Nat)
    (h1 : mvType m = mtPROMOTION) :
    (makeMoveSide T S b m).states.tail = b.states := by
  have hns : ¬(mvType m = mtSIMPLE) := by rw [h1]; decide
  unfold makeMoveSide
  dsimp only
  rw [if_neg hns, if_pos h1, mkTail_states_tail, mkPromoCore_states_tail,
    mkHead_states_tail]

theorem mkP_captured_quiet (T : ZTables) (S : Nat) (b : Board) (m : Nat)
    (h1 : mvType m = mtPROMOTION) (hc : b.board (mvTo m) = 0) :
    (makeMoveSide T S b m).state.captured = 0 := by
  have hns : ¬(mvType m = mtSIMPLE) := by rw [h1]; decide
  unfold makeMoveSide
  dsimp only
  rw [if_neg hns, if_pos h1, mkTail_state_captured]
  by_cases hd : ((mvTo m : Int) - (mvFrom m : Int) ≠ (if S = 1 then (8 : Int) else -8))
  · rw [mkPromoCore_captured_diag T S (mkHead b S) m hd, mkHead_board]
    exact hc
  · rw [mkPromoCore_captured_straight T S (mkHead b S) m hd, mkHead_state_captured]

theorem mkP_captured_cap (T : ZTables) (S : Nat) (b : Board) (m : Nat)
    (h1 : mvType m = mtPROMOTION)
    (hd : ((mvTo m : Int) - (mvFrom m : Int) ≠ (if S = 1 then (8 : Int) else -8))) :
    (makeMoveSide T S b m).state.captured = b.board (mvTo m) := by
  have hns : ¬(mvType m = mtSIMPLE) := by rw [h1]; decide
  unfold makeMoveSide
  dsimp only
  rw [if_neg hns, if_pos h1, mkTail_state_captured,
    mkPromoCore_captured_diag T S (mkHead b S) m hd, mkHead_board]

theorem mkP_pieces_quiet (T : ZTables) (S : Nat) (b : Board) (m : Nat)
    (h1 : mvType m = mtPROMOTION) (hc : b.board (mvTo m) = 0) :
    (makeMoveSide T S b m).pieces =
      fnUpdate (fnUpdate b.pieces (mkPiece S ptPAWN)
          (bbClear (b.pieces (mkPiece S ptPAWN)) (mvFrom m)))
        (mkPiece S (mvPromo m))
        (bbSet (b.pieces (mkPiece S (mvPromo m))) (mvTo m)) := by
  have hns : ¬(mvType m = mtSIMPLE) := by rw [h1]; decide
  unfold makeMoveSide
  dsimp only
  rw [if_neg hns, if_pos h1, mkTail_pieces,
    mkPromoCore_pieces_quiet T S (mkHead b S) m (by rw [mkHead_board]; exact hc),
    mkHead_pieces]

theorem mkP_pbc_quiet (T : ZTables) (S : Nat) (b : Board) (m : Nat)
    (h1 : mvType m = mtPROMOTION) (hc : b.board (mvTo m) = 0) :
    (makeMoveSide T S b m).piecesByColor =
      fnUpdate b.piecesByColor S
        (b.piecesByColor S ^^^ (bbFromSquare (mvFrom m) ||| bbFromSquare (mvTo m))) := by
  have hns : ¬(mvType m = mtSIMPLE) := by rw [h1]; decide
  unfold makeMoveSide
  dsimp only
  rw [if_neg hns, if_pos h1, mkTail_pbc,
    mkPromoCore_pbc_quiet T S (mkHead b S) m (by rw [mkHead_board]; exact hc),
    mkHead_pbc]

theorem mkP_material_quiet (T : ZTables) (S : Nat) (b : Board) (m : Nat)
    (h1 : mvType m = mtPROMOTION) (hc : b.board (mvTo m) = 0) :
    (makeMoveSide T S b m).material =
      fnUpdate b.material S
        (b.material S +
          (materialOf (pieceType (mkPiece S (mvPromo m))) - materialOf ptPAWN)) := by
  have hns : ¬(mvType m = mtSIMPLE) := by rw [h1]; decide
  unfold makeMoveSide
  dsimp only
  rw [if_neg hns, if_pos h1, mkTail_material,
    mkPromoCore_material_quiet T S (mkHead b S) m (by rw [mkHead_board]; exact hc),
    mkHead_material]

theorem mkP_score_quiet (T : ZTables) (S : Nat) (b : Board) (m : Nat)
    (h1 : mvType m = mtPROMOTION) (hc : b.board (mvTo m) = 0) :
    (makeMoveSide T S b m).score =
      fnUpdate b.score S
        ((b.score S).add ((T.pst (mkPiece S (mvPromo m)) (mvTo m)).sub
          (T.pst (mkPiece S ptPAWN) (mvFrom m)))) := by
  have hns : ¬(mvType m = mtSIMPLE) := by rw [h1]; decide
  unfold makeMoveSide
  dsimp only
  rw [if_neg hns, if_pos h1, mkTail_score,
    mkPromoCore_score_quiet T S (mkHead b S) m (by rw [mkHead_board]; exact hc),
    mkHead_score]

theorem mkP_pieces_cap (T : ZTables) (S : Nat) (b : Board) (m : Nat)
    (h1 : mvType m = mtPROMOTION)
    (hd : ((mvTo m : Int) - (mvFrom m : Int) ≠ (if S = 1 then (8 : Int) else -8)))
    (hc : b.board (mvTo m) ≠ 0) :
    (makeMoveSide T S b m).pieces =
      fnUpdate
        (fnUpdate (fnUpdate b.pieces (mkPiece S ptPAWN)
            (bbClear (b.pieces (mkPiece S ptPAWN)) (mvFrom m)))
          (mkPiece S (mvPromo m))
          (bbSet (b.pieces (mkPiece S (mvPromo m))) (mvTo m)))
        (b.board (mvTo m))
        (bbClear
          ((fnUpdate (fnUpdate b.pieces (mkPiece S ptPAWN)
              (bbClear (b.pieces (mkPiece S ptPAWN)) (mvFrom m)))
            (mkPiece S (mvPromo m))
            (bbSet (b.pieces (mkPiece S (mvPromo m))) (mvTo m))) (b.board (mvTo m)))
          (mvTo m)) := by
  have hns : ¬(mvType m = mtSIMPLE) := by rw [h1]; decide
  unfold makeMoveSide
  dsimp only
  rw [if_neg hns, if_pos h1, mkTail_pieces,
    mkPromoCore_pieces_cap T S (mkHead b S) m hd (by rw [mkHead_board]; exact hc),
    mkHead_pieces, mkHead_board]

theorem mkP_pbc_cap (T : ZTables) (S : Nat) (b : Board) (m : Nat)
    (h1 : mvType m = mtPROMOTION)
    (hd : ((mvTo m : Int) - (mvFrom m : Int) ≠ (if S = 1 then (8 : Int) else -8)))
    (hc : b.board (mvTo m) ≠ 0) :
    (makeMoveSide T S b m).piecesByColor =
      fnUpdate
        (fnUpdate b.piecesByColor S
          (b.piecesByColor S ^^^ (bbFromSquare (mvFrom m) ||| bbFromSquare (mvTo m))))
        (S ^^^ 1)
        (bbClear
          ((fnUpdate b.piecesByColor S
            (b.piecesByColor S ^^^ (bbFromSquare (mvFrom m) ||| bbFromSquare (mvTo m))))
            (S ^^^ 1)) (mvTo m)) := by
  have hns : ¬(mvType m = mtSIMPLE) := by rw [h1]; decide
  unfold makeMoveSide
  dsimp only
  rw [if_neg hns, if_pos h1, mkTail_pbc,
    mkPromoCore_pbc_cap T S (mkHead b S) m hd (by rw [mkHead_board]; exact hc),
    mkHead_pbc]

theorem mkP_material_cap (T : ZTables) (S : Nat) (b : Board) (m : Nat)
    (h1 : mvType m = mtPROMOTION)
    (hd : ((mvTo m : Int) - (mvFrom m : Int) ≠ (if S = 1 then (8 : Int) else -8)))
    (hc : b.board (mvTo m) ≠ 0) :
    (makeMoveSide T S b m).material =
      fnUpdate
        (fnUpdate b.material S
          (b.material S +
            (materialOf (pieceType (mkPiece S (mvPromo m))) - materialOf ptPAWN)))
        (S ^^^ 1)
        ((fnUpdate b.material S
            (b.material S +
              (materialOf (pieceType (mkPiece S (mvPromo m))) - materialOf ptPAWN)))
            (S ^^^ 1) -
          materialOf (pieceType (b.board (mvTo m)))) := by
  have hns : ¬(mvType m = mtSIMPLE) := by rw [h1]; decide
  unfold makeMoveSide
  dsimp only
  rw [if_neg hns, if_pos h1, mkTail_material,
    mkPromoCore_material_cap T S (mkHead b S) m hd (by rw [mkHead_board]; exact hc),
    mkHead_material, mkHead_board]

theorem mkP_score_cap (T : ZTables) (S : Nat) (b : Board) (m : Nat)
    (h1 : mvType m = mtPROMOTION)
    (hd : ((mvTo m : Int) - (mvFrom m : Int) ≠ (if S = 1 then (8 : Int) else -8)))
    (hc : b.board (mvTo m) ≠ 0) :
    (makeMoveSide T S b m).score =
      fnUpdate
        (fnUpdate b.score S
          ((b.score S).add ((T.pst (mkPiece S (mvPromo m)) (mvTo m)).sub
            (T.pst (mkPiece S ptPAWN) (mvFrom m)))))
        (S ^^^ 1)
        (((fnUpdate b.score S
            ((b.score S).add ((T.pst (mkPiece S (mvPromo m)) (mvTo m)).sub
              (T.pst (mkPiece S ptPAWN) (mvFrom m))))) (S ^^^ 1)).sub
          (T.pst (b.board (mvTo m)) (mvTo m))) := by
  have hns : ¬(mvType m = mtSIMPLE) := by rw [h1]; decide
  unfold makeMoveSide
  dsimp only
  rw [if_neg hns, if_pos h1, mkTail_score,
    mkPromoCore_score_cap T S (mkHead b S) m hd (by rw [mkHead_board]; exact hc),
    mkHead_score, mkHead_board]


theorem fnUpdate_apply {α : Type} (f : Nat → α) (k : Nat) (v : α) (x : Nat) :
    fnUpdate f k v x = if x = k then v else f x := rfl

/-- Unmaking a quiet promotion restores the position. -/
theorem unmake_make_promo_quiet (T : ZTables) (S : Nat) (b : Board) (m : Nat)
    (hbs : b.side = S) (hS : S < 2)
    (h1 : mvType m = mtPROMOTION)
    (hc : b.board (mvTo m) = 0)
    (hpF : b.board (mvFrom m) = mkPiece S ptPAWN)
    (hcons : boardConsistent b) :
    unmakeMoveSide T S (makeMoveSide T S b m) m = b := by
  obtain ⟨inv1, inv2, inv3, inv4, inv5⟩ := hcons
  have hns : ¬(mvType m = mtSIMPLE) := by rw [h1]; decide
  have hpt1 : (1 : Nat) < 7 := by omega
  have hPawnLt : mkPiece S ptPAWN < 14 := mkPiece_lt14 S ptPAWN hS (by decide)
  have hPawnGe : 2 ≤ mkPiece S ptPAWN := mkPiece_ge2 S ptPAWN hS (by decide)
  have hPromLt : mkPiece S (mvPromo m) < 14 :=
    mkPiece_lt14 S (mvPromo m) hS (by have := mvPromo_lt6 m; omega)
  have hPromGe : 2 ≤ mkPiece S (mvPromo m) :=
    mkPiece_ge2 S (mvPromo m) hS (by have := mvPromo_ge2 m; omega)
  have hpp : mkPiece S ptPAWN ≠ mkPiece S (mvPromo m) :=
    mkPiece_ne_type S ptPAWN (mvPromo m) hS (by have := mvPromo_ge2 m; unfold ptPAWN; omega)
  have hltPw : b.pieces (mkPiece S ptPAWN) < 2 ^ 64 := inv1 _ hPawnLt
  have hbitPw : (b.pieces (mkPiece S ptPAWN)).testBit (mvFrom m) = true := by
    rw [← bbTest_eq_testBit _ _ (mvFrom_lt m)]
    exact (inv3 (mvFrom m) (mvFrom_lt m) _ hPawnGe hPawnLt).mpr hpF
  have hltPr : b.pieces (mkPiece S (mvPromo m)) < 2 ^ 64 := inv1 _ hPromLt
  have hbitPr : (b.pieces (mkPiece S (mvPromo m))).testBit (mvTo m) = false := by
    rw [← bbTest_eq_testBit _ _ (mvTo_lt m)]
    refine Bool.eq_false_iff.mpr fun h => ?_
    have := (inv3 (mvTo m) (mvTo_lt m) _ hPromGe hPromLt).mp h
    rw [hc] at this
    omega
  have hB := mkP_board T S b m h1
  have hP := mkP_pieces_quiet T S b m h1 hc
  have hC := mkP_pbc_quiet T S b m h1 hc
  have hM := mkP_material_quiet T S b m h1 hc
  have hSc := mkP_score_quiet T S b m h1 hc
  have hMc := mkP_moveCount T S b m h1
  have hSt := mkP_states_tail T S b m h1
  have hCap := mkP_captured_quiet T S b m h1 hc
  unfold unmakeMoveSide
  dsimp only
  rw [hCap, if_neg hns, if_pos h1, if_neg (by simp : ¬((0 != 0) = true))]
  refine Board.ext ?_ ?_ ?_ ?_ ?_ ?_ ?_ ?_ <;>
    simp only [ppF_board, ppF_pieces, ppF_pbc, ppF_material, ppF_score, ppF_states,
      ppF_moveCount, ppF_side]
  · -- board
    rw [hB]
    funext x
    by_cases hx1 : x = mvFrom m
    · subst hx1
      rw [fnUpdate_eq, hpF]
    · rw [fnUpdate_ne _ _ _ _ hx1]
      by_cases hx2 : x = mvTo m
      · subst hx2
        rw [fnUpdate_eq, hc]
      · rw [fnUpdate_ne _ _ _ _ hx2, fnUpdate_ne _ _ _ _ hx2,
          fnUpdate_ne _ _ _ _ hx1]
  · -- pieces
    rw [hP]
    rw [fnUpdate_ne _ _ _ _ hpp, fnUpdate_eq]
    rw [bbSet_bbClear _ _ hltPw (mvFrom_lt m) hbitPw]
    rw [fnUpdate_eq]
    rw [bbClear_bbSet _ _ hltPr (mvTo_lt m) hbitPr]
    funext x
    by_cases hx1 : x = mkPiece S (mvPromo m)
    · subst hx1
      rw [fnUpdate_eq]
    · rw [fnUpdate_ne _ _ _ _ hx1]
      by_cases hx2 : x = mkPiece S ptPAWN
      · subst hx2
        rw [fnUpdate_eq]
      · rw [fnUpdate_ne _ _ _ _ hx2, fnUpdate_ne _ _ _ _ hx1,
          fnUpdate_ne _ _ _ _ hx2]
  · -- piecesByColor
    rw [hC, fnUpdate_eq, Nat.xor_cancel_right, fnUpdate_fnUpdate, fnUpdate_self]
  · -- states
    rw [hSt]
  · -- material
    rw [hM, fnUpdate_eq, add_sub_cancel_right, fnUpdate_fnUpdate, fnUpdate_self]
  · -- score
    rw [hSc, fnUpdate_eq, Score.add_sub_cancel, fnUpdate_fnUpdate, fnUpdate_self]
  · -- moveCount
    rw [hMc]
    omega
  · -- side
    exact hbs.symm

/-- Unmaking a capturing promotion restores the position. -/
theorem unmake_make_promo_cap (T : ZTables) (S : Nat) (b : Board) (m : Nat)
    (hbs : b.side = S) (hS : S < 2)
    (h1 : mvType m = mtPROMOTION)
    (hc : b.board (mvTo m) ≠ 0)
    (hstraight : ((mvTo m : Int) - (mvFrom m : Int) = (if S = 1 then (8 : Int) else -8)) →
      b.board (mvTo m) = 0)
    (hpF : b.board (mvFrom m) = mkPiece S ptPAWN)
    (hcapc : pieceColor (b.board (mvTo m)) = S ^^^ 1)
    (hcons : boardConsistent b) :
    unmakeMoveSide T S (makeMoveSide T S b m) m = b := by
  obtain ⟨inv1, inv2, inv3, inv4, inv5⟩ := hcons
  have hns : ¬(mvType m = mtSIMPLE) := by rw [h1]; decide
  have hd : ((mvTo m : Int) - (mvFrom m : Int) ≠ (if S = 1 then (8 : Int) else -8)) :=
    fun h => hc (hstraight h)
  have hrange : 2 ≤ b.board (mvTo m) ∧ b.board (mvTo m) < 14 := by
    rcases inv5 (mvTo m) (mvTo_lt m) with h | h
    · exact absurd h hc
    · exact h
  have hPawnLt : mkPiece S ptPAWN < 14 := mkPiece_lt14 S ptPAWN hS (by decide)
  have hPawnGe : 2 ≤ mkPiece S ptPAWN := mkPiece_ge2 S ptPAWN hS (by decide)
  have hPromLt : mkPiece S (mvPromo m) < 14 :=
    mkPiece_lt14 S (mvPromo m) hS (by have := mvPromo_lt6 m; omega)
  have hPromGe : 2 ≤ mkPiece S (mvPromo m) :=
    mkPiece_ge2 S (mvPromo m) hS (by have := mvPromo_ge2 m; omega)
  have hpp : mkPiece S ptPAWN ≠ mkPiece S (mvPromo m) :=
    mkPiece_ne_type S ptPAWN (mvPromo m) hS (by have := mvPromo_ge2 m; unfold ptPAWN; omega)
  have hpawncap : mkPiece S ptPAWN ≠ b.board (mvTo m) := by
    intro h
    rw [← h, pieceColor_mkPiece S ptPAWN hS] at hcapc
    exact xor_one_ne S hS hcapc.symm
  have hpromcap : mkPiece S (mvPromo m) ≠ b.board (mvTo m) := by
    intro h
    rw [← h, pieceColor_mkPiece S (mvPromo m) hS] at hcapc
    exact xor_one_ne S hS hcapc.symm
  have hltPw : b.pieces (mkPiece S ptPAWN) < 2 ^ 64 := inv1 _ hPawnLt
  have hbitPw : (b.pieces (mkPiece S ptPAWN)).testBit (mvFrom m) = true := by
    rw [← bbTest_eq_testBit _ _ (mvFrom_lt m)]
    exact (inv3 (mvFrom m) (mvFrom_lt m) _ hPawnGe hPawnLt).mpr hpF
  have hltPr : b.pieces (mkPiece S (mvPromo m)) < 2 ^ 64 := inv1 _ hPromLt
  have hbitPr : (b.pieces (mkPiece S (mvPromo m))).testBit (mvTo m) = false := by
    rw [← bbTest_eq_testBit _ _ (mvTo_lt m)]
    refine Bool.eq_false_iff.mpr fun h => ?_
    have := (inv3 (mvTo m) (mvTo_lt m) _ hPromGe hPromLt).mp h
    exact hpromcap this.symm
  have hltCp : b.pieces (b.board (mvTo m)) < 2 ^ 64 := inv1 _ hrange.2
  have hbitCp : (b.pieces (b.board (mvTo m))).testBit (mvTo m) = true := by
    rw [← bbTest_eq_testBit _ _ (mvTo_lt m)]
    exact (inv3 (mvTo m) (mvTo_lt m) _ hrange.1 hrange.2).mpr rfl
  have hltc : b.piecesByColor (S ^^^ 1) < 2 ^ 64 := inv2 _ (xor_one_lt S hS)
  have hbitc : (b.piecesByColor (S ^^^ 1)).testBit (mvTo m) = true := by
    rw [← bbTest_eq_testBit _ _ (mvTo_lt m)]
    exact (inv4 (mvTo m) (mvTo_lt m) _ (xor_one_lt S hS)).mpr ⟨hc, hcapc⟩
  have hSne : S ≠ S ^^^ 1 := Ne.symm (xor_one_ne S hS)
  have hSne' : S ^^^ 1 ≠ S := xor_one_ne S hS
  have hB := mkP_board T S b m h1
  have hP := mkP_pieces_cap T S b m h1 hd hc
  have hC := mkP_pbc_cap T S b m h1 hd hc
  have hM := mkP_material_cap T S b m h1 hd hc
  have hSc := mkP_score_cap T S b m h1 hd hc
  have hMc := mkP_moveCount T S b m h1
  have hSt := mkP_states_tail T S b m h1
  have hCap := mkP_captured_cap T S b m h1 hd
  unfold unmakeMoveSide
  dsimp only
  rw [hCap, if_neg hns, if_pos h1, if_pos (bne_iff_ne.mpr hc)]
  refine Board.ext ?_ ?_ ?_ ?_ ?_ ?_ ?_ ?_ <;>
    simp only [upc_board, upc_states, upc_moveCount, upc_side,
      upc_pieces_cap T S _ _ _ _ _ hc, upc_pbc_cap T S _ _ _ _ _ hc,
      upc_material_cap T S _ _ _ _ _ hc, upc_score_cap T S _ _ _ _ _ hc]
  · -- board
    rw [hB]
    funext x
    by_cases hx1 : x = mvFrom m
    · subst hx1
      rw [fnUpdate_eq, hpF]
    · rw [fnUpdate_ne _ _ _ _ hx1]
      by_cases hx2 : x = mvTo m
      · subst hx2
        rw [fnUpdate_eq]
      · rw [fnUpdate_ne _ _ _ _ hx2, fnUpdate_ne _ _ _ _ hx2,
          fnUpdate_ne _ _ _ _ hx1]
  · -- pieces
    rw [hP]
    funext x
    simp only [fnUpdate_apply]
    by_cases hx1 : x = b.board (mvTo m)
    · subst hx1
      simp [Ne.symm hpromcap, Ne.symm hpawncap]
      rw [bbSet_bbClear _ _ hltCp (mvTo_lt m) hbitCp]
    · by_cases hx2 : x = mkPiece S (mvPromo m)
      · subst hx2
        simp [hpromcap, Ne.symm hpp]
        rw [bbClear_bbSet _ _ hltPr (mvTo_lt m) hbitPr]
      · by_cases hx3 : x = mkPiece S ptPAWN
        · subst hx3
          simp [hpawncap, hpp]
          rw [bbSet_bbClear _ _ hltPw (mvFrom_lt m) hbitPw]
        · simp [hx1, hx2, hx3]
  · -- piecesByColor
    rw [hC]
    funext x
    simp only [fnUpdate_apply]
    by_cases hx1 : x = S ^^^ 1
    · subst hx1
      simp [hSne']
      rw [bbSet_bbClear _ _ hltc (mvTo_lt m) hbitc]
    · by_cases hx2 : x = S
      · subst hx2
        simp [hSne]
        rw [Nat.xor_cancel_right]
      · simp [hx1, hx2]
  · -- states
    rw [hSt]
  · -- material
    rw [hM]
    funext x
    simp only [fnUpdate_apply]
    by_cases hx1 : x = S ^^^ 1
    · subst hx1
      simp [hSne']
    · by_cases hx2 : x = S
      · subst hx2
        simp [hSne]
      · simp [hx1, hx2]
  · -- score
    rw [hSc]
    funext x
    simp only [fnUpdate_apply]
    by_cases hx1 : x = S ^^^ 1
    · subst hx1
      simp [hSne']
      rw [Score.sub_add_cancel]
    · by_cases hx2 : x = S
      · subst hx2
        simp [hSne]
        rw [Score.add_sub_cancel]
      · simp [hx1, hx2]
  · -- moveCount
    rw [hMc]
    omega
  · -- side
    exact hbs.symm



theorem mkPiece_ne_color (S pt pt' : Nat) (hS : S < 2) :
    mkPiece S pt ≠ mkPiece (S ^^^ 1) pt' := by
  intro h
  have hS' : S ^^^ 1 < 2 := xor_one_lt S hS
  have := congrArg pieceColor h
  rw [pieceColor_mkPiece S pt hS, pieceColor_mkPiece (S ^^^ 1) pt' hS'] at this
  exact xor_one_ne S hS this.symm

/-! `doEnpassant` field lemmas (`isDoing` literal on each side). -/

theorem deT_board (T : ZTables) (S : Nat) (b : Board) (f t : Nat) :
    (doEnpassant T S true b f t).board =
      fnUpdate (fnUpdate (fnUpdate b.board t (mkPiece S ptPAWN)) f 0)
        (if S = 1 then sqBackward t 8 else sqForward t 8) 0 := rfl

theorem deT_pieces (T : ZTables) (S : Nat) (b : Board) (f t : Nat) :
    (doEnpassant T S true b f t).pieces =
      fnUpdate (fnUpdate b.pieces (mkPiece S ptPAWN)
          (b.pieces (mkPiece S ptPAWN) ^^^ (bbFromSquare f ||| bbFromSquare t)))
        (mkPiece (S ^^^ 1) ptPAWN)
        (bbClear (b.pieces (mkPiece (S ^^^ 1) ptPAWN))
          (if S = 1 then sqBackward t 8 else sqForward t 8)) := rfl

theorem deT_pbc (T : ZTables) (S : Nat) (b : Board) (f t : Nat) :
    (doEnpassant T S true b f t).piecesByColor =
      fnUpdate (fnUpdate b.piecesByColor S
          (b.piecesByColor S ^^^ (bbFromSquare f ||| bbFromSquare t)))
        (S ^^^ 1)
        (bbClear (b.piecesByColor (S ^^^ 1))
          (if S = 1 then sqBackward t 8 else sqForward t 8)) := rfl

theorem deT_material (T : ZTables) (S : Nat) (b : Board) (f t : Nat) :
    (doEnpassant T S true b f t).material =
      fnUpdate b.material (S ^^^ 1) (b.material (S ^^^ 1) - materialOf ptPAWN) := rfl

theorem deT_score (T : ZTables) (S : Nat) (b : Board) (f t : Nat) :
    (doEnpassant T S true b f t).score =
      fnUpdate (fnUpdate b.score S
          ((b.score S).add ((T.pst (mkPiece S ptPAWN) t).sub
            (T.pst (mkPiece S ptPAWN) f))))
        (S ^^^ 1)
        ((b.score (S ^^^ 1)).sub (T.pst (mkPiece (S ^^^ 1) ptPAWN)
          (if S = 1 then sqBackward t 8 else sqForward t 8))) := rfl

theorem deT_states (T : ZTables) (S : Nat) (b : Board) (f t : Nat) :
    (doEnpassant T S true b f t).states = b.states := rfl

theorem deT_moveCount (T : ZTables) (S : Nat) (b : Board) (f t : Nat) :
    (doEnpassant T S true b f t).moveCount = b.moveCount := rfl

theorem deT_side (T : ZTables) (S : Nat) (b : Board) (f t : Nat) :
    (doEnpassant T S true b f t).side = b.side := rfl

theorem deT_state (T : ZTables) (S : Nat) (b : Board) (f t : Nat) :
    (doEnpassant T S true b f t).state = b.state := rfl

theorem deF_board (T : ZTables) (S : Nat) (b : Board) (f t : Nat) :
    (doEnpassant T S false b f t).board =
      fnUpdate (fnUpdate (fnUpdate b.board f (mkPiece S ptPAWN)) t 0)
        (if S = 1 then sqBackward t 8 else sqForward t 8)
        (mkPiece (S ^^^ 1) ptPAWN) := rfl

theorem deF_pieces (T : ZTables) (S : Nat) (b : Board) (f t : Nat) :
    (doEnpassant T S false b f t).pieces =
      fnUpdate (fnUpdate b.pieces (mkPiece S ptPAWN)
          (b.pieces (mkPiece S ptPAWN) ^^^ (bbFromSquare f ||| bbFromSquare t)))
        (mkPiece (S ^^^ 1) ptPAWN)
        (bbSet (b.pieces (mkPiece (S ^^^ 1) ptPAWN))
          (if S = 1 then sqBackward t 8 else sqForward t 8)) := rfl

theorem deF_pbc (T : ZTables) (S : Nat) (b : Board) (f t : Nat) :
    (doEnpassant T S false b f t).piecesByColor =
      fnUpdate (fnUpdate b.piecesByColor S
          (b.piecesByColor S ^^^ (bbFromSquare f ||| bbFromSquare t)))
        (S ^^^ 1)
        (bbSet (b.piecesByColor (S ^^^ 1))
          (if S = 1 then sqBackward t 8 else sqForward t 8)) := rfl

theorem deF_material (T : ZTables) (S : Nat) (b : Board) (f t : Nat) :
    (doEnpassant T S false b f t).material =
      fnUpdate b.material (S ^^^ 1) (b.material (S ^^^ 1) + materialOf ptPAWN) := rfl

theorem deF_score (T : ZTables) (S : Nat) (b : Board) (f t : Nat) :
    (doEnpassant T S false b f t).score =
      fnUpdate (fnUpdate b.score S
          ((b.score S).sub ((T.pst (mkPiece S ptPAWN) t).sub
            (T.pst (mkPiece S ptPAWN) f))))
        (S ^^^ 1)
        ((b.score (S ^^^ 1)).add (T.pst (mkPiece (S ^^^ 1) ptPAWN)
          (if S = 1 then sqBackward t 8 else sqForward t 8))) := rfl

theorem deF_states (T : ZTables) (S : Nat) (b : Board) (f t : Nat) :
    (doEnpassant T S false b f t).states = b.states := rfl

theorem deF_moveCount (T : ZTables) (S : Nat) (b : Board) (f t : Nat) :
    (doEnpassant T S false b f t).moveCount = b.moveCount := rfl

theorem deF_side (T : ZTables) (S : Nat) (b : Board) (f t : Nat) :
    (doEnpassant T S false b f t).side = b.side := rfl

/-! makeMoveSide-level composites for en passant. -/

theorem mkE_board (T : ZTables) (S : Nat) (b : Board) (m : Nat)
    (h2 : mvType m = mtENPASSANT) :
    (makeMoveSide T S b m).board =
      fnUpdate (fnUpdate (fnUpdate b.board (mvTo m) (mkPiece S ptPAWN)) (mvFrom m) 0)
        (if S = 1 then sqBackward (mvTo m) 8 else sqForward (mvTo m) 8) 0 := by
  have hn0 : ¬(mvType m = mtSIMPLE) := by rw [h2]; decide
  have hn1 : ¬(mvType m = mtPROMOTION) := by rw [h2]; decide
  unfold makeMoveSide
  dsimp only
  rw [if_neg hn0, if_neg hn1, if_pos h2, mkTail_board]
  unfold mkEpCore
  dsimp only
  rw [modifyState_board, deT_board, mkHead_board]

theorem mkE_pieces (T : ZTables) (S : Nat) (b : Board) (m : Nat)
    (h2 : mvType m = mtENPASSANT) :
    (makeMoveSide T S b m).pieces =
      fnUpdate (fnUpdate b.pieces (mkPiece S ptPAWN)
          (b.pieces (mkPiece S ptPAWN) ^^^
            (bbFromSquare (mvFrom m) ||| bbFromSquare (mvTo m))))
        (mkPiece (S ^^^ 1) ptPAWN)
        (bbClear (b.pieces (mkPiece (S ^^^ 1) ptPAWN))
          (if S = 1 then sqBackward (mvTo m) 8 else sqForward (mvTo m) 8)) := by
  have hn0 : ¬(mvType m = mtSIMPLE) := by rw [h2]; decide
  have hn1 : ¬(mvType m = mtPROMOTION) := by rw [h2]; decide
  unfold makeMoveSide
  dsimp only
  rw [if_neg hn0, if_neg hn1, if_pos h2, mkTail_pieces]
  unfold mkEpCore
  dsimp only
  rw [modifyState_pieces, deT_pieces, mkHead_pieces]

theorem mkE_pbc (T : ZTables) (S : Nat) (b : Board) (m : Nat)
    (h2 : mvType m = mtENPASSANT) :
    (makeMoveSide T S b m).piecesByColor =
      fnUpdate (fnUpdate b.piecesByColor S
          (b.piecesByColor S ^^^ (bbFromSquare (mvFrom m) ||| bbFromSquare (mvTo m))))
        (S ^^^ 1)
        (bbClear (b.piecesByColor (S ^^^ 1))
          (if S = 1 then sqBackward (mvTo m) 8 else sqForward (mvTo m) 8)) := by
  have hn0 : ¬(mvType m = mtSIMPLE) := by rw [h2]; decide
  have hn1 : ¬(mvType m = mtPROMOTION) := by rw [h2]; decide
  unfold makeMoveSide
  dsimp only
  rw [if_neg hn0, if_neg hn1, if_pos h2, mkTail_pbc]
  unfold mkEpCore
  dsimp only
  rw [modifyState_piecesByColor, deT_pbc, mkHead_pbc]

theorem mkE_material (T : ZTables) (S : Nat) (b : Board) (m : Nat)
    (h2 : mvType m = mtENPASSANT) :
    (makeMoveSide T S b m).material =
      fnUpdate b.material (S ^^^ 1) (b.material (S ^^^ 1) - materialOf ptPAWN) := by
  have hn0 : ¬(mvType m = mtSIMPLE) := by rw [h2]; decide
  have hn1 : ¬(mvType m = mtPROMOTION) := by rw [h2]; decide
  unfold makeMoveSide
  dsimp only
  rw [if_neg hn0, if_neg hn1, if_pos h2, mkTail_material]
  unfold mkEpCore
  dsimp only
  rw [modifyState_material, deT_material, mkHead_material]

theorem mkE_score (T : ZTables) (S : Nat) (b : Board) (m : Nat)
    (h2 : mvType m = mtENPASSANT) :
    (makeMoveSide T S b m).score =
      fnUpdate (fnUpdate b.score S
          ((b.score S).add ((T.pst (mkPiece S ptPAWN) (mvTo m)).sub
            (T.pst (mkPiece S ptPAWN) (mvFrom m)))))
        (S ^^^ 1)
        ((b.score (S ^^^ 1)).sub (T.pst (mkPiece (S ^^^ 1) ptPAWN)
          (if S = 1 then sqBackward (mvTo m) 8 else sqForward (mvTo m) 8))) := by
  have hn0 : ¬(mvType m = mtSIMPLE) := by rw [h2]; decide
  have hn1 : ¬(mvType m = mtPROMOTION) := by rw [h2]; decide
  unfold makeMoveSide
  dsimp only
  rw [if_neg hn0, if_neg hn1, if_pos h2, mkTail_score]
  unfold mkEpCore
  dsimp only
  rw [modifyState_score, deT_score, mkHead_score]

theorem mkE_moveCount (T : ZTables) (S : Nat) (b : Board) (m : Nat)
    (h2 : mvType m = mtENPASSANT) :
    (makeMoveSide T S b m).moveCount = b.moveCount + 1 := by
  have hn0 : ¬(mvType m = mtSIMPLE) := by rw [h2]; decide
  have hn1 : ¬(mvType m = mtPROMOTION) := by rw [h2]; decide
  unfold makeMoveSide
  dsimp only
  rw [if_neg hn0, if_neg hn1, if_pos h2, mkTail_moveCount]
  unfold mkEpCore
  dsimp only
  rw [modifyState_moveCount, deT_moveCount, mkHead_moveCount]

theorem mkE_states_tail (T : ZTables) (S : Nat) (b : Board) (m : Nat)
    (h2 : mvType m = mtENPASSANT) :
    (makeMoveSide T S b m).states.tail = b.states := by
  have hn0 : ¬(mvType m = mtSIMPLE) := by rw [h2]; decide
  have hn1 : ¬(mvType m = mtPROMOTION) := by rw [h2]; decide
  unfold makeMoveSide
  dsimp only
  rw [if_neg hn0, if_neg hn1, if_pos h2, mkTail_states_tail]
  unfold mkEpCore
  dsimp only
  rw [modifyState_states_tail, deT_states, mkHead_states_tail]

theorem mkE_captured (T : ZTables) (S : Nat) (b : Board) (m : Nat)
    (h2 : mvType m = mtENPASSANT) :
    (makeMoveSide T S b m).state.captured = 0 := by
  have hn0 : ¬(mvType m = mtSIMPLE) := by rw [h2]; decide
  have hn1 : ¬(mvType m = mtPROMOTION) := by rw [h2]; decide
  unfold makeMoveSide
  dsimp only
  rw [if_neg hn0, if_neg hn1, if_pos h2, mkTail_state_captured]
  unfold mkEpCore
  dsimp only
  rw [modifyState_state]
  dsimp only
  rw [deT_state, mkHead_state_captured]

/-- Unmaking an en-passant capture restores the position. -/
theorem unmake_make_ep (T : ZTables) (S : Nat) (b : Board) (m : Nat)
    (hbs : b.side = S) (hS : S < 2)
    (h2 : mvType m = mtENPASSANT)
    (_hFT : mvFrom m ≠ mvTo m)
    (hpF : b.board (mvFrom m) = mkPiece S ptPAWN)
    (hcT : b.board (mvTo m) = 0)
    (hpC : b.board (if S = 1 then sqBackward (mvTo m) 8 else sqForward (mvTo m) 8) =
      mkPiece (S ^^^ 1) ptPAWN)
    (hcs64 : (if S = 1 then sqBackward (mvTo m) 8 else sqForward (mvTo m) 8) < 64)
    (hFC : mvFrom m ≠ (if S = 1 then sqBackward (mvTo m) 8 else sqForward (mvTo m) 8))
    (hTC : mvTo m ≠ (if S = 1 then sqBackward (mvTo m) 8 else sqForward (mvTo m) 8))
    (hcons : boardConsistent b) :
    unmakeMoveSide T S (makeMoveSide T S b m) m = b := by
  obtain ⟨inv1, inv2, inv3, inv4, inv5⟩ := hcons
  have hn0 : ¬(mvType m = mtSIMPLE) := by rw [h2]; decide
  have hn1 : ¬(mvType m = mtPROMOTION) := by rw [h2]; decide
  have hS' : S ^^^ 1 < 2 := xor_one_lt S hS
  have hSne : S ≠ S ^^^ 1 := Ne.symm (xor_one_ne S hS)
  have hSne' : S ^^^ 1 ≠ S := xor_one_ne S hS
  have hOppLt : mkPiece (S ^^^ 1) ptPAWN < 14 := mkPiece_lt14 (S ^^^ 1) ptPAWN hS' (by decide)
  have hOppGe : 2 ≤ mkPiece (S ^^^ 1) ptPAWN := mkPiece_ge2 (S ^^^ 1) ptPAWN hS' (by decide)
  have hpo : mkPiece S ptPAWN ≠ mkPiece (S ^^^ 1) ptPAWN := mkPiece_ne_color S ptPAWN ptPAWN hS
  have hltO : b.pieces (mkPiece (S ^^^ 1) ptPAWN) < 2 ^ 64 := inv1 _ hOppLt
  have hbitO : (b.pieces (mkPiece (S ^^^ 1) ptPAWN)).testBit
      (if S = 1 then sqBackward (mvTo m) 8 else sqForward (mvTo m) 8) = true := by
    rw [← bbTest_eq_testBit _ _ hcs64]
    exact (inv3 _ hcs64 _ hOppGe hOppLt).mpr hpC
  have hltOc : b.piecesByColor (S ^^^ 1) < 2 ^ 64 := inv2 _ hS'
  have hbitOc : (b.piecesByColor (S ^^^ 1)).testBit
      (if S = 1 then sqBackward (mvTo m) 8 else sqForward (mvTo m) 8) = true := by
    rw [← bbTest_eq_testBit _ _ hcs64]
    refine (inv4 _ hcs64 _ hS').mpr ⟨?_, ?_⟩
    · rw [hpC]
      omega
    · rw [hpC, pieceColor_mkPiece (S ^^^ 1) ptPAWN hS']
  have hB := mkE_board T S b m h2
  have hP := mkE_pieces T S b m h2
  have hC := mkE_pbc T S b m h2
  have hM := mkE_material T S b m h2
  have hSc := mkE_score T S b m h2
  have hMc := mkE_moveCount T S b m h2
  have hSt := mkE_states_tail T S b m h2
  have hCap := mkE_captured T S b m h2
  unfold unmakeMoveSide
  dsimp only
  rw [hCap, if_neg hn0, if_neg hn1, if_pos h2]
  refine Board.ext ?_ ?_ ?_ ?_ ?_ ?_ ?_ ?_ <;>
    simp only [deF_board, deF_pieces, deF_pbc, deF_material, deF_score, deF_states,
      deF_moveCount, deF_side]
  · -- board
    rw [hB]
    funext x
    simp only [fnUpdate_apply]
    by_cases hx1 : x = (if S = 1 then sqBackward (mvTo m) 8 else sqForward (mvTo m) 8)
    · subst hx1
      simp [hpC]
    · by_cases hx2 : x = mvTo m
      · subst hx2
        simp [hx1, hcT]
      · by_cases hx3 : x = mvFrom m
        · subst hx3
          simp [hx1, hx2, hpF]
        · simp [hx1, hx2, hx3]
  · -- pieces
    rw [hP]
    funext x
    simp only [fnUpdate_apply]
    by_cases hx1 : x = mkPiece (S ^^^ 1) ptPAWN
    · subst hx1
      simp [Ne.symm hpo]
      rw [bbSet_bbClear _ _ hltO hcs64 hbitO]
    · by_cases hx2 : x = mkPiece S ptPAWN
      · subst hx2
        simp [hpo]
        rw [Nat.xor_cancel_right]
      · simp [hx1, hx2]
  · -- piecesByColor
    rw [hC]
    funext x
    simp only [fnUpdate_apply]
    by_cases hx1 : x = S ^^^ 1
    · subst hx1
      simp [hSne']
      rw [bbSet_bbClear _ _ hltOc hcs64 hbitOc]
    · by_cases hx2 : x = S
      · subst hx2
        simp [hSne]
        rw [Nat.xor_cancel_right]
      · simp [hx1, hx2]
  · -- states
    rw [hSt]
  · -- material
    rw [hM]
    funext x
    simp only [fnUpdate_apply]
    by_cases hx1 : x = S ^^^ 1
    · subst hx1
      simp
    · simp [hx1]
  · -- score
    rw [hSc]
    funext x
    simp only [fnUpdate_apply]
    by_cases hx1 : x = S ^^^ 1
    · subst hx1
      simp [hSne']
      rw [Score.sub_add_cancel]
    · by_cases hx2 : x = S
      · subst hx2
        simp [hSne]
        rw [Score.add_sub_cancel]
      · simp [hx1, hx2]
  · -- moveCount
    rw [hMc]
    omega
  · -- side
    exact hbs.symm


theorem relSquare_inj (S i j : Nat) (hS : S < 2) (h : i ≠ j) :
    relSquare S i ≠ relSquare S j := by
  interval_cases S
  · unfold relSquare
    intro he
    apply h
    have := congrArg (fun x => x ^^^ (0x38 * ((0 ^^^ 1) &&& 1))) he
    simpa [Nat.xor_cancel_right] using this
  · unfold relSquare
    simpa using h

theorem sqFile_rel6 (S : Nat) (hS : S < 2) : sqFile (relSquare S 6) = 6 := by
  interval_cases S <;> decide

theorem sqFile_rel2_ne6 (S : Nat) (hS : S < 2) : ¬(sqFile (relSquare S 2) = 6) := by
  interval_cases S <;> decide

theorem Score.castle_cancel (x a b c e : Score) :
    ((((x.add (a.sub b)).add (c.sub e)).add (b.sub a)).add (e.sub c)) = x := by
  cases x
  simp [Score.add, Score.sub]
  constructor <;> ring

theorem xor_or_comm_cancel (x a b : Nat) : (x ^^^ (a ||| b)) ^^^ (b ||| a) = x := by
  rw [Nat.or_comm b a, Nat.xor_cancel_right]

/-! `doCastling` field lemmas with the `isDoing` literal fixed on each side. -/

theorem dcT_board (T : ZTables) (S : Nat) (b : Board) (f t : Nat) :
    (doCastling T S true b f t).board =
      fnUpdate (fnUpdate (fnUpdate (fnUpdate b.board f 0) t (mkPiece S ptKING))
        (if sqFile t = 6 then relSquare S 7 else relSquare S 0) 0)
        (if sqFile t = 6 then relSquare S 5 else relSquare S 3) (mkPiece S ptROOK) := rfl

theorem dcT_pieces (T : ZTables) (S : Nat) (b : Board) (f t : Nat) :
    (doCastling T S true b f t).pieces =
      fnUpdate (fnUpdate b.pieces (mkPiece S ptKING)
          (b.pieces (mkPiece S ptKING) ^^^ (bbFromSquare f ||| bbFromSquare t)))
        (mkPiece S ptROOK)
        (b.pieces (mkPiece S ptROOK) ^^^
          (bbFromSquare (if sqFile t = 6 then relSquare S 7 else relSquare S 0) |||
           bbFromSquare (if sqFile t = 6 then relSquare S 5 else relSquare S 3))) := rfl

theorem dcT_pbc (T : ZTables) (S : Nat) (b : Board) (f t : Nat) :
    (doCastling T S true b f t).piecesByColor =
      fnUpdate b.piecesByColor S
        (b.piecesByColor S ^^^
          ((bbFromSquare f ||| bbFromSquare t) |||
           (bbFromSquare (if sqFile t = 6 then relSquare S 7 else relSquare S 0) |||
            bbFromSquare (if sqFile t = 6 then relSquare S 5 else relSquare S 3)))) := rfl

theorem dcT_score (T : ZTables) (S : Nat) (b : Board) (f t : Nat) :
    (doCastling T S true b f t).score =
      fnUpdate b.score S
        (((b.score S).add ((T.pst (mkPiece S ptKING) t).sub
            (T.pst (mkPiece S ptKING) f))).add
          ((T.pst (mkPiece S ptROOK)
              (if sqFile t = 6 then relSquare S 5 else relSquare S 3)).sub
            (T.pst (mkPiece S ptROOK)
              (if sqFile t = 6 then relSquare S 7 else relSquare S 0)))) := rfl

theorem dcT_material (T : ZTables) (S : Nat) (b : Board) (f t : Nat) :
    (doCastling T S true b f t).material = b.material := rfl

theorem dcT_states (T : ZTables) (S : Nat) (b : Board) (f t : Nat) :
    (doCastling T S true b f t).states = b.states := rfl

theorem dcT_moveCount (T : ZTables) (S : Nat) (b : Board) (f t : Nat) :
    (doCastling T S true b f t).moveCount = b.moveCount := rfl

theorem dcT_side (T : ZTables) (S : Nat) (b : Board) (f t : Nat) :
    (doCastling T S true b f t).side = b.side := rfl

theorem dcT_state (T : ZTables) (S : Nat) (b : Board) (f t : Nat) :
    (doCastling T S true b f t).state = b.state := rfl

theorem dcF_board (T : ZTables) (S : Nat) (b : Board) (f t : Nat) :
    (doCastling T S false b f t).board =
      fnUpdate (fnUpdate (fnUpdate (fnUpdate b.board t 0) f (mkPiece S ptKING))
        (if sqFile t = 6 then relSquare S 5 else relSquare S 3) 0)
        (if sqFile t = 6 then relSquare S 7 else relSquare S 0) (mkPiece S ptROOK) := rfl

theorem dcF_pieces (T : ZTables) (S : Nat) (b : Board) (f t : Nat) :
    (doCastling T S false b f t).pieces =
      fnUpdate (fnUpdate b.pieces (mkPiece S ptKING)
          (b.pieces (mkPiece S ptKING) ^^^ (bbFromSquare f ||| bbFromSquare t)))
        (mkPiece S ptROOK)
        (b.pieces (mkPiece S ptROOK) ^^^
          (bbFromSquare (if sqFile t = 6 then relSquare S 5 else relSquare S 3) |||
           bbFromSquare (if sqFile t = 6 then relSquare S 7 else relSquare S 0))) := rfl

theorem dcF_pbc (T : ZTables) (S : Nat) (b : Board) (f t : Nat) :
    (doCastling T S false b f t).piecesByColor =
      fnUpdate b.piecesByColor S
        (b.piecesByColor S ^^^
          ((bbFromSquare f ||| bbFromSquare t) |||
           (bbFromSquare (if sqFile t = 6 then relSquare S 5 else relSquare S 3) |||
            bbFromSquare (if sqFile t = 6 then relSquare S 7 else relSquare S 0)))) := rfl

theorem dcF_score (T : ZTables) (S : Nat) (b : Board) (f t : Nat) :
    (doCastling T S false b f t).score =
      fnUpdate b.score S
        (((b.score S).add ((T.pst (mkPiece S ptKING) f).sub
            (T.pst (mkPiece S ptKING) t))).add
          ((T.pst (mkPiece S ptROOK)
              (if sqFile t = 6 then relSquare S 7 else relSquare S 0)).sub
            (T.pst (mkPiece S ptROOK)
              (if sqFile t = 6 then relSquare S 5 else relSquare S 3)))) := rfl

theorem dcF_material (T : ZTables) (S : Nat) (b : Board) (f t : Nat) :
    (doCastling T S false b f t).material = b.material := rfl

theorem dcF_states (T : ZTables) (S : Nat) (b : Board) (f t : Nat) :
    (doCastling T S false b f t).states = b.states := rfl

theorem dcF_moveCount (T : ZTables) (S : Nat) (b : Board) (f t : Nat) :
    (doCastling T S false b f t).moveCount = b.moveCount := rfl

theorem dcF_side (T : ZTables) (S : Nat) (b : Board) (f t : Nat) :
    (doCastling T S false b f t).side = b.side := rfl


theorem xor_or3_cancel (x k a b : Nat) :
    (x ^^^ (k ||| (a ||| b))) ^^^ (k ||| (b ||| a)) = x := by
  rw [Nat.or_comm b a, Nat.xor_cancel_right]

theorem mkC_board_k (T : ZTables) (S : Nat) (b : Board) (m : Nat)
    (h3 : mvType m = mtCASTLE) (hfile : sqFile (mvTo m) = 6) :
    (makeMoveSide T S b m).board =
      fnUpdate (fnUpdate (fnUpdate (fnUpdate b.board (mvFrom m) 0) (mvTo m)
        (mkPiece S ptKING)) (relSquare S 7) 0) (relSquare S 5) (mkPiece S ptROOK) := by
  have hn0 : ¬(mvType m = mtSIMPLE) := by rw [h3]; decide
  have hn1 : ¬(mvType m = mtPROMOTION) := by rw [h3]; decide
  have hn2 : ¬(mvType m = mtENPASSANT) := by rw [h3]; decide
  unfold makeMoveSide
  dsimp only
  rw [if_neg hn0, if_neg hn1, if_neg hn2, if_pos h3, mkTail_board]
  unfold mkCastleCore
  dsimp only
  rw [if_pos hfile]
  simp only [modifyState_board]
  rw [dcT_board, if_pos hfile, if_pos hfile, modifyState_board, mkHead_board]

theorem mkC_pieces_k (T : ZTables) (S : Nat) (b : Board) (m : Nat)
    (h3 : mvType m = mtCASTLE) (hfile : sqFile (mvTo m) = 6) :
    (makeMoveSide T S b m).pieces =
      fnUpdate (fnUpdate b.pieces (mkPiece S ptKING)
          (b.pieces (mkPiece S ptKING) ^^^
            (bbFromSquare (mvFrom m) ||| bbFromSquare (mvTo m))))
        (mkPiece S ptROOK)
        (b.pieces (mkPiece S ptROOK) ^^^
          (bbFromSquare (relSquare S 7) ||| bbFromSquare (relSquare S 5))) := by
  have hn0 : ¬(mvType m = mtSIMPLE) := by rw [h3]; decide
  have hn1 : ¬(mvType m = mtPROMOTION) := by rw [h3]; decide
  have hn2 : ¬(mvType m = mtENPASSANT) := by rw [h3]; decide
  unfold makeMoveSide
  dsimp only
  rw [if_neg hn0, if_neg hn1, if_neg hn2, if_pos h3, mkTail_pieces]
  unfold mkCastleCore
  dsimp only
  rw [if_pos hfile]
  simp only [modifyState_pieces]
  rw [dcT_pieces, if_pos hfile, if_pos hfile, modifyState_pieces, mkHead_pieces]

theorem mkC_pbc_k (T : ZTables) (S : Nat) (b : Board) (m : Nat)
    (h3 : mvType m = mtCASTLE) (hfile : sqFile (mvTo m) = 6) :
    (makeMoveSide T S b m).piecesByColor =
      fnUpdate b.piecesByColor S
        (b.piecesByColor S ^^^
          ((bbFromSquare (mvFrom m) ||| bbFromSquare (mvTo m)) |||
           (bbFromSquare (relSquare S 7) ||| bbFromSquare (relSquare S 5)))) := by
  have hn0 : ¬(mvType m = mtSIMPLE) := by rw [h3]; decide
  have hn1 : ¬(mvType m = mtPROMOTION) := by rw [h3]; decide
  have hn2 : ¬(mvType m = mtENPASSANT) := by rw [h3]; decide
  unfold makeMoveSide
  dsimp only
  rw [if_neg hn0, if_neg hn1, if_neg hn2, if_pos h3, mkTail_pbc]
  unfold mkCastleCore
  dsimp only
  rw [if_pos hfile]
  simp only [modifyState_piecesByColor]
  rw [dcT_pbc, if_pos hfile, if_pos hfile, modifyState_piecesByColor, mkHead_pbc]

theorem mkC_score_k (T : ZTables) (S : Nat) (b : Board) (m : Nat)
    (h3 : mvType m = mtCASTLE) (hfile : sqFile (mvTo m) = 6) :
    (makeMoveSide T S b m).score =
      fnUpdate b.score S
        (((b.score S).add ((T.pst (mkPiece S ptKING) (mvTo m)).sub
            (T.pst (mkPiece S ptKING) (mvFrom m)))).add
          ((T.pst (mkPiece S ptROOK) (relSquare S 5)).sub
            (T.pst (mkPiece S ptROOK) (relSquare S 7)))) := by
  have hn0 : ¬(mvType m = mtSIMPLE) := by rw [h3]; decide
  have hn1 : ¬(mvType m = mtPROMOTION) := by rw [h3]; decide
  have hn2 : ¬(mvType m = mtENPASSANT) := by rw [h3]; decide
  unfold makeMoveSide
  dsimp only
  rw [if_neg hn0, if_neg hn1, if_neg hn2, if_pos h3, mkTail_score]
  unfold mkCastleCore
  dsimp only
  rw [if_pos hfile]
  simp only [modifyState_score]
  rw [dcT_score, if_pos hfile, if_pos hfile, modifyState_score, mkHead_score]

theorem mkC_material (T : ZTables) (S : Nat) (b : Board) (m : Nat)
    (h3 : mvType m = mtCASTLE) :
    (makeMoveSide T S b m).material = b.material := by
  have hn0 : ¬(mvType m = mtSIMPLE) := by rw [h3]; decide
  have hn1 : ¬(mvType m = mtPROMOTION) := by rw [h3]; decide
  have hn2 : ¬(mvType m = mtENPASSANT) := by rw [h3]; decide
  unfold makeMoveSide
  dsimp only
  rw [if_neg hn0, if_neg hn1, if_neg hn2, if_pos h3, mkTail_material]
  unfold mkCastleCore
  dsimp only
  split <;> simp only [modifyState_material] <;>
    rw [dcT_material, modifyState_material, mkHead_material]

theorem mkC_moveCount (T : ZTables) (S : Nat) (b : Board) (m : Nat)
    (h3 : mvType m = mtCASTLE) :
    (makeMoveSide T S b m).moveCount = b.moveCount + 1 := by
  have hn0 : ¬(mvType m = mtSIMPLE) := by rw [h3]; decide
  have hn1 : ¬(mvType m = mtPROMOTION) := by rw [h3]; decide
  have hn2 : ¬(mvType m = mtENPASSANT) := by rw [h3]; decide
  unfold makeMoveSide
  dsimp only
  rw [if_neg hn0, if_neg hn1, if_neg hn2, if_pos h3, mkTail_moveCount]
  unfold mkCastleCore
  dsimp only
  split <;> simp only [modifyState_moveCount] <;>
    rw [dcT_moveCount, modifyState_moveCount, mkHead_moveCount]

theorem mkC_states_tail (T : ZTables) (S : Nat) (b : Board) (m : Nat)
    (h3 : mvType m = mtCASTLE) :
    (makeMoveSide T S b m).states.tail = b.states := by
  have hn0 : ¬(mvType m = mtSIMPLE) := by rw [h3]; decide
  have hn1 : ¬(mvType m = mtPROMOTION) := by rw [h3]; decide
  have hn2 : ¬(mvType m = mtENPASSANT) := by rw [h3]; decide
  unfold makeMoveSide
  dsimp only
  rw [if_neg hn0, if_neg hn1, if_neg hn2, if_pos h3, mkTail_states_tail]
  unfold mkCastleCore
  dsimp only
  split <;> simp only [modifyState_states_tail] <;>
    rw [dcT_states, modifyState_states_tail, mkHead_states_tail]

theorem mkC_captured (T : ZTables) (S : Nat) (b : Board) (m : Nat)
    (h3 : mvType m = mtCASTLE) :
    (makeMoveSide T S b m).state.captured = 0 := by
  have hn0 : ¬(mvType m = mtSIMPLE) := by rw [h3]; decide
  have hn1 : ¬(mvType m = mtPROMOTION) := by rw [h3]; decide
  have hn2 : ¬(mvType m = mtENPASSANT) := by rw [h3]; decide
  unfold makeMoveSide
  dsimp only
  rw [if_neg hn0, if_neg hn1, if_neg hn2, if_pos h3, mkTail_state_captured]
  unfold mkCastleCore
  dsimp only
  split <;> simp [modifyState_state, dcT_state, mkHead_state_captured]

/-- Unmaking a king-side castle restores the position. -/
theorem unmake_make_castle_king (T : ZTables) (S : Nat) (b : Board) (m : Nat)
    (hbs : b.side = S) (hS : S < 2)
    (h3 : mvType m = mtCASTLE)
    (hsqF : mvFrom m = relSquare S 4)
    (hsqT : mvTo m = relSquare S 6)
    (hbF : b.board (mvFrom m) = mkPiece S ptKING)
    (hbT : b.board (mvTo m) = 0)
    (hbR : b.board (relSquare S 7) = mkPiece S ptROOK)
    (hbE : b.board (relSquare S 5) = 0) :
    unmakeMoveSide T S (makeMoveSide T S b m) m = b := by
  have hn0 : ¬(mvType m = mtSIMPLE) := by rw [h3]; decide
  have hn1 : ¬(mvType m = mtPROMOTION) := by rw [h3]; decide
  have hn2 : ¬(mvType m = mtENPASSANT) := by rw [h3]; decide
  have hfile : sqFile (mvTo m) = 6 := by rw [hsqT]; exact sqFile_rel6 S hS
  have hkr : mkPiece S ptKING ≠ mkPiece S ptROOK :=
    mkPiece_ne_type S ptKING ptROOK hS (by decide)
  have d74 : relSquare S 7 ≠ relSquare S 4 := relSquare_inj S 7 4 hS (by decide)
  have d75 : relSquare S 7 ≠ relSquare S 5 := relSquare_inj S 7 5 hS (by decide)
  have d76 : relSquare S 7 ≠ relSquare S 6 := relSquare_inj S 7 6 hS (by decide)
  have d54 : relSquare S 5 ≠ relSquare S 4 := relSquare_inj S 5 4 hS (by decide)
  have d56 : relSquare S 5 ≠ relSquare S 6 := relSquare_inj S 5 6 hS (by decide)
  have d46 : relSquare S 4 ≠ relSquare S 6 := relSquare_inj S 4 6 hS (by decide)
  rw [hsqF] at hbF
  rw [hsqT] at hbT
  have hB := mkC_board_k T S b m h3 hfile
  have hP := mkC_pieces_k T S b m h3 hfile
  have hC := mkC_pbc_k T S b m h3 hfile
  have hM := mkC_material T S b m h3
  have hSc := mkC_score_k T S b m h3 hfile
  have hMc := mkC_moveCount T S b m h3
  have hSt := mkC_states_tail T S b m h3
  have hCap := mkC_captured T S b m h3
  unfold unmakeMoveSide
  dsimp only
  rw [hCap, if_neg hn0, if_neg hn1, if_neg hn2, if_pos h3]
  refine Board.ext ?_ ?_ ?_ ?_ ?_ ?_ ?_ ?_ <;>
    simp only [dcF_board, dcF_pieces, dcF_pbc, dcF_material, dcF_score, dcF_states,
      dcF_moveCount, dcF_side]
  · -- board
    rw [if_pos hfile, if_pos hfile, hB, hsqF, hsqT]
    funext x
    simp only [fnUpdate_apply]
    by_cases hx1 : x = relSquare S 7
    · subst hx1
      simp [hbR]
    · by_cases hx2 : x = relSquare S 5
      · subst hx2
        simp [hx1, hbE]
      · by_cases hx3 : x = relSquare S 4
        · subst hx3
          simp [hx1, hx2, d46, hbF]
        · by_cases hx4 : x = relSquare S 6
          · subst hx4
            simp [hx1, hx2, hx3, hbT]
          · simp [hx1, hx2, hx3, hx4]
  · -- pieces
    rw [if_pos hfile, if_pos hfile, hP]
    funext x
    simp only [fnUpdate_apply]
    by_cases hx1 : x = mkPiece S ptROOK
    · subst hx1
      simp [Ne.symm hkr]
      rw [xor_or_comm_cancel]
    · by_cases hx2 : x = mkPiece S ptKING
      · subst hx2
        simp [hx1, hkr]
        rw [Nat.xor_cancel_right]
      · simp [hx1, hx2]
  · -- piecesByColor
    rw [if_pos hfile, if_pos hfile, hC]
    funext x
    simp only [fnUpdate_apply]
    by_cases hx1 : x = S
    · subst hx1
      simp
      rw [xor_or3_cancel]
    · simp [hx1]
  · -- states
    rw [hSt]
  · -- material
    rw [hM]
  · -- score
    rw [if_pos hfile, if_pos hfile, hSc]
    funext x
    simp only [fnUpdate_apply]
    by_cases hx1 : x = S
    · subst hx1
      simp
      rw [Score.castle_cancel]
    · simp [hx1]
  · -- moveCount
    rw [hMc]
    omega
  · -- side
    exact hbs.symm


theorem mkC_board_q (T : ZTables) (S : Nat) (b : Board) (m : Nat)
    (h3 : mvType m = mtCASTLE) (hfile : ¬(sqFile (mvTo m) = 6)) :
    (makeMoveSide T S b m).board =
      fnUpdate (fnUpdate (fnUpdate (fnUpdate b.board (mvFrom m) 0) (mvTo m)
        (mkPiece S ptKING)) (relSquare S 0) 0) (relSquare S 3) (mkPiece S ptROOK) := by
  have hn0 : ¬(mvType m = mtSIMPLE) := by rw [h3]; decide
  have hn1 : ¬(mvType m = mtPROMOTION) := by rw [h3]; decide
  have hn2 : ¬(mvType m = mtENPASSANT) := by rw [h3]; decide
  unfold makeMoveSide
  dsimp only
  rw [if_neg hn0, if_neg hn1, if_neg hn2, if_pos h3, mkTail_board]
  unfold mkCastleCore
  dsimp only
  rw [if_neg hfile]
  simp only [modifyState_board]
  rw [dcT_board, if_neg hfile, if_neg hfile, modifyState_board, mkHead_board]


theorem mkC_pieces_q (T : ZTables) (S : Nat) (b : Board) (m : Nat)
    (h3 : mvType m = mtCASTLE) (hfile : ¬(sqFile (mvTo m) = 6)) :
    (makeMoveSide T S b m).pieces =
      fnUpdate (fnUpdate b.pieces (mkPiece S ptKING)
          (b.pieces (mkPiece S ptKING) ^^^
            (bbFromSquare (mvFrom m) ||| bbFromSquare (mvTo m))))
        (mkPiece S ptROOK)
        (b.pieces (mkPiece S ptROOK) ^^^
          (bbFromSquare (relSquare S 0) ||| bbFromSquare (relSquare S 3))) := by
  have hn0 : ¬(mvType m = mtSIMPLE) := by rw [h3]; decide
  have hn1 : ¬(mvType m = mtPROMOTION) := by rw [h3]; decide
  have hn2 : ¬(mvType m = mtENPASSANT) := by rw [h3]; decide
  unfold makeMoveSide
  dsimp only
  rw [if_neg hn0, if_neg hn1, if_neg hn2, if_pos h3, mkTail_pieces]
  unfold mkCastleCore
  dsimp only
  rw [if_neg hfile]
  simp only [modifyState_pieces]
  rw [dcT_pieces, if_neg hfile, if_neg hfile, modifyState_pieces, mkHead_pieces]


theorem mkC_pbc_q (T : ZTables) (S : Nat) (b : Board) (m : Nat)
    (h3 : mvType m = mtCASTLE) (hfile : ¬(sqFile (mvTo m) = 6)) :
    (makeMoveSide T S b m).piecesByColor =
      fnUpdate b.piecesByColor S
        (b.piecesByColor S ^^^
          ((bbFromSquare (mvFrom m) ||| bbFromSquare (mvTo m)) |||
           (bbFromSquare (relSquare S 0) ||| bbFromSquare (relSquare S 3)))) := by
  have hn0 : ¬(mvType m = mtSIMPLE) := by rw [h3]; decide
  have hn1 : ¬(mvType m = mtPROMOTION) := by rw [h3]; decide
  have hn2 : ¬(mvType m = mtENPASSANT) := by rw [h3]; decide
  unfold makeMoveSide
  dsimp only
  rw [if_neg hn0, if_neg hn1, if_neg hn2, if_pos h3, mkTail_pbc]
  unfold mkCastleCore
  dsimp only
  rw [if_neg hfile]
  simp only [modifyState_piecesByColor]
  rw [dcT_pbc, if_neg hfile, if_neg hfile, modifyState_piecesByColor, mkHead_pbc]


theorem mkC_score_q (T : ZTables) (S : Nat) (b : Board) (m : Nat)
    (h3 : mvType m = mtCASTLE) (hfile : ¬(sqFile (mvTo m) = 6)) :
    (makeMoveSide T S b m).score =
      fnUpdate b.score S
        (((b.score S).add ((T.pst (mkPiece S ptKING) (mvTo m)).sub
            (T.pst (mkPiece S ptKING) (mvFrom m)))).add
          ((T.pst (mkPiece S ptROOK) (relSquare S 3)).sub
            (T.pst (mkPiece S ptROOK) (relSquare S 0)))) := by
  have hn0 : ¬(mvType m = mtSIMPLE) := by rw [h3]; decide
  have hn1 : ¬(mvType m = mtPROMOTION) := by rw [h3]; decide
  have hn2 : ¬(mvType m = mtENPASSANT) := by rw [h3]; decide
  unfold makeMoveSide
  dsimp only
  rw [if_neg hn0, if_neg hn1, if_neg hn2, if_pos h3, mkTail_score]
  unfold mkCastleCore
  dsimp only
  rw [if_neg hfile]
  simp only [modifyState_score]
  rw [dcT_score, if_neg hfile, if_neg hfile, modifyState_score, mkHead_score]


theorem unmake_make_castle_queen (T : ZTables) (S : Nat) (b : Board) (m : Nat)
    (hbs : b.side = S) (hS : S < 2)
    (h3 : mvType m = mtCASTLE)
    (hsqF : mvFrom m = relSquare S 4)
    (hsqT : mvTo m = relSquare S 2)
    (hbF : b.board (mvFrom m) = mkPiece S ptKING)
    (hbT : b.board (mvTo m) = 0)
    (hbR : b.board (relSquare S 0) = mkPiece S ptROOK)
    (hbE : b.board (relSquare S 3) = 0) :
    unmakeMoveSide T S (makeMoveSide T S b m) m = b := by
  have hn0 : ¬(mvType m = mtSIMPLE) := by rw [h3]; decide
  have hn1 : ¬(mvType m = mtPROMOTION) := by rw [h3]; decide
  have hn2 : ¬(mvType m = mtENPASSANT) := by rw [h3]; decide
  have hfile : ¬(sqFile (mvTo m) = 6) := by rw [hsqT]; exact sqFile_rel2_ne6 S hS
  have hkr : mkPiece S ptKING ≠ mkPiece S ptROOK :=
    mkPiece_ne_type S ptKING ptROOK hS (by decide)
  have d74 : relSquare S 0 ≠ relSquare S 4 := relSquare_inj S 0 4 hS (by decide)
  have d75 : relSquare S 0 ≠ relSquare S 3 := relSquare_inj S 0 3 hS (by decide)
  have d76 : relSquare S 0 ≠ relSquare S 2 := relSquare_inj S 0 2 hS (by decide)
  have d54 : relSquare S 3 ≠ relSquare S 4 := relSquare_inj S 3 4 hS (by decide)
  have d56 : relSquare S 3 ≠ relSquare S 2 := relSquare_inj S 3 2 hS (by decide)
  have d46 : relSquare S 4 ≠ relSquare S 2 := relSquare_inj S 4 2 hS (by decide)
  rw [hsqF] at hbF
  rw [hsqT] at hbT
  have hB := mkC_board_q T S b m h3 hfile
  have hP := mkC_pieces_q T S b m h3 hfile
  have hC := mkC_pbc_q T S b m h3 hfile
  have hM := mkC_material T S b m h3
  have hSc := mkC_score_q T S b m h3 hfile
  have hMc := mkC_moveCount T S b m h3
  have hSt := mkC_states_tail T S b m h3
  have hCap := mkC_captured T S b m h3
  unfold unmakeMoveSide
  dsimp only
  rw [hCap, if_neg hn0, if_neg hn1, if_neg hn2, if_pos h3]
  refine Board.ext ?_ ?_ ?_ ?_ ?_ ?_ ?_ ?_ <;>
    simp only [dcF_board, dcF_pieces, dcF_pbc, dcF_material, dcF_score, dcF_states,
      dcF_moveCount, dcF_side]
  · -- board
    rw [if_neg hfile, if_neg hfile, hB, hsqF, hsqT]
    funext x
    simp only [fnUpdate_apply]
    by_cases hx1 : x = relSquare S 0
    · subst hx1
      simp [hbR]
    · by_cases hx2 : x = relSquare S 3
      · subst hx2
        simp [hx1, hbE]
      · by_cases hx3 : x = relSquare S 4
        · subst hx3
          simp [hx1, hx2, d46, hbF]
        · by_cases hx4 : x = relSquare S 2
          · subst hx4
            simp [hx1, hx2, hx3, hbT]
          · simp [hx1, hx2, hx3, hx4]
  · -- pieces
    rw [if_neg hfile, if_neg hfile, hP]
    funext x
    simp only [fnUpdate_apply]
    by_cases hx1 : x = mkPiece S ptROOK
    · subst hx1
      simp [Ne.symm hkr]
      rw [xor_or_comm_cancel]
    · by_cases hx2 : x = mkPiece S ptKING
      · subst hx2
        simp [hx1, hkr]
        rw [Nat.xor_cancel_right]
      · simp [hx1, hx2]
  · -- piecesByColor
    rw [if_neg hfile, if_neg hfile, hC]
    funext x
    simp only [fnUpdate_apply]
    by_cases hx1 : x = S
    · subst hx1
      simp
      rw [xor_or3_cancel]
    · simp [hx1]
  · -- states
    rw [hSt]
  · -- material
    rw [hM]
  · -- score
    rw [if_neg hfile, if_neg hfile, hSc]
    funext x
    simp only [fnUpdate_apply]
    by_cases hx1 : x = S
    · subst hx1
      simp
      rw [Score.castle_cancel]
    · simp [hx1]
  · -- moveCount
    rw [hMc]
    omega
  · -- side
    exact hbs.symm



theorem mkEpCore_side (T : ZTables) (S : Nat) (b : Board) (m : Nat) :
    (mkEpCore T S b m).side = b.side := by
  unfold mkEpCore
  dsimp only
  rw [modifyState_side, deT_side]

theorem mkCastleCore_side (T : ZTables) (S : Nat) (b : Board) (m : Nat) :
    (mkCastleCore T S b m).side = b.side := by
  unfold mkCastleCore
  dsimp only
  split <;> simp only [modifyState_side] <;> rw [dcT_side, modifyState_side]

theorem makeMoveSide_side_eq (T : ZTables) (S : Nat) (b : Board) (m : Nat) :
    (makeMoveSide T S b m).side = S ^^^ 1 := by
  unfold makeMoveSide
  dsimp only
  rw [mkTail_side]
  split
  · rw [mkSimpleCore_side, mkHead_side]
  · split
    · rw [mkPromoCore_side, mkHead_side]
    · split
      · rw [mkEpCore_side, mkHead_side]
      · split
        · rw [mkCastleCore_side, mkHead_side]
        · rw [mkHead_side]

/-- The involution at a fixed side: dispatch over the four move types. -/
theorem unmake_make_sideS (T : ZTables) (S : Nat) (b : Board) (m : Nat)
    (hbs : b.side = S) (hS : S < 2)
    (hcons : boardConsistent b) (hmv : moveOk b m) :
    unmakeMoveSide T S (makeMoveSide T S b m) m = b := by
  subst hbs
  unfold moveOk at hmv
  obtain ⟨_, hFT, hsimple, hpromo, hep, hcastle⟩ := hmv
  have hmt := mvType_lt m
  have hcases : mvType m = 0 ∨ mvType m = 1 ∨ mvType m = 2 ∨ mvType m = 3 := by omega
  rcases hcases with h0 | h1 | h2 | h3
  · obtain ⟨hpc, _, hcap⟩ := hsimple h0
    by_cases hc : b.board (mvTo m) = 0
    · exact unmake_make_simple_quiet T b.side b m rfl h0 hc
    · rcases hcap with hcap | hcapc
      · exact absurd hcap hc
      · exact unmake_make_simple_cap T b.side b m rfl hS h0 hc hpc hcapc hcons
  · obtain ⟨hpF, hstraight, hcap⟩ := hpromo h1
    by_cases hc : b.board (mvTo m) = 0
    · exact unmake_make_promo_quiet T b.side b m rfl hS h1 hc hpF hcons
    · rcases hcap with hcap | hcapc
      · exact absurd hcap hc
      · exact unmake_make_promo_cap T b.side b m rfl hS h1 hc hstraight hpF hcapc hcons
  · obtain ⟨hpF, hcT, hpC, hcs64, hFC, hTC⟩ := hep h2
    exact unmake_make_ep T b.side b m rfl hS h2 hFT hpF hcT hpC hcs64 hFC hTC hcons
  · obtain ⟨hsqF, hTor, hbF, hbT, hk, hq⟩ := hcastle h3
    rcases hTor with hT6 | hT2
    · obtain ⟨hbR, hbE⟩ := hk hT6
      exact unmake_make_castle_king T b.side b m rfl hS h3 hsqF hT6 hbF hbT hbR hbE
    · obtain ⟨hbR, hbE⟩ := hq hT2
      exact unmake_make_castle_queen T b.side b m rfl hS h3 hsqF hT2 hbF hbT hbR hbE

/-- C1. For a position satisfying the section-3 invariants (`boardConsistent`)
and a pseudo-legal move (`moveOk`), `unmakeMove` after `makeMove` restores the
`Board` exactly: every bitboard, the square-to-piece array, the material
counters, the packed PST scores, the move counter, the side to move and the
state stack equal their pre-make values (and therefore all invariants hold
afterwards). -/
theorem C1_make_unmake_involution (T : ZTables) (b : Board) (m : Nat)
    (hcons : boardConsistent b) (hmv : moveOk b m) :
    Board.unmakeMove T (Board.makeMove T b m) m = b := by
  have hS : b.side < 2 := by
    unfold moveOk at hmv
    exact hmv.1
  unfold Board.makeMove Board.unmakeMove
  by_cases hs : b.side = 0
  · rw [if_pos hs, makeMoveSide_side_eq, if_neg (by decide : ¬((0 : Nat) ^^^ 1 = 0))]
    exact unmake_make_sideS T 0 b m hs (by decide) hcons hmv
  · have hs1 : b.side = 1 := by omega
    rw [if_neg hs, makeMoveSide_side_eq, if_pos (by decide : (1 : Nat) ^^^ 1 = 0)]
    exact unmake_make_sideS T 1 b m hs1 (by decide) hcons hmv

/-- A small concrete position for the C1 witness: white Ke1 and Pe2,
black Ke8, white to move. -/
def c1Board : Board :=
  { board := fun sq => if sq = 4 then 13 else if sq = 12 then 3 else
      if sq = 60 then 12 else 0
    pieces := fun p => if p = 13 then 16 else if p = 3 then 4096 else
      if p = 12 then 1152921504606846976 else 0
    piecesByColor := fun c => if c = 1 then 4112 else
      if c = 0 then 1152921504606846976 else 0
    states := [StateInfo.dflt]
    material := fun _ => 0
    score := fun _ => ⟨0, 0⟩
    moveCount := 1
    side := 1 }

theorem C1_make_unmake_involution_witness :
    Board.unmakeMove zZero (Board.makeMove zZero c1Board (mvMkSimple 12 20))
      (mvMkSimple 12 20) = c1Board :=
  C1_make_unmake_involution zZero c1Board (mvMkSimple 12 20)
    (by unfold boardConsistent; decide)
    (by
      unfold moveOk
      refine ⟨by decide, by decide, fun _ => ⟨by decide, by decide, Or.inl (by decide)⟩,
        fun h => absurd h (by decide), fun h => absurd h (by decide),
        fun h => absurd h (by decide)⟩)


/-! ## Theorems for the audited claims -/

/-- **C6** — For every position, `isDraw(ply)` holds exactly when: no pawns
are on the board and both material counters are at most 4; or the fifty-rule
counter is at least 100 half-moves; or the position repeats — the
`lastRepetition` field (set by `makeMove` when an earlier identical hash is
found in the reversible window, i.e. a two-fold repetition) sufficing on its
own when `ply > 0`, while for `ply = 0` the repeated-to state must itself
record a repetition, i.e. a three-fold repetition is required. -/
theorem C6_isDraw_characterisation (b : Board) (ply : Nat) :
    b.isDraw ply = true ↔
      (b.byPieceType ptPAWN = 0 ∧ b.material 1 ≤ 4 ∧ b.material 0 ≤ 4) ∨
      100 ≤ b.state.fiftyRule ∨
      (b.state.lastRepetition ≠ 0 ∧
        (0 < ply ∨
         (b.states.getD (b.state.lastRepetition - 1) StateInfo.dflt).lastRepetition ≠ 0)) := by
  have hlow : b.lowMaterialDraw = true ↔
      (b.byPieceType ptPAWN = 0 ∧ b.material 1 ≤ 4 ∧ b.material 0 ≤ 4) := by
    unfold Board.lowMaterialDraw
    split_ifs with h1 h2
    · simp only [bne_iff_ne, ne_eq] at h1
      exact iff_of_false (by simp) (fun h => h1 h.1)
    · simp only [bne_iff_ne, ne_eq, not_not] at h1
      simp only [Bool.and_eq_true, decide_eq_true_eq] at h2
      exact iff_of_true rfl ⟨h1, by omega, by omega⟩
    · simp only [Bool.and_eq_true, decide_eq_true_eq, not_and_or, not_lt] at h2
      refine iff_of_false (by simp) (fun h => ?_)
      rcases h2 with h2 | h2 <;> omega
  have hfifty : b.fiftyRuleDraw = true ↔ 100 ≤ b.state.fiftyRule := by
    simp [Board.fiftyRuleDraw]
  have hrep : b.repetitionDraw ply = true ↔
      (b.state.lastRepetition ≠ 0 ∧
        (0 < ply ∨
         (b.states.getD (b.state.lastRepetition - 1) StateInfo.dflt).lastRepetition ≠ 0)) := by
    unfold Board.repetitionDraw
    by_cases h1 : b.state.lastRepetition = 0
    · simp [h1]
    · by_cases h2 : ply = 0
      · simp only [h2, bne_iff_ne, ne_eq, h1, not_false_eq_true, if_true,
          lt_self_iff_false, false_or]
        simp [bne_iff_ne, h1]
      · simp [bne_iff_ne, h1, h2, Nat.pos_of_ne_zero h2]
  simp only [Board.isDraw, Bool.or_eq_true, hlow, hfifty, hrep]
  rw [or_assoc]

theorem C7_tt_mate_distance (N : Int) (p p' : Nat)
    (h1 : (p : Int) ≤ N) (h2 : N < 2 * (MAX_DEPTH : Int)) :
    ttProbeValue (ttStoreValue (valMATE - N) p) p' = valMATE - (N + ((p' : Int) - p)) ∧
    ttProbeValue (ttStoreValue (-valMATE + N) p) p' = -valMATE + (N + ((p' : Int) - p)) := by
  have hp : (0 : Int) ≤ (p : Int) := Int.natCast_nonneg p
  have hp' : (0 : Int) ≤ (p' : Int) := Int.natCast_nonneg p'
  simp only [MAX_DEPTH, Nat.cast_ofNat] at h2
  constructor <;>
    (simp only [ttStoreValue, ttProbeValue, isMateValue, valMATE, MAX_DEPTH,
      Bool.or_eq_true, Bool.and_eq_true, decide_eq_true_eq, Nat.cast_ofNat]
     split_ifs <;> omega)

/-- Witness for C7 at `N = 10`, `p = 3`, `p' = 7`. -/
theorem C7_tt_mate_distance_witness :
    ttProbeValue (ttStoreValue (valMATE - 10) 3) 7 = valMATE - (10 + ((7 : Int) - 3)) ∧
    ttProbeValue (ttStoreValue (-valMATE + 10) 3) 7 = -valMATE + (10 + ((7 : Int) - 3)) :=
  C7_tt_mate_distance 10 3 7 (by decide) (by decide)

/-- **C10** — every entry type `search` ever records
(`EntryType(u8(entryType) | u8(NT))`, with `entryType ∈ {ALPHA, EXACT, BETA}`
and `NT ∈ {NON_PV, PV}`) contains one of the bound encodings
`EXACT = 0b010 / BETA = 0b100 / ALPHA = 0b110` in its bound bits and is
nonzero; and `tryRecord` stores entries with exactly the given type, so the
`mainEntry.type == 0` emptiness test never classifies a live entry as empty. -/
theorem C10_recorded_type_nonzero (et nt : Nat)
    (het : et = etEXACT ∨ et = etBETA ∨ et = etALPHA) (hnt : nt = 0 ∨ nt = 1) :
    recordedEntryType et nt ≠ 0 ∧
    (recordedEntryType et nt &&& 0b110 = etEXACT ∨
     recordedEntryType et nt &&& 0b110 = etBETA ∨
     recordedEntryType et nt &&& 0b110 = etALPHA) ∧
    (∀ rootAge hash move value age depth ply main aux,
      ((tryRecord rootAge (recordedEntryType et nt) hash move value age depth ply
          main aux).1 = main ∨
       (tryRecord rootAge (recordedEntryType et nt) hash move value age depth ply
          main aux).1.type = recordedEntryType et nt) ∧
      ((tryRecord rootAge (recordedEntryType et nt) hash move value age depth ply
          main aux).2 = aux ∨
       (tryRecord rootAge (recordedEntryType et nt) hash move value age depth ply
          main aux).2.type = recordedEntryType et nt)) := by
  refine ⟨?_, ?_, ?_⟩
  · rcases het with h | h | h <;> rcases hnt with h' | h' <;> subst h h' <;> decide
  · rcases het with h | h | h <;> rcases hnt with h' | h' <;> subst h h' <;> decide
  · intro rootAge hash move value age depth ply main aux
    unfold tryRecord
    split_ifs <;> simp

/-- Witness for C10 at `entryType = EXACT`, `NT = PV`. -/
theorem C10_recorded_type_nonzero_witness :
    recordedEntryType etEXACT 1 ≠ 0 ∧
    (recordedEntryType etEXACT 1 &&& 0b110 = etEXACT ∨
     recordedEntryType etEXACT 1 &&& 0b110 = etBETA ∨
     recordedEntryType etEXACT 1 &&& 0b110 = etALPHA) ∧
    (∀ rootAge hash move value age depth ply main aux,
      ((tryRecord rootAge (recordedEntryType etEXACT 1) hash move value age depth ply
          main aux).1 = main ∨
       (tryRecord rootAge (recordedEntryType etEXACT 1) hash move value age depth ply
          main aux).1.type = recordedEntryType etEXACT 1) ∧
      ((tryRecord rootAge (recordedEntryType etEXACT 1) hash move value age depth ply
          main aux).2 = aux ∨
       (tryRecord rootAge (recordedEntryType etEXACT 1) hash move value age depth ply
          main aux).2.type = recordedEntryType etEXACT 1)) :=
  C10_recorded_type_nonzero etEXACT 1 (Or.inl rfl) (Or.inr rfl)

/-- **C5** — the code bug behind the claim: the source tests
`(type & 0x110) <= mainEntry.getBoundType()` with a *hexadecimal* `0x110`
mask, although every `EntryType` value fits in 3 bits, so the conjunct is
vacuously true (`t &&& 0x110 = 0` for `t < 8`) and the "tighter bound"
requirement of the documented policy is never enforced.  At the concrete
input below (same depth, same non-PV status, new bound `ALPHA = 0b110`
looser than the stored `EXACT = 0b010`), the claimed policy refuses the main
slot while the code overwrites it. -/
theorem C5_tryRecord_bound_mask_bug :
    (∀ t, t < 8 → t &&& 0x110 = 0) ∧
    tryRecordMainCond 5 etALPHA 5 ⟨111, 0, 0, 10, 5, etEXACT⟩ = true ∧
    claimedMainCond 5 etALPHA 5 ⟨111, 0, 0, 10, 5, etEXACT⟩ = false ∧
    (tryRecord 5 etALPHA 222 77 0 12 5 0 ⟨111, 0, 0, 10, 5, etEXACT⟩
      ⟨0, 0, 0, 0, 0, 0⟩).1 = ⟨222, 77, 0, 12, 5, etALPHA⟩ := by
  refine ⟨?_, by decide, by decide, by decide⟩
  decide

/-- **C8 (counterexample)** — the claim's incremental per-move budget
`increment + T/40` omits the `min(..., T)` clamp of
`computeIncrementalTimeLimits`: with 1000 ms increment and only 100 ms left,
the code budgets 100 ms per move (soft break at start + 50), not 1002 ms
(soft break at start + 501). -/
theorem C8_incremental_clamp_counterexample :
    (Limits.reset ⟨0, 0, 0, 0, 0, 60000, 1000, 99, 0⟩ 0 100 false).softBreak = 50 ∧
    (0 : Int) + ((1000 : Int) + (100 : Int).tdiv 40).tdiv 2 = 501 ∧
    (50 : Int) ≠ 501 := by
  refine ⟨by decide, by decide, by decide⟩

/-- After `reset` without self-play, `m_start` holds the `timeNow()` value:
none of the three regime computations touches `m_start`. -/
theorem Limits.reset_start (L : Limits) (now msLeft : Int) :
    (Limits.reset L now msLeft false).start = now := by
  unfold Limits.reset computeConventionalTimeLimits computeIncrementalTimeLimits
    computeExactTimePerMove
  dsimp only
  rw [if_neg (by simp)]
  split_ifs <;> rfl

/-- `reset` with `g_isPlayingAgainstSelf` applies the tenfold shrink (with the
100 ms floor) to the budgets that `reset` without it computes. -/
theorem reset_selfPlay_eq (L : Limits) (now msLeft : Int) :
    Limits.reset L now msLeft true =
      { Limits.reset L now msLeft false with
        softBreak := (Limits.reset L now msLeft false).start +
          max (((Limits.reset L now msLeft false).softBreak -
            (Limits.reset L now msLeft false).start).tdiv 10) 100,
        hardBreak := (Limits.reset L now msLeft false).start +
          max (((Limits.reset L now msLeft false).hardBreak -
            (Limits.reset L now msLeft false).start).tdiv 10) 100 } := rfl

/-- **C8 (amended)** — `Limits::reset` with remaining time `T`: in the
incremental regime (base time set, no control moves) the per-move budget is
`min(increment + T/40, T)` for `T ≠ 0` (and `increment + base/40` for
`T = 0`), with soft break `start + perMove/2` and hard break
`start + 0.9·perMove`; in the exact-per-move regime (increment only, base 0)
the budget is `T` itself (or the increment when `T = 0`) with soft break
`start + 0.9·perMove` and hard break `start + 0.95·perMove`; and in self-play
both computed budgets are divided by ten with a floor of 100 ms. -/
theorem C8_reset_time_budgets (L : Limits) (now msLeft : Int) :
    (L.timeControlMoves = 0 → L.baseTime ≠ 0 →
      (Limits.reset L now msLeft false).softBreak =
        now + (if msLeft ≠ 0 then min (L.incTime + msLeft.tdiv 40) msLeft
               else L.incTime + L.baseTime.tdiv 40).tdiv 2 ∧
      (Limits.reset L now msLeft false).hardBreak =
        now + ((if msLeft ≠ 0 then min (L.incTime + msLeft.tdiv 40) msLeft
                else L.incTime + L.baseTime.tdiv 40) * 9).tdiv 10) ∧
    (L.baseTime = 0 → L.incTime ≠ 0 →
      (Limits.reset L now msLeft false).softBreak =
        now + ((if msLeft ≠ 0 then msLeft else L.incTime) * 9).tdiv 10 ∧
      (Limits.reset L now msLeft false).hardBreak =
        now + ((if msLeft ≠ 0 then msLeft else L.incTime) * 19).tdiv 20) ∧
    ((Limits.reset L now msLeft true).softBreak =
        now + max (((Limits.reset L now msLeft false).softBreak - now).tdiv 10) 100 ∧
     (Limits.reset L now msLeft true).hardBreak =
        now + max (((Limits.reset L now msLeft false).hardBreak - now).tdiv 10) 100) := by
  refine ⟨?_, ?_, ?_⟩
  · intro hc hb
    unfold Limits.reset computeIncrementalTimeLimits
    dsimp only
    rw [if_neg (by simp), if_neg (by simp [hc]), if_pos (by simp [bne_iff_ne, hb])]
    dsimp only
    by_cases h : msLeft = 0
    · rw [if_neg (by simp [h]), if_neg (by simp [h])]
      exact ⟨rfl, rfl⟩
    · rw [if_pos (by simp [bne_iff_ne, h]), if_pos h]
      exact ⟨rfl, rfl⟩
  · intro hb hi
    unfold Limits.reset computeExactTimePerMove
    dsimp only
    rw [if_neg (by simp), if_neg (by simp [hb]), if_neg (by simp [hb]),
      if_pos (by simp [bne_iff_ne, hi])]
    dsimp only
    by_cases h : msLeft = 0
    · rw [if_neg (by simp [h]), if_neg (by simp [h])]
      exact ⟨rfl, rfl⟩
    · rw [if_pos (by simp [bne_iff_ne, h]), if_pos h]
      exact ⟨rfl, rfl⟩
  · rw [reset_selfPlay_eq, Limits.reset_start]
    exact ⟨rfl, rfl⟩

/-- Witness for C8 at concrete limit settings for each regime. -/
theorem C8_reset_time_budgets_witness :
    ((Limits.reset ⟨0, 0, 0, 0, 0, 60000, 1000, 99, 0⟩ 5 100000 false).softBreak =
        5 + (if (100000 : Int) ≠ 0 then
          min ((1000 : Int) + (100000 : Int).tdiv 40) 100000
          else (1000 : Int) + (60000 : Int).tdiv 40).tdiv 2 ∧
     (Limits.reset ⟨0, 0, 0, 0, 0, 60000, 1000, 99, 0⟩ 5 100000 false).hardBreak =
        5 + ((if (100000 : Int) ≠ 0 then
          min ((1000 : Int) + (100000 : Int).tdiv 40) 100000
          else (1000 : Int) + (60000 : Int).tdiv 40) * 9).tdiv 10) ∧
    ((Limits.reset ⟨0, 0, 0, 0, 0, 0, 5000, 99, 0⟩ 5 0 false).softBreak =
        5 + ((if (0 : Int) ≠ 0 then (0 : Int) else (5000 : Int)) * 9).tdiv 10 ∧
     (Limits.reset ⟨0, 0, 0, 0, 0, 0, 5000, 99, 0⟩ 5 0 false).hardBreak =
        5 + ((if (0 : Int) ≠ 0 then (0 : Int) else (5000 : Int)) * 19).tdiv 20) ∧
    ((Limits.reset ⟨0, 0, 0, 0, 0, 60000, 1000, 99, 0⟩ 5 100000 true).softBreak =
        5 + max (((Limits.reset ⟨0, 0, 0, 0, 0, 60000, 1000, 99, 0⟩ 5 100000
          false).softBreak - 5).tdiv 10) 100 ∧
     (Limits.reset ⟨0, 0, 0, 0, 0, 60000, 1000, 99, 0⟩ 5 100000 true).hardBreak =
        5 + max (((Limits.reset ⟨0, 0, 0, 0, 0, 60000, 1000, 99, 0⟩ 5 100000
          false).hardBreak - 5).tdiv 10) 100) :=
  ⟨(C8_reset_time_budgets ⟨0, 0, 0, 0, 0, 60000, 1000, 99, 0⟩ 5 100000).1 rfl
      (by decide),
   (C8_reset_time_budgets ⟨0, 0, 0, 0, 0, 0, 5000, 99, 0⟩ 5 0).2.1 rfl (by decide),
   (C8_reset_time_budgets ⟨0, 0, 0, 0, 0, 60000, 1000, 99, 0⟩ 5 100000).2.2⟩

/-- **C4 (counterexample)** — the claim's reduction formula uses
`min(0, (staticEval - beta)/300)`, which vanishes whenever the null-move
block runs (there `staticEval ≥ beta`); the code uses
`std::max((staticEval - beta)/300, 0)`.  At `depth = 2`,
`staticEval - beta = 600` the code reduces by `R = 5` while the claimed
formula gives `R = 3`; with a search oracle that fails high only at the
code's reduced depth `depth - 5 = -3`, the block returns a fail-high that
the claimed reduction would not produce. -/
theorem C4_nullmove_reduction_counterexample :
    nullMoveReduction 2 900 300 = 5 ∧
    claimedNullMoveReduction 2 900 300 = 3 ∧
    (5 : Int) ≠ 3 ∧
    nullMovePruning (fun _ _ d _ => if d = -3 then (-301 : Int) else 1000)
      0 false 900 300 2 0 true = some 301 := by
  refine ⟨by decide, by decide, by decide, by decide⟩

/-- **C4 (amended)** — at a non-PV node (`NT ≠ PV`) not in check, when the
static evaluation is at least beta, depth is at least 2 and the side to move
has non-pawn material, the null-move block searches a null move with
reduction `R = 3 + (depth-2)/5 + max(0, (staticEval-beta)/300)` (equivalently
`+ (staticEval-beta)/300`, the operand being non-negative here): the
null-move search is the zero-window `srch (-beta) (-beta+1) (depth-R) (ply+1)`
(negated); on a fail-high with depth at least 5 the result is returned only
after a zero-window verification re-search `srch (beta-1) beta (depth-R) ply`
at the same reduced depth and ply also fails high, and below depth 5 the
fail-high is returned directly (with mate scores clamped to beta). -/
theorem C4_nullmove_amended (srch : Int → Int → Int → Nat → Int) (nt : Nat)
    (staticEval beta depth : Int) (ply : Nat)
    (hnt : nt ≠ 1) (hs : staticEval ≥ beta) (hd : depth ≥ 2) :
    nullMoveReduction depth staticEval beta =
      3 + (depth - 2).tdiv 5 + (staticEval - beta).tdiv 300 ∧
    nullMovePruning srch nt false staticEval beta depth ply true =
      (let R := 3 + (depth - 2).tdiv 5 + (staticEval - beta).tdiv 300
       let tmp := -(srch (-beta) (-beta + 1) (depth - R) (ply + 1))
       if tmp ≥ beta then
         if depth ≥ 5 then
           if srch (beta - 1) beta (depth - R) ply ≥ beta then
             some (if isMateValue tmp then beta else tmp)
           else none
         else some (if isMateValue tmp then beta else tmp)
       else none) := by
  have h0 : (0 : Int) ≤ (staticEval - beta).tdiv 300 :=
    Int.tdiv_nonneg (by omega) (by norm_num)
  have h1 : (0 : Int) ≤ (depth - 2).tdiv 5 := Int.tdiv_nonneg (by omega) (by norm_num)
  have hR : nullMoveReduction depth staticEval beta =
      3 + (depth - 2).tdiv 5 + (staticEval - beta).tdiv 300 := by
    unfold nullMoveReduction
    dsimp only
    rw [max_eq_left h0, if_neg (by omega)]
  refine ⟨hR, ?_⟩
  unfold nullMovePruning
  rw [if_pos (by simp [bne_iff_ne, hnt, hs, hd]), hR]

/-- Witness for C4 (amended) at `staticEval = 100`, `beta = 40`, `depth = 6`,
`ply = 0`, `NT = NON_PV` and the constant `-50` search oracle. -/
theorem C4_nullmove_amended_witness :
    nullMoveReduction 6 100 40 = 3 + ((6 : Int) - 2).tdiv 5 + ((100 : Int) - 40).tdiv 300 ∧
    nullMovePruning (fun _ _ _ _ => (-50 : Int)) 0 false 100 40 6 0 true =
      (let R := 3 + ((6 : Int) - 2).tdiv 5 + ((100 : Int) - 40).tdiv 300
       let tmp := -((fun (_ _ _ : Int) (_ : Nat) => (-50 : Int)) (-40) (-40 + 1) (6 - R) (0 + 1))
       if tmp ≥ 40 then
         if (6 : Int) ≥ 5 then
           if (fun (_ _ _ : Int) (_ : Nat) => (-50 : Int)) (40 - 1) 40 (6 - R) 0 ≥ 40 then
             some (if isMateValue tmp then 40 else tmp)
           else none
         else some (if isMateValue tmp then 40 else tmp)
       else none) :=
  C4_nullmove_amended (fun _ _ _ _ => (-50 : Int)) 0 100 40 6 0
    (by decide) (by decide) (by decide)

/-- **C2** — SEE uses the simplified piece values computed by `initScores` as
the midpoint of the middlegame/endgame `PIECE_VALUE` entries, which are
`P = 115, N = 340, B = 370, R = 600, Q = 1100`; it returns 0 for every
castling move; and on the ten P7 scenarios (boards parsed from the listed
FENs; the Zobrist/PST table parameter only feeds the hash and score
accumulators, which `SEE` never reads, and is instantiated with the all-zero
tables) it returns exactly the values the spec states
(`+R`, `0`, `0`, `+Q`, `+P`, `+R`, `+P-Q`, `+R-P`, `+2N-P`, `0`). -/
theorem C2_SEE_simplified_values_and_scenarios :
    (∀ p : Nat, SIMPLIFIED_PIECE_VALUES p =
      ((PIECE_VALUE (pieceType p)).mg + (PIECE_VALUE (pieceType p)).eg).tdiv 2) ∧
    (SIMPLIFIED_PIECE_VALUES (mkPiece 1 ptPAWN) = 115 ∧
     SIMPLIFIED_PIECE_VALUES (mkPiece 0 ptPAWN) = 115 ∧
     SIMPLIFIED_PIECE_VALUES (mkPiece 1 ptKNIGHT) = 340 ∧
     SIMPLIFIED_PIECE_VALUES (mkPiece 0 ptKNIGHT) = 340 ∧
     SIMPLIFIED_PIECE_VALUES (mkPiece 1 ptBISHOP) = 370 ∧
     SIMPLIFIED_PIECE_VALUES (mkPiece 0 ptBISHOP) = 370 ∧
     SIMPLIFIED_PIECE_VALUES (mkPiece 1 ptROOK) = 600 ∧
     SIMPLIFIED_PIECE_VALUES (mkPiece 0 ptROOK) = 600 ∧
     SIMPLIFIED_PIECE_VALUES (mkPiece 1 ptQUEEN) = 1100 ∧
     SIMPLIFIED_PIECE_VALUES (mkPiece 0 ptQUEEN) = 1100) ∧
    (∀ (b : Board) (m : Nat), mvType m = mtCASTLE → b.SEE m = 0) ∧
    ((fromFEN zZero "8/8/5R2/8/8/1kb5/8/2K5 b - - 0 1".toList).1.SEE
        (mvMkSimple 18 45) = 600 ∧
     (fromFEN zZero "8/2k5/3b4/4n3/6N1/8/5K2/8 w - - 0 1".toList).1.SEE
        (mvMkSimple 30 36) = 0 ∧
     (fromFEN zZero "k7/3q4/8/8/3Q4/4K3/8/8 b - - 0 1".toList).1.SEE
        (mvMkSimple 51 27) = 0 ∧
     (fromFEN zZero "k7/3q4/4n3/8/3Q4/4K3/8/8 b - - 0 1".toList).1.SEE
        (mvMkSimple 51 27) = 1100 ∧
     (fromFEN zZero "1k6/5n2/8/4p3/3P4/8/1B6/2K5 w - - 0 1".toList).1.SEE
        (mvMkSimple 27 36) = 115 ∧
     (fromFEN zZero "2r3k1/2r5/2r5/8/8/2R5/2R5/2R3K1 w - - 0 1".toList).1.SEE
        (mvMkSimple 18 42) = 600 ∧
     (fromFEN zZero "6k1/7p/8/8/8/8/2Q5/6K1 w - - 0 1".toList).1.SEE
        (mvMkSimple 10 55) = 115 - 1100 ∧
     (fromFEN zZero "8/3P4/8/8/8/k7/8/1K6 w - - 0 1".toList).1.SEE
        (mvMk 51 59 mtPROMOTION ptROOK) = 600 - 115 ∧
     (fromFEN zZero "2n5/3P4/8/8/8/k7/8/1K6 w - - 0 1".toList).1.SEE
        (mvMk 51 58 mtPROMOTION ptKNIGHT) = 2 * 340 - 115 ∧
     (fromFEN zZero
        "rnbqkbnr/pp1ppppp/8/8/2pPP3/5P2/PPP3PP/RNBQKBNR b KQkq d3 0 1".toList).1.SEE
        (mvMk 26 19 mtENPASSANT ptKNIGHT) = 0) := by
  refine ⟨fun p => rfl, by decide, ?_, ?_⟩
  · intro b m hm
    unfold Board.SEE
    dsimp only
    rw [if_pos hm]
  · exact ⟨by decide, by decide, by decide, by decide, by decide, by decide, by decide,
      by decide, by decide, by decide⟩

/-- Witness for the castling conjunct of C2: SEE of white king-side castling
on the empty board is 0 (through the theorem's third component). -/
theorem C2_SEE_castling_witness :
    Board.empty.SEE (mvMk 4 6 mtCASTLE ptKNIGHT) = 0 :=
  C2_SEE_simplified_values_and_scenarios.2.2.1 Board.empty
    (mvMk 4 6 mtCASTLE ptKNIGHT) (by decide)

/-- **C3** — the code bug behind the claim: on a well-formed FEN truncated
after the en-passant field (here `"k6R/8/8/8/8/8/8/K7 b - -"`, black to move
and in check from the h8 rook), `fromFEN` takes the graceful-truncation
return path, which neither assigns the `success` out-parameter (modelled as
`none`) nor calls `initInternalState`: the returned board's `checkGivers` is
empty although the black king is attacked (recomputing the internal state
would make it non-empty).  The fifty-rule and full-move defaults (0 and 1)
themselves do hold. -/
theorem C3_fromFEN_truncation_skips_internal_state :
    (fromFEN zZero "k6R/8/8/8/8/8/8/K7 b - -".toList).2 = none ∧
    (fromFEN zZero "k6R/8/8/8/8/8/8/K7 b - -".toList).1.state.checkGivers = 0 ∧
    ((fromFEN zZero "k6R/8/8/8/8/8/8/K7 b - -".toList).1.computeAttackersOf 1
      ((fromFEN zZero "k6R/8/8/8/8/8/8/K7 b - -".toList).1.king 0)
      (fromFEN zZero "k6R/8/8/8/8/8/8/K7 b - -".toList).1.allPieces) ≠ 0 ∧
    ((fromFEN zZero "k6R/8/8/8/8/8/8/K7 b - -".toList).1.initInternalState).state.checkGivers
      ≠ 0 ∧
    (fromFEN zZero "k6R/8/8/8/8/8/8/K7 b - -".toList).1.state.fiftyRule = 0 ∧
    (fromFEN zZero "k6R/8/8/8/8/8/8/K7 b - -".toList).1.moveCount = 1 := by
  refine ⟨by decide, by decide, by decide, by decide, by decide, by decide⟩

/-! ## Claim C9: the promotion-letter default of `makeMoveFromString` -/

/-! Move-encoding extraction lemmas. -/

theorem testBit_63 (i : Nat) : (63 : Nat).testBit i = decide (i < 6) := by
  rw [show (63 : Nat) = 2 ^ 6 - 1 from rfl, Nat.testBit_two_pow_sub_one]

theorem testBit_3 (i : Nat) : (3 : Nat).testBit i = decide (i < 2) := by
  rw [show (3 : Nat) = 2 ^ 2 - 1 from rfl, Nat.testBit_two_pow_sub_one]

theorem testBit_high_false (x k i : Nat) (hx : x < 2 ^ k) (hik : k ≤ i) :
    x.testBit i = false :=
  Nat.testBit_lt_two_pow
    (lt_of_lt_of_le hx (Nat.pow_le_pow_right (by norm_num) hik))

theorem mvFrom_mvMk (f t mt pp : Nat) (hf : f < 64) :
    mvFrom (mvMk f t mt pp) = f := by
  unfold mvFrom mvMk
  apply Nat.eq_of_testBit_eq
  intro i
  rw [show (65536 : Nat) = 2 ^ 16 from rfl, show (0x3f : Nat) = 63 from rfl]
  simp only [Nat.testBit_and, Nat.testBit_mod_two_pow, Nat.testBit_or,
    Nat.testBit_shiftLeft, testBit_63]
  by_cases h6 : i < 6
  · simp [h6, show i < 16 by omega, show ¬(6 ≤ i) by omega,
      show ¬(12 ≤ i) by omega, show ¬(14 ≤ i) by omega]
  · simp [h6, testBit_high_false f 6 i hf (by omega)]

theorem mvTo_mvMk (f t mt pp : Nat) (hf : f < 64) (ht : t < 64) :
    mvTo (mvMk f t mt pp) = t := by
  unfold mvTo mvMk
  apply Nat.eq_of_testBit_eq
  intro i
  rw [show (65536 : Nat) = 2 ^ 16 from rfl, show (0x3f : Nat) = 63 from rfl]
  simp only [Nat.testBit_and, Nat.testBit_shiftRight, Nat.testBit_mod_two_pow,
    Nat.testBit_or, Nat.testBit_shiftLeft, testBit_63]
  by_cases h6 : i < 6
  · simp [h6, show 6 + i < 16 by omega, show 6 ≤ 6 + i by omega,
      show ¬(12 ≤ 6 + i) by omega, show ¬(14 ≤ 6 + i) by omega,
      testBit_high_false f 6 (6 + i) hf (by omega), show 6 + i - 6 = i by omega]
  · simp [h6, testBit_high_false t 6 i ht (by omega)]

theorem mvType_mvMk (f t mt pp : Nat) (hf : f < 256) (ht : t < 256)
    (hpp : (pp + 14) % 16 < 4) (hmt : mt < 4) :
    mvType (mvMk f t mt pp) = mt := by
  unfold mvType mvMk
  apply Nat.eq_of_testBit_eq
  intro i
  rw [show (65536 : Nat) = 2 ^ 16 from rfl, show (0x3 : Nat) = 3 from rfl]
  simp only [Nat.testBit_and, Nat.testBit_shiftRight, Nat.testBit_mod_two_pow,
    Nat.testBit_or, Nat.testBit_shiftLeft, testBit_3]
  by_cases h2 : i < 2
  · simp [h2, show 14 + i < 16 by omega, show 6 ≤ 14 + i by omega,
      show 12 ≤ 14 + i by omega, show 14 ≤ 14 + i by omega,
      show 14 + i - 6 = 8 + i by omega, show 14 + i - 12 = 2 + i by omega,
      show 14 + i - 14 = i by omega,
      testBit_high_false f 8 (14 + i) hf (by omega),
      testBit_high_false t 8 (8 + i) ht (by omega),
      testBit_high_false ((pp + 14) % 16) 2 (2 + i) hpp (by omega)]
  · simp [h2, testBit_high_false mt 2 i hmt (by omega)]

theorem mvFrom_mvMk64 (t mt pp : Nat) :
    mvFrom (mvMk 64 t mt pp) = 0 := by
  unfold mvFrom mvMk
  apply Nat.eq_of_testBit_eq
  intro i
  rw [show (65536 : Nat) = 2 ^ 16 from rfl, show (0x3f : Nat) = 63 from rfl]
  simp only [Nat.testBit_and, Nat.testBit_mod_two_pow, Nat.testBit_or,
    Nat.testBit_shiftLeft, testBit_63, Nat.zero_testBit]
  by_cases h6 : i < 6
  · rw [show (64 : Nat) = 2 ^ 6 from rfl]
    simp [h6, Nat.testBit_two_pow_of_ne (show 6 ≠ i by omega),
      show ¬(6 ≤ i) by omega, show ¬(12 ≤ i) by omega, show ¬(14 ≤ i) by omega]
  · simp [h6]

theorem mvType_mvMkSimple (f t : Nat) (hf : f < 256) (ht : t < 256) :
    mvType (mvMkSimple f t) = mtSIMPLE := by
  unfold mvMkSimple
  exact mvType_mvMk f t mtSIMPLE ptKNIGHT hf ht (by decide) (by decide)

theorem mvFrom_mvMkSimple (f t : Nat) (hf : f < 64) :
    mvFrom (mvMkSimple f t) = f :=
  mvFrom_mvMk f t mtSIMPLE ptKNIGHT hf

theorem mvTo_mvMkSimple (f t : Nat) (hf : f < 64) (ht : t < 64) :
    mvTo (mvMkSimple f t) = t :=
  mvTo_mvMk f t mtSIMPLE ptKNIGHT hf ht

/-! `bbSquares` membership. -/

theorem mem_bbSquaresAux (fuel : Nat) : ∀ (n idx q : Nat),
    q ∈ bbSquaresAux fuel n idx →
    idx ≤ q ∧ q < idx + fuel ∧ n.testBit (q - idx) = true := by
  induction fuel with
  | zero => intro n idx q h; simp [bbSquaresAux] at h
  | succ fuel ih =>
    intro n idx q h
    unfold bbSquaresAux at h
    by_cases hn : n = 0
    · rw [if_pos hn] at h; simp at h
    · rw [if_neg hn] at h
      by_cases hodd : n % 2 = 1
      · rw [if_pos hodd] at h
        rcases List.mem_cons.mp h with he | ht
        · subst he
          exact ⟨le_refl _, by omega, by simp [Nat.testBit_zero, hodd]⟩
        · obtain ⟨h1, h2, h3⟩ := ih (n / 2) (idx + 1) q ht
          refine ⟨by omega, by omega, ?_⟩
          rw [show q - idx = (q - (idx + 1)) + 1 by omega, Nat.testBit_succ]
          exact h3
      · rw [if_neg hodd] at h
        obtain ⟨h1, h2, h3⟩ := ih (n / 2) (idx + 1) q h
        refine ⟨by omega, by omega, ?_⟩
        rw [show q - idx = (q - (idx + 1)) + 1 by omega, Nat.testBit_succ]
        exact h3

theorem mem_bbSquares (bb q : Nat) (h : q ∈ bbSquares bb) :
    q < 64 ∧ bb.testBit q = true := by
  obtain ⟨h1, h2, h3⟩ := mem_bbSquaresAux 64 bb 0 q h
  exact ⟨by omega, by simpa using h3⟩

/-! `bbLsb` specification. -/

theorem bbLsbAux_spec (fuel : Nat) : ∀ n acc,
    bbLsbAux fuel n acc = acc + fuel ∨
    (acc ≤ bbLsbAux fuel n acc ∧ bbLsbAux fuel n acc < acc + fuel ∧
      n.testBit (bbLsbAux fuel n acc - acc) = true) := by
  induction fuel with
  | zero => intro n acc; left; simp [bbLsbAux]
  | succ fuel ih =>
    intro n acc
    unfold bbLsbAux
    by_cases hodd : n % 2 = 1
    · rw [if_pos hodd]
      right
      exact ⟨le_refl _, by omega, by simp [Nat.testBit_zero, hodd]⟩
    · rw [if_neg hodd]
      rcases ih (n / 2) (acc + 1) with h | ⟨h1, h2, h3⟩
      · left; omega
      · right
        refine ⟨by omega, by omega, ?_⟩
        rw [show bbLsbAux fuel (n / 2) (acc + 1) - acc =
          (bbLsbAux fuel (n / 2) (acc + 1) - (acc + 1)) + 1 by omega, Nat.testBit_succ]
        exact h3

theorem bbLsb_spec (b : BB) :
    bbLsb b = 64 ∨ (bbLsb b < 64 ∧ b.testBit (bbLsb b) = true) := by
  unfold bbLsb
  rcases bbLsbAux_spec 64 b 0 with h | ⟨h1, h2, h3⟩
  · left; omega
  · right; exact ⟨by omega, by simpa using h3⟩

theorem bbLsb_le (b : BB) : bbLsb b ≤ 64 := by
  rcases bbLsb_spec b with h | ⟨h, _⟩ <;> omega

/-! Shift / mask bit lemmas. -/

theorem testBit_and_left (a b i : Nat) (h : (a &&& b).testBit i = true) :
    a.testBit i = true := by
  simp only [Nat.testBit_and, Bool.and_eq_true] at h
  exact h.1

theorem testBit_and_right (a b i : Nat) (h : (a &&& b).testBit i = true) :
    b.testBit i = true := by
  simp only [Nat.testBit_and, Bool.and_eq_true] at h
  exact h.2

theorem testBit_shiftLeft_mask (x k T : Nat)
    (h : ((x <<< k) &&& mask64).testBit T = true) :
    k ≤ T ∧ T < 64 ∧ x.testBit (T - k) = true := by
  simp only [Nat.testBit_and, testBit_mask64, Nat.testBit_shiftLeft,
    Bool.and_eq_true, decide_eq_true_eq] at h
  exact ⟨h.1.1, h.2, h.1.2⟩

theorem testBit_shiftRight_bound (x k T : Nat) (hx : x < 2 ^ 64)
    (h : (x >>> k).testBit T = true) :
    k + T < 64 ∧ x.testBit (k + T) = true := by
  rw [Nat.testBit_shiftRight] at h
  refine ⟨?_, h⟩
  by_contra hge
  rw [testBit_high_false x 64 (k + T) hx (by omega)] at h
  exact Bool.false_ne_true h

theorem testBit_rankBB (r i : Nat) (h : (rankBB r).testBit i = true) :
    8 * r ≤ i ∧ i < 8 * r + 8 := by
  unfold rankBB at h
  obtain ⟨h1, h2, h3⟩ := testBit_shiftLeft_mask _ _ _ h
  have h8 : i - r <<< 3 < 8 := by
    by_contra hge
    rw [testBit_high_false 0xff 8 _ (by norm_num) (by omega)] at h3
    exact Bool.false_ne_true h3
  rw [Nat.shiftLeft_eq] at h1 h8
  constructor <;> omega

theorem bbFromSquare_eq_zero (sq : Nat) (h : 64 ≤ sq) : bbFromSquare sq = 0 := by
  unfold bbFromSquare
  apply Nat.eq_of_testBit_eq
  intro i
  rw [Nat.testBit_and, testBit_mask64, Nat.shiftLeft_eq, one_mul, Nat.zero_testBit]
  by_cases hi : i < 64
  · rw [Nat.testBit_two_pow_of_ne (by omega)]
    simp
  · simp [hi]

theorem bbShift_zero (d : Nat) : bbShift d 0 = 0 := by
  unfold bbShift
  split <;> try rfl
  all_goals (first | rfl | (split <;> first | rfl | (split <;> first | rfl | simp)))

theorem pawnAttackedSquares_zero (c : Nat) : pawnAttackedSquares c 0 = 0 := by
  unfold pawnAttackedSquares
  split <;> simp [bbShift_zero]

/-! Legality depends only on from/to/type. -/

theorem isLegal_congr (b : Board) (m1 m2 : Nat) (hF : mvFrom m1 = mvFrom m2)
    (hT : mvTo m1 = mvTo m2) (hMt : mvType m1 = mvType m2) :
    b.isLegal m1 = b.isLegal m2 := by
  unfold Board.isLegal
  rw [hF, hT, hMt]

/-! The matching loop of `makeMoveFromString`. -/

theorem matchMoveLoop_cons (b : Board) (F T : Nat) (s : List Char) (m : Nat)
    (rest : List Nat) :
    matchMoveLoop b F T s (m :: rest) =
      if mvFrom m = F && mvTo m = T then
        if !b.isLegal m then mvNull
        else if mvType m = mtPROMOTION then
          mvMk F T mtPROMOTION
            (if s.length > 4 then pieceType (pieceFromFENChar (s.getD 4 ' '))
             else ptKNIGHT)
        else m
      else matchMoveLoop b F T s rest := rfl

theorem matchMoveLoop_append_none (b : Board) (F T : Nat) (s : List Char)
    (l1 l2 : List Nat) (h : ∀ m ∈ l1, ¬(mvFrom m = F ∧ mvTo m = T)) :
    matchMoveLoop b F T s (l1 ++ l2) = matchMoveLoop b F T s l2 := by
  induction l1 with
  | nil => rfl
  | cons m rest ih =>
    rw [List.cons_append, matchMoveLoop_cons]
    rw [if_neg (by
      simp only [Bool.and_eq_true, decide_eq_true_eq]
      exact h m (List.mem_cons_self m rest))]
    exact ih fun m' hm' => h m' (List.mem_cons_of_mem _ hm')

theorem matchMoveLoop_first_promo (b : Board) (F T : Nat) (s : List Char)
    (l1 l2 : List Nat)
    (hlen : ¬(4 < s.length))
    (hex : ∃ m ∈ l1, mvFrom m = F ∧ mvTo m = T)
    (hall : ∀ m ∈ l1, mvFrom m = F → mvTo m = T →
      mvType m = mtPROMOTION ∧ b.isLegal m = true) :
    matchMoveLoop b F T s (l1 ++ l2) = mvMk F T mtPROMOTION ptKNIGHT := by
  induction l1 with
  | nil => simp at hex
  | cons m rest ih =>
    rw [List.cons_append, matchMoveLoop_cons]
    by_cases hc : mvFrom m = F ∧ mvTo m = T
    · obtain ⟨hty, hleg⟩ := hall m (List.mem_cons_self m rest) hc.1 hc.2
      rw [if_pos (by simp only [Bool.and_eq_true, decide_eq_true_eq]; exact hc)]
      rw [hleg]
      simp only [Bool.not_true]
      rw [if_neg (by simp), if_pos hty, if_neg hlen]
    · rw [if_neg (by
        simp only [Bool.and_eq_true, decide_eq_true_eq]
        exact hc)]
      refine ih ?_ fun m' hm' => hall m' (List.mem_cons_of_mem _ hm')
      rcases hex with ⟨m', hm', hfe⟩
      rcases List.mem_cons.mp hm' with rfl | hm'
      · exact absurd hfe hc
      · exact ⟨m', hm', hfe⟩

/-! Shapes of the generated-move segments. -/

theorem sqShift_lt_256 (d sq : Nat) : sqShift d sq < 256 := by
  unfold sqShift
  repeat' split
  all_goals omega

theorem genKingMoves_shape (S mode : Nat) (b : Board) (m : Nat)
    (hm : m ∈ genKingMoves S mode b) :
    ∃ t, t < 64 ∧ m = mvMkSimple (b.king S) t := by
  unfold genKingMoves at hm
  dsimp only at hm
  set A1 := attacksOf ptKING (b.king S) b.allPieces &&&
    (if mode != 2 then genTrg S mode b else bbNot (b.byColor S)) with hA1
  split at hm
  · rcases List.mem_map.mp hm with ⟨t, ht, rfl⟩
    exact ⟨t, (mem_bbSquares _ _ ht).1, rfl⟩
  · simp at hm

theorem genCastleMoves_shape (S mode : Nat) (b : Board) (m : Nat)
    (hm : m ∈ genCastleMoves S mode b) :
    ∃ t, t < 256 ∧ m = mvMk (b.king S) t mtCASTLE ptKNIGHT := by
  unfold genCastleMoves at hm
  dsimp only at hm
  set T1 := mkSquare 6 (if S = 1 then 0 else 7) with hT1
  set T2 := mkSquare 2 (if S = 1 then 0 else 7) with hT2
  split at hm
  · rcases List.mem_append.mp hm with h | h <;>
    · split at h
      · rcases List.mem_singleton.mp h with rfl
        exact ⟨_, Nat.mod_lt _ (by norm_num), rfl⟩
      · simp at h
  · simp at hm

theorem generatePieceMoves_shape (S mode pt : Nat) (b : Board) (allP trg : BB)
    (m : Nat) (hm : m ∈ generatePieceMoves S mode pt b allP trg) :
    ∃ f t, f < 64 ∧ t < 64 ∧ m = mvMkSimple f t := by
  unfold generatePieceMoves at hm
  dsimp only at hm
  rcases List.mem_flatMap.mp hm with ⟨f, hf, hmf⟩
  rcases List.mem_map.mp hmf with ⟨t, ht, rfl⟩
  exact ⟨f, t, (mem_bbSquares _ _ hf).1, (mem_bbSquares _ _ ht).1, rfl⟩

theorem genPieceMovesAll_shape (S mode : Nat) (b : Board) (m : Nat)
    (hm : m ∈ genPieceMovesAll S mode b) :
    ∃ f t, f < 64 ∧ t < 64 ∧ m = mvMkSimple f t := by
  unfold genPieceMovesAll at hm
  dsimp only at hm
  rcases List.mem_append.mp hm with h | h
  · rcases List.mem_append.mp h with h' | h'
    · rcases List.mem_append.mp h' with h'' | h''
      · exact generatePieceMoves_shape _ _ _ _ _ _ _ h''
      · exact generatePieceMoves_shape _ _ _ _ _ _ _ h''
    · exact generatePieceMoves_shape _ _ _ _ _ _ _ h'
  · exact generatePieceMoves_shape _ _ _ _ _ _ _ h

theorem genQuietPawnMoves_shape (S mode : Nat) (b : Board) (m : Nat)
    (hm : m ∈ genQuietPawnMoves S mode b) :
    ∃ f t, f < 256 ∧ t < 64 ∧ m = mvMkSimple f t := by
  unfold genQuietPawnMoves at hm
  dsimp only at hm
  set R3 := rankBB (if S = 1 then 2 else 5) with hR3
  set R7 := rankBB (if S = 1 then 6 else 1) with hR7
  split at hm
  · split at hm
    · dsimp only at hm
      rcases List.mem_append.mp hm with h | h <;>
      · rcases List.mem_map.mp h with ⟨t, ht, rfl⟩
        exact ⟨_, t, sqShift_lt_256 _ _, (mem_bbSquares _ _ ht).1, rfl⟩
    · split at hm <;>
      · dsimp only at hm
        rcases List.mem_append.mp hm with h | h <;>
        · rcases List.mem_map.mp h with ⟨t, ht, rfl⟩
          exact ⟨_, t, sqShift_lt_256 _ _, (mem_bbSquares _ _ ht).1, rfl⟩
  · simp at hm

theorem genPawnCaptureMoves_shape (S mode : Nat) (b : Board) (m : Nat)
    (hm : m ∈ genPawnCaptureMoves S mode b) :
    (∃ f t, f < 256 ∧ t < 64 ∧ m = mvMkSimple f t) ∨
    (∃ f, f < 64 ∧ b.state.ep < 64 ∧ m = mvMk f b.state.ep mtENPASSANT ptKNIGHT) := by
  unfold genPawnCaptureMoves at hm
  dsimp only at hm
  set R7 := rankBB (if S = 1 then 6 else 1) with hR7
  split at hm
  · rcases List.mem_append.mp hm with h | h
    · rcases List.mem_append.mp h with h' | h' <;>
      · rcases List.mem_map.mp h' with ⟨t, ht, rfl⟩
        exact Or.inl ⟨_, t, sqShift_lt_256 _ _, (mem_bbSquares _ _ ht).1, rfl⟩
    · split at h
      · rcases List.mem_map.mp h with ⟨f, hf, rfl⟩
        have hfb := mem_bbSquares _ _ hf
        have hpa : (pawnAttackedSquares (S ^^^ 1) (bbFromSquare b.state.ep)).testBit f
            = true := testBit_and_right _ _ _ hfb.2
        have hep : b.state.ep < 64 := by
          by_contra hge
          rw [bbFromSquare_eq_zero _ (by omega), pawnAttackedSquares_zero,
            Nat.zero_testBit] at hpa
          exact Bool.false_ne_true hpa
        exact Or.inr ⟨f, hfb.1, hep, rfl⟩
      · simp at h
  · simp at hm

theorem testBit_bbNot (x i : Nat) (hi : i < 64) :
    (bbNot x).testBit i = !x.testBit i := by
  unfold bbNot
  rw [Nat.testBit_xor, testBit_mask64]
  simp [hi]

theorem testBit_not_of_bbNot (x i : Nat) (hi : i < 64)
    (h : (bbNot x).testBit i = true) : x.testBit i = false := by
  rw [testBit_bbNot _ _ hi] at h
  cases hb : x.testBit i
  · rfl
  · rw [hb] at h; exact absurd h (by decide)

/-- Packaging of one `emitPromos` leaf into the promotion-shape statement. -/
theorem promoShape_pack (pawnrank allBB enemyBB : BB) (f t m : Nat)
    (hf64 : f < 64) (ht64 : t < 64)
    (hfbit : pawnrank.testBit f = true)
    (htf : allBB.testBit t = false ∨ enemyBB.testBit t = true)
    (hmem : m ∈ mvMk f t mtPROMOTION ptQUEEN ::
      [mvMk f t mtPROMOTION ptROOK, mvMk f t mtPROMOTION ptBISHOP,
       mvMk f t mtPROMOTION ptKNIGHT]) :
    ∃ f' t' pt, m = mvMk f' t' mtPROMOTION pt ∧
      (pt = ptQUEEN ∨ pt = ptROOK ∨ pt = ptBISHOP ∨ pt = ptKNIGHT) ∧
      f' < 64 ∧ t' < 64 ∧ pawnrank.testBit f' = true ∧
      (allBB.testBit t' = false ∨ enemyBB.testBit t' = true) := by
  simp only [List.mem_cons, List.not_mem_nil, or_false] at hmem
  rcases hmem with rfl | rfl | rfl | rfl
  · exact ⟨f, t, ptQUEEN, rfl, Or.inl rfl, hf64, ht64, hfbit, htf⟩
  · exact ⟨f, t, ptROOK, rfl, Or.inr (Or.inl rfl), hf64, ht64, hfbit, htf⟩
  · exact ⟨f, t, ptBISHOP, rfl, Or.inr (Or.inr (Or.inl rfl)), hf64, ht64,
      hfbit, htf⟩
  · exact ⟨f, t, ptKNIGHT, rfl, Or.inr (Or.inr (Or.inr rfl)), hf64, ht64,
      hfbit, htf⟩

theorem genPromotionMoves_shape (S mode : Nat) (b : Board) (m : Nat)
    (hS : S < 2) (hmode : mode = 0 ∨ mode = 2)
    (hpawn : b.pieces (mkPiece S ptPAWN) < 2 ^ 64)
    (hm : m ∈ genPromotionMoves S mode b) :
    ∃ f t pt, m = mvMk f t mtPROMOTION pt ∧
      (pt = ptQUEEN ∨ pt = ptROOK ∨ pt = ptBISHOP ∨ pt = ptKNIGHT) ∧
      f < 64 ∧ t < 64 ∧
      (b.pieces (mkPiece S ptPAWN) &&&
        rankBB (if S = 1 then 6 else 1)).testBit f = true ∧
      (b.allPieces.testBit t = false ∨
        (genEnemyPieces S mode b).testBit t = true) := by
  unfold genPromotionMoves at hm
  dsimp only at hm
  rcases (show S = 0 ∨ S = 1 by omega) with rfl | rfl <;>
    [(simp only [show relDir 0 dirUP = dirDOWN from rfl,
        show relDir 0 dirUPRIGHT = dirDOWNLEFT from rfl,
        show relDir 0 dirUPLEFT = dirDOWNRIGHT from rfl,
        show relDir 0 dirDOWN = dirUP from rfl,
        show relDir 0 dirDOWNRIGHT = dirUPLEFT from rfl,
        show relDir 0 dirDOWNLEFT = dirUPRIGHT from rfl,
        show ∀ x, bbShift dirDOWN x = x >>> 8 from fun _ => rfl,
        show ∀ x, bbShift dirDOWNRIGHT x = (x >>> 7) &&& bbNot (fileBB 0)
          from fun _ => rfl,
        show ∀ x, bbShift dirDOWNLEFT x = (x >>> 9) &&& bbNot (fileBB 7)
          from fun _ => rfl,
        show ∀ x, sqShift dirUP x = (x + 8) % 256 from fun _ => rfl,
        show ∀ x, sqShift dirUPLEFT x = (x + 7) % 256 from fun _ => rfl,
        show ∀ x, sqShift dirUPRIGHT x = (x + 9) % 256 from fun _ => rfl,
        show ((0 : Nat) = 1) = False from by simp, if_false] at hm ⊢);
     (simp only [show relDir 1 dirUP = dirUP from rfl,
        show relDir 1 dirUPRIGHT = dirUPRIGHT from rfl,
        show relDir 1 dirUPLEFT = dirUPLEFT from rfl,
        show relDir 1 dirDOWN = dirDOWN from rfl,
        show relDir 1 dirDOWNRIGHT = dirDOWNRIGHT from rfl,
        show relDir 1 dirDOWNLEFT = dirDOWNLEFT from rfl,
        show ∀ x, bbShift dirUP x = (x <<< 8) &&& mask64 from fun _ => rfl,
        show ∀ x, bbShift dirUPLEFT x =
          ((x <<< 7) &&& mask64) &&& bbNot (fileBB 7) from fun _ => rfl,
        show ∀ x, bbShift dirUPRIGHT x =
          ((x <<< 9) &&& mask64) &&& bbNot (fileBB 0) from fun _ => rfl,
        show ∀ x, sqShift dirDOWN x = (x + 256 - 8) % 256 from fun _ => rfl,
        show ∀ x, sqShift dirDOWNRIGHT x = (x + 256 - 7) % 256 from fun _ => rfl,
        show ∀ x, sqShift dirDOWNLEFT x = (x + 256 - 9) % 256 from fun _ => rfl,
        show ((1 : Nat) = 1) = True from by simp, if_true] at hm ⊢)] <;>
    rcases hmode with rfl | rfl <;>
    simp only [show ((0 : Nat) = 2) = False from by simp,
      show ((2 : Nat) = 2) = True from by simp,
      show ((0 : Nat) != 1) = true from rfl,
      show ((2 : Nat) != 1) = true from rfl,
      eq_self_iff_true, if_true, if_false] at hm
  -- goal order: (S=0,mode=0), (S=0,mode=2), (S=1,mode=0), (S=1,mode=2)
  · -- S = 0, mode = 0
    have hplt : b.pieces (mkPiece 0 ptPAWN) &&& rankBB 1 < 2 ^ 64 :=
      lt_of_le_of_lt Nat.and_le_left hpawn
    split at hm
    · rcases List.mem_append.mp hm with hAB | hC
      · rcases List.mem_append.mp hAB with hA | hB
        · rcases List.mem_flatMap.mp hA with ⟨t, ht, hmem⟩
          have htb := mem_bbSquares _ _ ht
          have hup := testBit_and_left _ _ _ htb.2
          have hemp := testBit_and_right _ _ _ htb.2
          obtain ⟨h8t, hbit⟩ := testBit_shiftRight_bound _ 8 _ hplt hup
          rw [show (t + 8) % 256 = t + 8 by omega] at hmem
          exact promoShape_pack _ _ _ _ _ _ (by omega) htb.1
            (by rw [show t + 8 = 8 + t by omega]; exact hbit)
            (Or.inl (testBit_not_of_bbNot _ _ htb.1 hemp)) hmem
        · rcases List.mem_flatMap.mp hB with ⟨t, ht, hmem⟩
          have htb := mem_bbSquares _ _ ht
          have hshl := testBit_and_left _ _ _ (testBit_and_left _ _ _ htb.2)
          have henemy := testBit_and_right _ _ _ htb.2
          obtain ⟨h7t, hbit⟩ := testBit_shiftRight_bound _ 7 _ hplt hshl
          rw [show (t + 7) % 256 = t + 7 by omega] at hmem
          exact promoShape_pack _ _ _ _ _ _ (by omega) htb.1
            (by rw [show t + 7 = 7 + t by omega]; exact hbit)
            (Or.inr henemy) hmem
      · rcases List.mem_flatMap.mp hC with ⟨t, ht, hmem⟩
        have htb := mem_bbSquares _ _ ht
        have hshl := testBit_and_left _ _ _ (testBit_and_left _ _ _ htb.2)
        have henemy := testBit_and_right _ _ _ htb.2
        obtain ⟨h9t, hbit⟩ := testBit_shiftRight_bound _ 9 _ hplt hshl
        rw [show (t + 9) % 256 = t + 9 by omega] at hmem
        exact promoShape_pack _ _ _ _ _ _ (by omega) htb.1
          (by rw [show t + 9 = 9 + t by omega]; exact hbit)
          (Or.inr henemy) hmem
    · simp at hm
  · -- S = 0, mode = 2
    have hplt : b.pieces (mkPiece 0 ptPAWN) &&& rankBB 1 < 2 ^ 64 :=
      lt_of_le_of_lt Nat.and_le_left hpawn
    split at hm
    · rcases List.mem_append.mp hm with hAB | hC
      · rcases List.mem_append.mp hAB with hA | hB
        · rcases List.mem_flatMap.mp hA with ⟨t, ht, hmem⟩
          have htb := mem_bbSquares _ _ ht
          have hcore := testBit_and_left _ _ _ htb.2
          have hup := testBit_and_left _ _ _ hcore
          have hemp := testBit_and_right _ _ _ hcore
          obtain ⟨h8t, hbit⟩ := testBit_shiftRight_bound _ 8 _ hplt hup
          rw [show (t + 8) % 256 = t + 8 by omega] at hmem
          exact promoShape_pack _ _ _ _ _ _ (by omega) htb.1
            (by rw [show t + 8 = 8 + t by omega]; exact hbit)
            (Or.inl (testBit_not_of_bbNot _ _ htb.1 hemp)) hmem
        · rcases List.mem_flatMap.mp hB with ⟨t, ht, hmem⟩
          have htb := mem_bbSquares _ _ ht
          have hshl := testBit_and_left _ _ _ (testBit_and_left _ _ _ htb.2)
          have henemy := testBit_and_right _ _ _ htb.2
          obtain ⟨h7t, hbit⟩ := testBit_shiftRight_bound _ 7 _ hplt hshl
          rw [show (t + 7) % 256 = t + 7 by omega] at hmem
          exact promoShape_pack _ _ _ _ _ _ (by omega) htb.1
            (by rw [show t + 7 = 7 + t by omega]; exact hbit)
            (Or.inr henemy) hmem
      · rcases List.mem_flatMap.mp hC with ⟨t, ht, hmem⟩
        have htb := mem_bbSquares _ _ ht
        have hshl := testBit_and_left _ _ _ (testBit_and_left _ _ _ htb.2)
        have henemy := testBit_and_right _ _ _ htb.2
        obtain ⟨h9t, hbit⟩ := testBit_shiftRight_bound _ 9 _ hplt hshl
        rw [show (t + 9) % 256 = t + 9 by omega] at hmem
        exact promoShape_pack _ _ _ _ _ _ (by omega) htb.1
          (by rw [show t + 9 = 9 + t by omega]; exact hbit)
          (Or.inr henemy) hmem
    · simp at hm
  · -- S = 1, mode = 0
    split at hm
    · rcases List.mem_append.mp hm with hAB | hC
      · rcases List.mem_append.mp hAB with hA | hB
        · rcases List.mem_flatMap.mp hA with ⟨t, ht, hmem⟩
          have htb := mem_bbSquares _ _ ht
          have hup := testBit_and_left _ _ _ htb.2
          have hemp := testBit_and_right _ _ _ htb.2
          obtain ⟨h8t, ht64, hbit⟩ := testBit_shiftLeft_mask _ 8 _ hup
          rw [show (t + 256 - 8) % 256 = t - 8 by omega] at hmem
          exact promoShape_pack _ _ _ _ _ _ (by omega) ht64 hbit
            (Or.inl (testBit_not_of_bbNot _ _ htb.1 hemp)) hmem
        · rcases List.mem_flatMap.mp hB with ⟨t, ht, hmem⟩
          have htb := mem_bbSquares _ _ ht
          have hshl := testBit_and_left _ _ _ (testBit_and_left _ _ _ htb.2)
          have henemy := testBit_and_right _ _ _ htb.2
          obtain ⟨h7t, ht64, hbit⟩ := testBit_shiftLeft_mask _ 7 _ hshl
          rw [show (t + 256 - 7) % 256 = t - 7 by omega] at hmem
          exact promoShape_pack _ _ _ _ _ _ (by omega) ht64 hbit
            (Or.inr henemy) hmem
      · rcases List.mem_flatMap.mp hC with ⟨t, ht, hmem⟩
        have htb := mem_bbSquares _ _ ht
        have hshl := testBit_and_left _ _ _ (testBit_and_left _ _ _ htb.2)
        have henemy := testBit_and_right _ _ _ htb.2
        obtain ⟨h9t, ht64, hbit⟩ := testBit_shiftLeft_mask _ 9 _ hshl
        rw [show (t + 256 - 9) % 256 = t - 9 by omega] at hmem
        exact promoShape_pack _ _ _ _ _ _ (by omega) ht64 hbit
          (Or.inr henemy) hmem
    · simp at hm
  · -- S = 1, mode = 2
    split at hm
    · rcases List.mem_append.mp hm with hAB | hC
      · rcases List.mem_append.mp hAB with hA | hB
        · rcases List.mem_flatMap.mp hA with ⟨t, ht, hmem⟩
          have htb := mem_bbSquares _ _ ht
          have hcore := testBit_and_left _ _ _ htb.2
          have hup := testBit_and_left _ _ _ hcore
          have hemp := testBit_and_right _ _ _ hcore
          obtain ⟨h8t, ht64, hbit⟩ := testBit_shiftLeft_mask _ 8 _ hup
          rw [show (t + 256 - 8) % 256 = t - 8 by omega] at hmem
          exact promoShape_pack _ _ _ _ _ _ (by omega) ht64 hbit
            (Or.inl (testBit_not_of_bbNot _ _ htb.1 hemp)) hmem
        · rcases List.mem_flatMap.mp hB with ⟨t, ht, hmem⟩
          have htb := mem_bbSquares _ _ ht
          have hshl := testBit_and_left _ _ _ (testBit_and_left _ _ _ htb.2)
          have henemy := testBit_and_right _ _ _ htb.2
          obtain ⟨h7t, ht64, hbit⟩ := testBit_shiftLeft_mask _ 7 _ hshl
          rw [show (t + 256 - 7) % 256 = t - 7 by omega] at hmem
          exact promoShape_pack _ _ _ _ _ _ (by omega) ht64 hbit
            (Or.inr henemy) hmem
      · rcases List.mem_flatMap.mp hC with ⟨t, ht, hmem⟩
        have htb := mem_bbSquares _ _ ht
        have hshl := testBit_and_left _ _ _ (testBit_and_left _ _ _ htb.2)
        have henemy := testBit_and_right _ _ _ htb.2
        obtain ⟨h9t, ht64, hbit⟩ := testBit_shiftLeft_mask _ 9 _ hshl
        rw [show (t + 256 - 9) % 256 = t - 9 by omega] at hmem
        exact promoShape_pack _ _ _ _ _ _ (by omega) ht64 hbit
          (Or.inr henemy) hmem
    · simp at hm

/-- The part of the §3 internal-state invariant used for `CHECK_EVASIONS`
generation: every check-giver square holds an opponent piece. -/
def checkInfoConsistent (b : Board) : Prop :=
  ∀ sq, sq < 64 → bbTest b.state.checkGivers sq = true →
    bbTest (b.piecesByColor (b.side ^^^ 1)) sq = true

theorem xor_one_lt' (S : Nat) (hS : S < 2) : S ^^^ 1 < 2 := by
  interval_cases S <;> decide

/-- The matching loop on the generated list of a position holding a legal
promotion with the parsed from/to squares: it returns the knight promotion,
and the parsed squares pass the pre-loop guard of `makeMoveFromString`. -/
theorem gen_promo_loop (b : Board) (mode : Nat) (s : List Char) (F T : Nat)
    (hcons : boardConsistent b) (hchk : checkInfoConsistent b)
    (hS : b.side < 2) (hmode : mode = 0 ∨ mode = 2) (hlen : ¬(4 < s.length))
    (hex : ∃ m ∈ generateMovesSide b.side mode b,
      mvFrom m = F ∧ mvTo m = T ∧ mvType m = mtPROMOTION ∧ b.isLegal m = true) :
    matchMoveLoop b F T s (generateMovesSide b.side mode b) =
      mvMk F T mtPROMOTION ptKNIGHT ∧
    bbTest (b.byColor b.side) F = true ∧
    bbTest (b.byColor b.side) T = false ∧ F ≠ T := by
  obtain ⟨inv1, inv2, inv3, inv4, inv5⟩ := hcons
  obtain ⟨m', hm', hmF, hmT, hmTy, hmLeg⟩ := hex
  have hking_le : b.king b.side ≤ 64 := bbLsb_le _
  unfold generateMovesSide at hm' ⊢
  by_cases hdc : (mode = 2 && bbHasMoreThanOne b.checkGivers) = true
  · rw [if_pos hdc] at hm' ⊢
    obtain ⟨t, ht64, rfl⟩ := genKingMoves_shape _ _ _ _ hm'
    rw [mvType_mvMkSimple _ _ (by omega) (by omega)] at hmTy
    exact absurd hmTy (by decide)
  · rw [if_neg hdc] at hm' ⊢
    simp only [List.append_assoc] at hm' ⊢
    have hpawn : b.pieces (mkPiece b.side ptPAWN) < 2 ^ 64 :=
      inv1 _ (mkPiece_lt14 _ _ hS (by decide))
    -- the matching promotion move must come from the promotion section
    rcases List.mem_append.mp hm' with hK | hRest
    · obtain ⟨t, ht64, rfl⟩ := genKingMoves_shape _ _ _ _ hK
      rw [mvType_mvMkSimple _ _ (by omega) (by omega)] at hmTy
      exact absurd hmTy (by decide)
    rcases List.mem_append.mp hRest with hP | hRest2
    rotate_left
    · rcases List.mem_append.mp hRest2 with hPC | hRest3
      · rcases genPawnCaptureMoves_shape _ _ _ _ hPC with
          ⟨f, t, hf, ht, rfl⟩ | ⟨f, hf, hep, rfl⟩
        · rw [mvType_mvMkSimple _ _ (by omega) (by omega)] at hmTy
          exact absurd hmTy (by decide)
        · rw [mvType_mvMk _ _ _ _ (by omega) (by omega) (by decide) (by decide)]
            at hmTy
          exact absurd hmTy (by decide)
      rcases List.mem_append.mp hRest3 with hQ | hRest4
      · obtain ⟨f, t, hf, ht, rfl⟩ := genQuietPawnMoves_shape _ _ _ _ hQ
        rw [mvType_mvMkSimple _ _ (by omega) (by omega)] at hmTy
        exact absurd hmTy (by decide)
      rcases List.mem_append.mp hRest4 with hPM | hC
      · obtain ⟨f, t, hf, ht, rfl⟩ := genPieceMovesAll_shape _ _ _ _ hPM
        rw [mvType_mvMkSimple _ _ (by omega) (by omega)] at hmTy
        exact absurd hmTy (by decide)
      · obtain ⟨t, ht, rfl⟩ := genCastleMoves_shape _ _ _ _ hC
        rw [mvType_mvMk _ _ _ _ (by omega) (by omega) (by decide) (by decide)]
          at hmTy
        exact absurd hmTy (by decide)
    -- m' = mvMk f t PROMOTION pt generated by the promotion section
    obtain ⟨f, t, pt, rfl, hptc, hf64, ht64, hfbit, htfact⟩ :=
      genPromotionMoves_shape _ _ _ _ hS hmode hpawn hP
    have hFf : F = f := by rw [← hmF, mvFrom_mvMk _ _ _ _ hf64]
    have hTt : T = t := by rw [← hmT, mvTo_mvMk _ _ _ _ hf64 ht64]
    subst hFf hTt
    -- the from-square holds a pawn of the side to move
    have hpbit : bbTest (b.pieces (mkPiece b.side ptPAWN)) F = true := by
      rw [bbTest_eq_testBit _ _ hf64]
      exact testBit_and_left _ _ _ hfbit
    have hboardF : b.board F = mkPiece b.side ptPAWN :=
      (inv3 F hf64 _ (mkPiece_ge2 _ _ hS (by decide))
        (mkPiece_lt14 _ _ hS (by decide))).mp hpbit
    have hbF : bbTest (b.piecesByColor b.side) F = true := by
      refine (inv4 F hf64 _ hS).mpr ⟨?_, ?_⟩
      · rw [hboardF]
        have := mkPiece_ge2 b.side ptPAWN hS (by decide)
        omega
      · rw [hboardF, pieceColor_mkPiece _ _ hS]
    -- the to-square holds no piece of the side to move
    have hbcOpp : bbTest (b.piecesByColor (b.side ^^^ 1)) T = true →
        bbTest (b.piecesByColor b.side) T = false := by
      intro hopp
      obtain ⟨hne, hcol⟩ := (inv4 T ht64 _ (xor_one_lt' _ hS)).mp hopp
      cases hb : bbTest (b.piecesByColor b.side) T
      · rfl
      · obtain ⟨_, hcol'⟩ := (inv4 T ht64 _ hS).mp hb
        rw [hcol'] at hcol
        exact absurd hcol (xor_one_ne _ hS).symm
    have hbT : bbTest (b.piecesByColor b.side) T = false := by
      rcases htfact with hemp | henemy
      · unfold Board.allPieces at hemp
        rw [Nat.testBit_or] at hemp
        rw [bbTest_eq_testBit _ _ ht64]
        rcases (show b.side = 0 ∨ b.side = 1 by omega) with hs0 | hs1
        · rw [hs0]
          cases h0 : (b.piecesByColor 0).testBit T
          · rfl
          · rw [h0] at hemp; simp at hemp
        · rw [hs1]
          cases h1 : (b.piecesByColor 1).testBit T
          · rfl
          · rw [h1] at hemp; simp at hemp
      · rcases hmode with rfl | rfl
        · have henemy' : (b.piecesByColor (b.side ^^^ 1)).testBit T = true := by
            have hgE : genEnemyPieces b.side 0 b = b.piecesByColor (b.side ^^^ 1) :=
              rfl
            rw [hgE] at henemy
            exact henemy
          exact hbcOpp (by rw [bbTest_eq_testBit _ _ ht64]; exact henemy')
        · have hgE : genEnemyPieces b.side 2 b = b.state.checkGivers := rfl
          rw [hgE] at henemy
          exact hbcOpp (hchk T ht64 (by rw [bbTest_eq_testBit _ _ ht64]; exact henemy))
    have hft : F ≠ T := by
      intro he
      rw [he] at hbF
      rw [hbF] at hbT
      exact absurd hbT (by decide)
    refine ⟨?_, hbF, hbT, hft⟩
    -- no king move matches the parsed squares
    rw [matchMoveLoop_append_none b F T s _ _ ?_]
    · -- the promotion section contains the match, and every match in it is
      -- a legal promotion
      refine matchMoveLoop_first_promo b F T s _ _ hlen ⟨_, hP, hmF, hmT⟩ ?_
      intro m1 hm1 h1F h1T
      obtain ⟨f1, t1, pt1, rfl, hptc1, hf164, ht164, _, _⟩ :=
        genPromotionMoves_shape _ _ _ _ hS hmode hpawn hm1
      have hty1 : mvType (mvMk f1 t1 mtPROMOTION pt1) = mtPROMOTION :=
        mvType_mvMk _ _ _ _ (by omega) (by omega)
          (by rcases hptc1 with rfl | rfl | rfl | rfl <;> decide) (by decide)
      refine ⟨hty1, ?_⟩
      rw [isLegal_congr b _ (mvMk F T mtPROMOTION pt) (by rw [h1F, hmF])
        (by rw [h1T, hmT]) (by rw [hty1, hmTy])]
      exact hmLeg
    · intro mk hmk hc
      obtain ⟨T', ht', rfl⟩ := genKingMoves_shape _ _ _ _ hmk
      have hrank := testBit_and_right _ _ _ hfbit
      obtain ⟨hrk1, hrk2⟩ := testBit_rankBB _ _ hrank
      have hrge : 1 ≤ (if b.side = 1 then 6 else 1) := by split <;> omega
      unfold Board.king at hc hking_le
      rcases bbLsb_spec (b.pieces (mkPiece b.side ptKING)) with hk64 | ⟨hklt, hkbit⟩
      · rw [hk64] at hc
        have h0 : mvFrom (mvMkSimple 64 T') = 0 := by
          unfold mvMkSimple
          exact mvFrom_mvMk64 _ _ _
        rw [h0] at hc
        omega
      · rw [mvFrom_mvMkSimple _ _ hklt] at hc
        have hkbitF : bbTest (b.pieces (mkPiece b.side ptKING)) F = true := by
          rw [bbTest_eq_testBit _ _ (by omega : F < 64), ← hc.1]
          exact hkbit
        have hboardK : b.board F = mkPiece b.side ptKING :=
          (inv3 F hf64 _ (mkPiece_ge2 _ _ hS (by decide))
            (mkPiece_lt14 _ _ hS (by decide))).mp hkbitF
        rw [hboardF] at hboardK
        exact absurd hboardK (mkPiece_ne_type _ _ _ hS (by decide))

/-- C9. For every consistent position and every four-character long-algebraic
move string (no trailing promotion letter) that matches a generated legal
promotion move, `makeMoveFromString` returns the promotion to a KNIGHT: the
promoted piece defaults to knight, not queen, when the promotion letter is
absent. -/
theorem C9_promotion_defaults_to_knight (b : Board) (s : List Char)
    (hcons : boardConsistent b) (hchk : checkInfoConsistent b)
    (hS : b.side < 2) (hlen : s.length = 4)
    (hex : ∃ m ∈ b.generateMoves 0,
      mvFrom m = sqFromChars (s.getD 0 ' ') (s.getD 1 ' ') ∧
      mvTo m = sqFromChars (s.getD 2 ' ') (s.getD 3 ' ') ∧
      mvType m = mtPROMOTION ∧ b.isLegal m = true) :
    b.makeMoveFromString s =
      mvMk (sqFromChars (s.getD 0 ' ') (s.getD 1 ' '))
        (sqFromChars (s.getD 2 ' ') (s.getD 3 ' ')) mtPROMOTION ptKNIGHT := by
  have h3 : s ≠ "0-0".toList := by
    intro h; rw [h] at hlen; exact absurd hlen (by decide)
  have h5 : s ≠ "0-0-0".toList := by
    intro h; rw [h] at hlen; exact absurd hlen (by decide)
  have hmode : (if b.isInCheck then 2 else 0) = 0 ∨
      (if b.isInCheck then 2 else 0) = 2 := by
    split
    · right; rfl
    · left; rfl
  have hgm : b.generateMoves 0 =
      generateMovesSide b.side (if b.isInCheck then 2 else 0) b := by
    unfold Board.generateMoves
    by_cases hic : b.isInCheck
    · simp [hic]
    · simp [hic]
  rw [hgm] at hex
  obtain ⟨hloop, hgF, hgT, hFT⟩ :=
    gen_promo_loop b _ s _ _ ⟨hcons.1, hcons.2.1, hcons.2.2.1, hcons.2.2.2.1,
      hcons.2.2.2.2⟩ hchk hS hmode (by omega) hex
  unfold Board.makeMoveFromString
  rw [if_neg (by simp [hlen])]
  rw [if_neg h3, if_neg h5]
  dsimp only
  rw [hgm, hgF, hgT, decide_eq_false hFT]
  rw [if_neg (by decide)]
  exact hloop

/-- A concrete promotion position for the C9 witness: white Pd7 and Kb1,
black Ka3, white to move; "d7d8" carries no promotion letter. -/
def c9Board : Board :=
  { board := fun sq => if sq = 51 then 3 else if sq = 1 then 13 else
      if sq = 16 then 12 else 0
    pieces := fun p => if p = 3 then 2251799813685248 else if p = 13 then 2 else
      if p = 12 then 65536 else 0
    piecesByColor := fun c => if c = 1 then 2251799813685250 else
      if c = 0 then 65536 else 0
    states := [StateInfo.dflt]
    material := fun _ => 0
    score := fun _ => ⟨0, 0⟩
    moveCount := 1
    side := 1 }

theorem C9_promotion_defaults_to_knight_witness :
    Board.makeMoveFromString c9Board ("d7d8".toList) =
      mvMk 51 59 mtPROMOTION ptKNIGHT :=
  C9_promotion_defaults_to_knight c9Board ("d7d8".toList)
    (by unfold boardConsistent; decide)
    (by unfold checkInfoConsistent; decide)
    (by decide) (by decide)
    ⟨mvMk 51 59 mtPROMOTION ptQUEEN, by decide, by decide, by decide,
      by decide, by decide⟩

end WokeChess
